import Mathlib

/-!
# Animation driver evaluation and frustum culling of `VulkanSystem.cpp`

A shallow embedding of the driver evaluation functions of `src/VulkanSystem.cpp`
(`updateChannelStep`, `updateChannelLinear`, `updateChannelSlerp`, `updateTransform`,
`runDrivers`, `setDriverRuntime`) and of its culling functions (`findFrustumInfo`,
`sphereInFrustum`, `getCameraSpace`, `cullInstances`, `cullIndexPools` and the valid flags of
`createIndexBuffers`).

Modelling conventions.

* `float` is an element of an arbitrary linearly ordered field `F` (exact arithmetic; `ℚ` for
  evaluation).  Rounding is not modelled.  Division is the field's division, so a quotient is
  only meaningful where the divisor is non-zero.
* `std::vector<T>` is `List T`.  An out-of-range subscript is undefined behaviour in C++; here
  every subscript is checked and the function stops with a `Fault` that names the vector.
* A function that mutates `*driver` and `*sceneGraphP` and returns `bool` becomes a function
  from the old driver and scene graph to `Except Fault (Driver × SceneGraph × Bool)`.
* `int ind` only ever holds values `0 ≤ ind`, it is a `Nat`; `lastIndex` is an `Int`.
-/

namespace VulkanSystem

/-! ## Data model -/

/-- Modelled from the spec: `float_3` of `MathHelpers.h` (absent from `src/`), a 3-vector of
floats. -/
structure float_3 (F : Type) where
  x : F
  y : F
  z : F
deriving DecidableEq, Repr

namespace float_3

variable {F : Type}

/-- Modelled from the spec: `float_3::operator*(float)` of `MathHelpers.h` (absent), the
componentwise scaling used to "linearly blend the two 3-vectors". -/
def scale [Mul F] (v : float_3 F) (s : F) : float_3 F :=
  ⟨v.x * s, v.y * s, v.z * s⟩

/-- Modelled from the spec: `float_3::operator+(float_3)` of `MathHelpers.h` (absent), the
componentwise sum used to "linearly blend the two 3-vectors". -/
def add [Add F] (v w : float_3 F) : float_3 F :=
  ⟨v.x + w.x, v.y + w.y, v.z + w.z⟩

end float_3

/-- The operations of `MathHelpers.h` and `<cmath>` that the driver code calls on
`quaternion<float>` and on floats.  The header is absent from `src/`, so the quaternion type `Q`
and these operations are parameters of the embedding. -/
structure MathHelpers (F : Type) (Q : Type) where
  /-- The default-constructed `quaternion<float>()`. -/
  quat : Q
  /-- The receiver after `q.setAngle(a)`. -/
  setAngle : Q → F → Q
  /-- The receiver after `q.setAxis(v)`. -/
  setAxis : Q → float_3 F → Q
  /-- The product `q * s` of a quaternion and a float. -/
  qscale : Q → F → Q
  /-- The sum `q + r` of two quaternions. -/
  qadd : Q → Q → Q
  /-- The value returned by `q.normalize()`. -/
  normalize : Q → Q
  /-- The state of the receiver `q` after the call `q.normalize()` (the header is absent, so
  whether the call normalises in place is not known). -/
  normalizeSelf : Q → Q
  /-- The value of `q.dot(r)`. -/
  dot : Q → Q → F
  /-- The `<cmath>` function `sin`. -/
  sin : F → F
  /-- The `<cmath>` function `acos`. -/
  acos : F → F

/-- Channel kind of a driver (`CH_TRANSLATE`, `CH_ROTATE`, and the `default: //SCALE` case). -/
inductive Channel where
  | CH_TRANSLATE
  | CH_ROTATE
  | CH_SCALE
deriving DecidableEq, Repr

/-- Interpolation kind of a driver (`LINEAR`, `STEP`, and the `default: //SLERP` case). -/
inductive Interpolation where
  | LINEAR
  | STEP
  | SLERP
deriving DecidableEq, Repr

/-- Modelled from the spec: `Driver` of `SceneGraph.h` (absent from `src/`), with the fields
that `VulkanSystem.cpp` reads and writes. -/
structure Driver (F : Type) where
  id : Nat
  channel : Channel
  interpolation : Interpolation
  times : List F
  values : List F
  currentRuntime : F
  lastIndex : Int
deriving DecidableEq, Repr

/-- Modelled from the spec: the local transform fields of a scene graph node of `SceneGraph.h`
(absent from `src/`) that the driver code writes. -/
structure GraphNode (F : Type) (Q : Type) where
  translate : float_3 F
  rotation : Q
  scale : float_3 F
deriving DecidableEq, Repr

/-- Modelled from the spec: `SceneGraph` of `SceneGraph.h` (absent from `src/`), reduced to its
`graphNodes` vector. -/
structure SceneGraph (F : Type) (Q : Type) where
  graphNodes : List (GraphNode F Q)
deriving DecidableEq, Repr

/-- Which vector an out-of-range subscript was applied to. -/
inductive Fault where
  | times
  | values
  | node
deriving DecidableEq, Repr

/-- What a driver update leaves behind: the driver, the scene graph and the returned `bool`. -/
abbrev Outcome (F : Type) (Q : Type) := Driver F × SceneGraph F Q × Bool

section Code

variable {F : Type} {Q : Type}

/-- A checked `xs[i]` read. -/
def readAt (f : Fault) (xs : List F) (i : Nat) : Except Fault F :=
  match xs[i]? with
  | some v => .ok v
  | none => .error f

/-- The `float_3(values[k], values[k + 1], values[k + 2])` read, in that order. -/
def readVec (values : List F) (k : Nat) : Except Fault (float_3 F) := do
  let a ← readAt Fault.values values k
  let b ← readAt Fault.values values (k + 1)
  let c ← readAt Fault.values values (k + 2)
  pure ⟨a, b, c⟩

/-- A checked `sceneGraphP->graphNodes[id].field = ...` write; `f` performs the field update. -/
def writeNode (sg : SceneGraph F Q) (id : Nat) (f : GraphNode F Q → GraphNode F Q) :
    Except Fault (SceneGraph F Q) :=
  match sg.graphNodes[id]? with
  | some n => .ok ⟨sg.graphNodes.set id (f n)⟩
  | none => .error Fault.node

/-- The function `updateChannelStep` (VulkanSystem.cpp:160-195). -/
def updateChannelStep (M : MathHelpers F Q) (driver : Driver F) (ind : Nat)
    (sg : SceneGraph F Q) : Except Fault (Outcome F Q) :=
  if driver.lastIndex = (ind : Int) then pure (driver, sg, false)
  else do
    let driver := { driver with lastIndex := (ind : Int) }
    match driver.channel with
    | .CH_TRANSLATE =>
      let translate ← readVec driver.values (ind * 3)
      let sg ← writeNode sg driver.id (fun n => { n with translate := translate })
      pure (driver, sg, true)
    | .CH_ROTATE =>
      let angle ← readAt Fault.values driver.values (ind * 4 + 3)
      let rotate := M.setAngle M.quat angle
      let axis ← readVec driver.values (ind * 4)
      let rotate := M.setAxis rotate axis
      let sg ← writeNode sg driver.id (fun n => { n with rotation := rotate })
      pure (driver, sg, true)
    | .CH_SCALE =>
      let scale ← readVec driver.values (ind * 3)
      let sg ← writeNode sg driver.id (fun n => { n with scale := scale })
      pure (driver, sg, true)

variable [LinearOrderedField F]

/-- The `nextInd` of `updateChannelLinear` and `updateChannelSlerp`:
`nextInd = ind + 1; if (nextInd >= times.size()) nextInd = 0;`. -/
def nextIndex (times : List F) (ind : Nat) : Nat :=
  if ind + 1 ≥ times.length then 0 else ind + 1

/-- The function `updateChannelLinear` (VulkanSystem.cpp:197-256). -/
def updateChannelLinear (M : MathHelpers F Q) (driver : Driver F) (ind : Nat)
    (sg : SceneGraph F Q) : Except Fault (Outcome F Q) := do
  let nextInd := nextIndex driver.times ind
  let timeInd ← readAt Fault.times driver.times ind
  let timeNext ← readAt Fault.times driver.times nextInd
  let t := (driver.currentRuntime - timeInd) / (timeNext - timeInd)
  match driver.channel with
  | .CH_TRANSLATE =>
    let translateInd ← readVec driver.values (ind * 3)
    let translateNext ← readVec driver.values (nextInd * 3)
    let sg ← writeNode sg driver.id (fun n =>
      { n with translate := (translateInd.scale (1 - t)).add (translateNext.scale t) })
    pure (driver, sg, true)
  | .CH_ROTATE =>
    let angleInd ← readAt Fault.values driver.values (ind * 4 + 3)
    let rotateInd := M.setAngle M.quat angleInd
    let axisInd ← readVec driver.values (ind * 4)
    let rotateInd := M.setAxis rotateInd axisInd
    let rotateInd := M.qscale rotateInd (1 - t)
    let angleNext ← readAt Fault.values driver.values (nextInd * 4 + 3)
    let rotateNext := M.setAngle M.quat angleNext
    let axisNext ← readVec driver.values (nextInd * 4)
    let rotateNext := M.setAxis rotateNext axisNext
    let rotateNext := M.qscale rotateNext t
    let sg ← writeNode sg driver.id (fun n =>
      { n with rotation := M.qadd rotateInd rotateNext })
    pure (driver, sg, true)
  | .CH_SCALE =>
    let scaleInd ← readVec driver.values (ind * 3)
    let scaleNext ← readVec driver.values (nextInd * 3)
    let sg ← writeNode sg driver.id (fun n =>
      { n with scale := (scaleInd.scale (1 - t)).add (scaleNext.scale t) })
    pure (driver, sg, true)

/-- The function `updateChannelSlerp` (VulkanSystem.cpp:258-313). -/
def updateChannelSlerp (M : MathHelpers F Q) (driver : Driver F) (ind : Nat)
    (sg : SceneGraph F Q) : Except Fault (Outcome F Q) := do
  let nextInd := nextIndex driver.times ind
  let timeInd ← readAt Fault.times driver.times ind
  let timeNext ← readAt Fault.times driver.times nextInd
  let t := (driver.currentRuntime - timeInd) / (timeNext - timeInd)
  match driver.channel with
  | .CH_TRANSLATE => updateChannelLinear M driver ind sg
  | .CH_ROTATE =>
    let angleInd ← readAt Fault.values driver.values (ind * 4 + 3)
    let rotateInd := M.setAngle M.quat (angleInd * (1 - t))
    let axisInd ← readVec driver.values (ind * 4)
    let rotateInd := M.setAxis rotateInd (axisInd.scale (1 - t))
    let angleNext ← readAt Fault.values driver.values (nextInd * 4 + 3)
    let rotateNext := M.setAngle M.quat (angleNext * t)
    let axisNext ← readVec driver.values (nextInd * 4)
    let rotateNext := M.setAxis rotateNext (axisNext.scale t)
    let dotAngle := M.dot (M.normalize rotateInd) (M.normalize rotateNext)
    let rotateInd := M.normalizeSelf rotateInd
    let omega := M.acos dotAngle
    -- "Recalculate vectors without pre-interpolating": `rotateInd` is not reset here
    let angleInd ← readAt Fault.values driver.values (ind * 4 + 3)
    let rotateInd := M.setAngle rotateInd angleInd
    let axisInd ← readVec driver.values (ind * 4)
    let rotateInd := M.setAxis rotateInd axisInd
    let angleNext ← readAt Fault.values driver.values (nextInd * 4 + 3)
    let rotateNext := M.setAngle M.quat angleNext
    let axisNext ← readVec driver.values (nextInd * 4)
    let rotateNext := M.setAxis rotateNext axisNext
    let constInd := M.sin ((1 - t) * omega) / M.sin omega
    let constNext := M.sin (t * omega) / M.sin omega
    let sg ← writeNode sg driver.id (fun n =>
      { n with rotation := M.qadd (M.qscale rotateInd constInd) (M.qscale rotateNext constNext) })
    pure (driver, sg, true)
  | .CH_SCALE => updateChannelLinear M driver ind sg

/-- The first three statements of `updateTransform` (VulkanSystem.cpp:317-322), which advance
and wrap `driver->currentRuntime`.  `times[times.size() - 1]` is read only where the C++
short-circuit evaluation reads it.  On an empty `times` the C++ index `times.size() - 1` wraps
around and the index `0` used here is out of range as well, so the read is a fault either way. -/
def advanceRuntime (driver : Driver F) (frameTime : F) (loop : Bool) :
    Except Fault (Driver F) := do
  let last := driver.times.length - 1
  -- if (loop || currentRuntime <= times[size - 1]) currentRuntime += frameTime;
  let advance ← if loop then pure true else do
    let lastTime ← readAt Fault.times driver.times last
    pure (decide (driver.currentRuntime ≤ lastTime))
  let driver :=
    if advance then { driver with currentRuntime := driver.currentRuntime + frameTime }
    else driver
  -- if (loop && currentRuntime > times[size - 1]) currentRuntime -= times[size - 1];
  let driver ← if loop then do
      let lastTime ← readAt Fault.times driver.times last
      if driver.currentRuntime > lastTime then
        pure { driver with currentRuntime := driver.currentRuntime - lastTime }
      else pure driver
    else pure driver
  -- if (currentRuntime < times[0]) currentRuntime += times[size - 1];
  let firstTime ← readAt Fault.times driver.times 0
  if driver.currentRuntime < firstTime then do
    let lastTime ← readAt Fault.times driver.times last
    pure { driver with currentRuntime := driver.currentRuntime + lastTime }
  else pure driver

/-- The keyframe search loop of `updateTransform` (VulkanSystem.cpp:325-329), entered at `ind`:
`for (; ind < times.size(); ind++) if (ind == times.size() - 1 || times[ind + 1] >= thisTime)
break;`.  The result is the value of `ind` after the loop. -/
def locateLoop (times : List F) (thisTime : F) (ind : Nat) : Except Fault Nat :=
  if h : ind < times.length then
    if ind = times.length - 1 then pure ind
    else
      match readAt Fault.times times (ind + 1) with
      | .error e => .error e
      | .ok next =>
        if next ≥ thisTime then pure ind
        else
          have : times.length - (ind + 1) < times.length - ind :=
            Nat.sub_lt_sub_left h (Nat.lt_succ_self ind)
          locateLoop times thisTime (ind + 1)
  else pure ind
termination_by times.length - ind

/-- The function `updateTransform` (VulkanSystem.cpp:315-342). -/
def updateTransform (M : MathHelpers F Q) (driver : Driver F) (frameTime : F)
    (sg : SceneGraph F Q) (loop : Bool) : Except Fault (Outcome F Q) := do
  let driver ← advanceRuntime driver frameTime loop
  let thisTime := driver.currentRuntime
  let ind ← locateLoop driver.times thisTime 0
  match driver.interpolation with
  | .LINEAR => updateChannelLinear M driver ind sg
  | .STEP => updateChannelStep M driver ind sg
  | .SLERP => updateChannelSlerp M driver ind sg

end Code

/-! ## Instances for evaluation -/

/-- A quaternion kept as the `(angle, axis)` pair it was set from, with componentwise scaling and
sum: a concrete instance of the absent `MathHelpers.h` operations over `ℚ`, for evaluating the
embedding on concrete drivers. -/
structure AxisAngle where
  angle : ℚ
  axis : float_3 ℚ
deriving DecidableEq, Repr

/-- The operations on `AxisAngle` used for evaluation (`sin` and `acos` are the identity and the
zero function: they do not occur in the evaluated paths). -/
def evalMath : MathHelpers ℚ AxisAngle where
  quat := ⟨0, ⟨0, 0, 0⟩⟩
  setAngle q a := { q with angle := a }
  setAxis q v := { q with axis := v }
  qscale q s := ⟨q.angle * s, q.axis.scale s⟩
  qadd q r := ⟨q.angle + r.angle, q.axis.add r.axis⟩
  normalize q := q
  normalizeSelf q := q
  dot q r := q.angle * r.angle
  sin x := x
  acos _ := 0

/-- A scene graph node at rest, for evaluation. -/
def demoNode : GraphNode ℚ AxisAngle :=
  ⟨⟨0, 0, 0⟩, ⟨0, ⟨0, 0, 0⟩⟩, ⟨1, 1, 1⟩⟩

/-- A scene graph with one node, for evaluation. -/
def demoScene : SceneGraph ℚ AxisAngle :=
  ⟨[demoNode]⟩

/-- A driver of node 0 with the keyframe times `[0, 1, 2]` and the translate or scale keyframes
`(1, 2, 3)`, `(4, 5, 6)`, `(7, 8, 10)`, for evaluation. -/
def demoDriver (channel : Channel) (interpolation : Interpolation) (currentRuntime : ℚ)
    (lastIndex : Int) : Driver ℚ :=
  ⟨0, channel, interpolation, [0, 1, 2], [1, 2, 3, 4, 5, 6, 7, 8, 10], currentRuntime, lastIndex⟩

/-- A rotate driver of node 0 with the keyframe times `[0, 1, 2]` and the (axis, angle)
keyframes `((0, 0, 1), 0)`, `((0, 0, 1), 3)`, `((0, 1, 0), 1)`, for evaluation. -/
def demoRotate (interpolation : Interpolation) (currentRuntime : ℚ) (lastIndex : Int) :
    Driver ℚ :=
  ⟨0, Channel.CH_ROTATE, interpolation, [0, 1, 2], [0, 0, 1, 0, 0, 0, 1, 3, 0, 1, 0, 1],
    currentRuntime, lastIndex⟩

/-! ## Keyframe values named in the statements -/

section Keyframes

variable {F : Type} [Zero F]

/-- The time of keyframe `k`, `times[k]`. -/
def timeAt (times : List F) (k : Nat) : F :=
  times.getD k 0

/-- The raw 3-vector of keyframe `k` of a translate or scale channel,
`values[3k], values[3k+1], values[3k+2]`. -/
def vec3At (values : List F) (k : Nat) : float_3 F :=
  ⟨values.getD (k * 3) 0, values.getD (k * 3 + 1) 0, values.getD (k * 3 + 2) 0⟩

/-- The raw axis of keyframe `k` of a rotate channel, `values[4k], values[4k+1], values[4k+2]`. -/
def axisAt (values : List F) (k : Nat) : float_3 F :=
  ⟨values.getD (k * 4) 0, values.getD (k * 4 + 1) 0, values.getD (k * 4 + 2) 0⟩

/-- The raw angle of keyframe `k` of a rotate channel, `values[4k+3]`. -/
def angleAt (values : List F) (k : Nat) : F :=
  values.getD (k * 4 + 3) 0

end Keyframes

/-- The interpolation fraction named in the statements, at index `i` with successor `next`:
`(currentRuntime - times[i]) / (times[next] - times[i])`. -/
def fraction {F : Type} [LinearOrderedField F] (d : Driver F) (i next : Nat) : F :=
  (d.currentRuntime - timeAt d.times i) / (timeAt d.times next - timeAt d.times i)

/-- The linear blend `v * (1 - t) + w * t` of two 3-vectors named in the statements. -/
def blend {F : Type} [LinearOrderedField F] (v w : float_3 F) (t : F) : float_3 F :=
  (v.scale (1 - t)).add (w.scale t)

/-- The first keyframe time `times[0]` of a driver. -/
def firstTime {F : Type} [Zero F] (d : Driver F) : F :=
  timeAt d.times 0

/-- The last keyframe time `times[times.size() - 1]` of a driver. -/
def lastTime {F : Type} [Zero F] (d : Driver F) : F :=
  timeAt d.times (d.times.length - 1)

/-- The runtime after the first two statements of `updateTransform`, the `+=` of the delta and
the backward wrap `-=`, as a closed form of the old runtime `r`, the delta and the last keyframe
time `L`. -/
def advancedRuntime {F : Type} [LinearOrderedField F] (r dt : F) (loop : Bool) (L : F) : F :=
  let a := if loop = true ∨ r ≤ L then r + dt else r
  if loop = true ∧ a > L then a - L else a

/-- The runtime after all three runtime statements of `updateTransform`, as a closed form: the
advanced runtime, plus `L` when it is below the first keyframe time `T0`. -/
def wrappedRuntime {F : Type} [LinearOrderedField F] (r dt : F) (loop : Bool) (T0 L : F) : F :=
  if advancedRuntime r dt loop L < T0 then advancedRuntime r dt loop L + L
  else advancedRuntime r dt loop L

/-- The driver after the three runtime statements of `updateTransform`, as a closed form: only
`currentRuntime` has changed, to the wrapped runtime. -/
def advanced {F : Type} [LinearOrderedField F] (d : Driver F) (dt : F) (loop : Bool) : Driver F :=
  { d with currentRuntime :=
      wrappedRuntime d.currentRuntime dt loop (firstTime d) (lastTime d) }

/-- The preconditions on a driver and its scene graph under which no subscript of the driver
evaluation is out of range: at least one keyframe time, a target node that exists, and
3 (translate, scale) or 4 (rotate) values per keyframe. -/
def WellFormed {F Q : Type} (d : Driver F) (sg : SceneGraph F Q) : Prop :=
  0 < d.times.length ∧ d.id < sg.graphNodes.length ∧
    (match d.channel with
      | .CH_ROTATE => d.times.length * 4
      | _ => d.times.length * 3) ≤ d.values.length

/-- The located index as the specification words it: `i` is "the last index where
`times[i+1] < currentRuntime`, saturating at the last index when no later keyframe exists".  The
second alternative is read as generously as possible (the last index, whenever). -/
def SpecLocated {F : Type} [LinearOrderedField F] (times : List F) (r : F) (i : Nat) : Prop :=
  (i + 1 < times.length ∧ timeAt times (i + 1) < r ∧
      ∀ j, i < j → j + 1 < times.length → ¬ timeAt times (j + 1) < r) ∨
    i = times.length - 1

/-- Keyframe times that are strictly increasing. -/
def StrictlyIncreasing {F : Type} [LinearOrderedField F] (times : List F) : Prop :=
  ∀ i j, i < j → j < times.length → timeAt times i < timeAt times j

/-- The quaternion `Q(axis, angle)` that the driver code builds from a keyframe:
`q = quaternion<float>(); q.setAngle(angle); q.setAxis(axis);`. -/
def quatOf {F Q : Type} (M : MathHelpers F Q) (axis : float_3 F) (angle : F) : Q :=
  M.setAxis (M.setAngle M.quat angle) axis

/-! ## Spherical interpolation, as named in the statements -/

section Spherical

variable {F Q : Type} [LinearOrderedField F]

/-- The pre-interpolated quaternion that `updateChannelSlerp` builds first from keyframe `k` and a
weight `w`: set from the angle `values[4k+3] * w` and the axis `values[4k .. 4k+2] * w`. -/
def preInterpolated (M : MathHelpers F Q) (values : List F) (k : Nat) (w : F) : Q :=
  quatOf M ((axisAt values k).scale w) (angleAt values k * w)

/-- The `omega` that `updateChannelSlerp` computes: `acos` of the dot product of the normalised
pre-interpolated quaternions of keyframes `i` (weight `1 - t`) and `next` (weight `t`). -/
def slerpOmega (M : MathHelpers F Q) (d : Driver F) (i next : Nat) : F :=
  M.acos (M.dot (M.normalize (preInterpolated M d.values i (1 - fraction d i next)))
    (M.normalize (preInterpolated M d.values next (fraction d i next))))

/-- The `omega` as the specification words it: `acos(dot(normalize(Q_i), normalize(Q_next)))` on
the quaternions built from the un-scaled keyframes. -/
def specOmega (M : MathHelpers F Q) (d : Driver F) (i next : Nat) : F :=
  M.acos (M.dot (M.normalize (quatOf M (axisAt d.values i) (angleAt d.values i)))
    (M.normalize (quatOf M (axisAt d.values next) (angleAt d.values next))))

/-- The blend `Q_i * (sin((1-t) omega) / sin(omega)) + Q_next * (sin(t omega) / sin(omega))` of
the quaternions built from the un-scaled keyframes `i` and `next`, for a given `omega`. -/
def slerpBlend (M : MathHelpers F Q) (d : Driver F) (i next : Nat) (omega : F) : Q :=
  M.qadd
    (M.qscale (quatOf M (axisAt d.values i) (angleAt d.values i))
      (M.sin ((1 - fraction d i next) * omega) / M.sin omega))
    (M.qscale (quatOf M (axisAt d.values next) (angleAt d.values next))
      (M.sin (fraction d i next * omega) / M.sin omega))

/-- The quaternion that the second half of `updateChannelSlerp` leaves in `rotateInd`: the
variable is not reset, `setAngle` and `setAxis` are applied to what the first half and the call
of `normalize()` left in it. -/
def reusedRotateInd (M : MathHelpers F Q) (d : Driver F) (i next : Nat) : Q :=
  M.setAxis (M.setAngle (M.normalizeSelf (preInterpolated M d.values i (1 - fraction d i next)))
    (angleAt d.values i)) (axisAt d.values i)

/-- The assumption on the absent quaternion class that `setAngle` followed by `setAxis` overwrites
whatever the quaternion held before. -/
def SetOverwrites (M : MathHelpers F Q) : Prop :=
  ∀ (q : Q) (a : F) (v : float_3 F), M.setAxis (M.setAngle q a) v = quatOf M v a

end Spherical

/-- Operations on `AxisAngle` for evaluating the spherical path, with the quaternion taken as
the four-component record of its angle and axis: `qscale` and `qadd` work componentwise, `dot` is
the four-component dot product and `normalize` divides by the Euclidean length (exactly, where
that length is rational).  The rational functions `sin x = x - x^3 / 6` and `acos x = 3/2 - x`
stand in for the trigonometric ones. -/
def probeMath : MathHelpers ℚ AxisAngle where
  quat := ⟨0, ⟨0, 0, 0⟩⟩
  setAngle q a := { q with angle := a }
  setAxis q v := { q with axis := v }
  qscale q s := ⟨q.angle * s, q.axis.scale s⟩
  qadd q r := ⟨q.angle + r.angle, q.axis.add r.axis⟩
  normalize q :=
    ⟨q.angle * (1 / Rat.sqrt (q.angle * q.angle +
        (q.axis.x * q.axis.x + q.axis.y * q.axis.y + q.axis.z * q.axis.z))),
      q.axis.scale (1 / Rat.sqrt (q.angle * q.angle +
        (q.axis.x * q.axis.x + q.axis.y * q.axis.y + q.axis.z * q.axis.z)))⟩
  normalizeSelf q :=
    ⟨q.angle * (1 / Rat.sqrt (q.angle * q.angle +
        (q.axis.x * q.axis.x + q.axis.y * q.axis.y + q.axis.z * q.axis.z))),
      q.axis.scale (1 / Rat.sqrt (q.angle * q.angle +
        (q.axis.x * q.axis.x + q.axis.y * q.axis.y + q.axis.z * q.axis.z)))⟩
  dot q r := q.angle * r.angle + (q.axis.x * r.axis.x + q.axis.y * r.axis.y + q.axis.z * r.axis.z)
  sin x := x - x ^ 3 / 6
  acos x := 3 / 2 - x

/-- A spherical rotate driver of node 0 with the keyframe times `[0, 1]` and two keyframes of
length 1 as four-component records, `((0, 0, 1), 0)` and `((0, 0, 4/5), 3/5)`, for evaluation. -/
def demoUnit (currentRuntime : ℚ) : Driver ℚ :=
  ⟨0, Channel.CH_ROTATE, Interpolation.SLERP, [0, 1], [0, 0, 1, 0, 0, 0, 4 / 5, 3 / 5],
    currentRuntime, -1⟩

/-- A spherical rotate driver of node 0 whose two keyframes, at the times 0 and 1, hold the same
rotation `((0, 0, 1), 0)`, for evaluation. -/
def demoCoincident (currentRuntime : ℚ) : Driver ℚ :=
  ⟨0, Channel.CH_ROTATE, Interpolation.SLERP, [0, 1], [0, 0, 1, 0, 0, 0, 1, 0], currentRuntime, -1⟩

/-! ## The renderer state and the driver pass -/

/-- Modelled from the spec: the perspective parameters of a camera (`SceneGraph.h` is absent from
`src/`): vertical field of view, aspect ratio, near and far plane distance. -/
structure PerspectiveInfo (F : Type) where
  vfov : F
  aspect : F
  nearP : F
  farP : F
deriving DecidableEq, Repr

/-- Modelled from the spec: `DrawCamera` of `SceneGraph.h` (absent from `src/`), with the fields
that the culling code reads; `Mat` stands for `mat44<float>`. -/
structure DrawCamera (F : Type) (Mat : Type) where
  perspectiveInfo : PerspectiveInfo F
  transform : Mat
deriving DecidableEq, Repr

/-- Modelled from the spec: `DrawNode` of `SceneGraph.h` (absent from `src/`), with the fields
that the culling code reads: the bounding sphere (centre, radius) and the index range. -/
structure DrawNode (F : Type) where
  boundingSphere : float_3 F × F
  indexStart : Int
  indexCount : Int
deriving DecidableEq, Repr

/-- Modelled from the spec: `DrawList` of `SceneGraph.h` (absent from `src/`), with the fields
that `runDrivers` copies out of the result of `navigateSceneGraph`. -/
structure DrawList (F : Type) (Mat : Type) where
  transformPools : List (List Mat)
  instancedTransformPools : List (List Mat)
  normalTransformPools : List (List Mat)
  instancedNormalTransformPools : List (List Mat)
  environmentTransformPools : List (List Mat)
  instancedEnvironmentTransformPools : List (List Mat)
  cameras : List (DrawCamera F Mat)
deriving DecidableEq, Repr

/-- The members of `class VulkanSystem` (VulkanSystem.h) that the animation and culling code
reads and writes, with the initial values that the header gives them. -/
structure State (F : Type) (Mat : Type) where
  playingAnimation : Bool := true
  forwardAnimation : Bool := true
  useCulling : Bool := false
  poolSize : Int := 0
  playbackSpeed : F
  moveVec : float_3 F
  dirVec : float_3 F
  indexPoolsStore : List (List Nat) := []
  indexPools : List (List Nat) := []
  transformPools : List (List Mat) := []
  transformInstPools : List (List Mat) := []
  transformInstPoolsStore : List (List Mat) := []
  transformNormalPools : List (List Mat) := []
  transformNormalInstPools : List (List Mat) := []
  transformNormalInstPoolsStore : List (List Mat) := []
  transformEnvironmentPools : List (List Mat) := []
  transformEnvironmentInstPools : List (List Mat) := []
  transformEnvironmentInstPoolsStore : List (List Mat) := []
  transformInstIndexPools : List Int := []
  drawPools : List (List (DrawNode F)) := []
  boundingSpheresInst : List (float_3 F × F) := []
  nodeDrivers : List (Driver F) := []
  cameraDrivers : List (Driver F) := []
  cameras : List (DrawCamera F Mat) := []
  indexBuffersValid : List Bool := []
  currentCamera : Int := 0
  useVertexBuffer : Bool
deriving DecidableEq, Repr

/-- A record of one call of `updateTransform` made by `runDrivers`: whether the driver is a camera
driver, its position in its vector, the frame time passed and the value returned.  The list of
these records is bookkeeping of the embedding, the C++ keeps no such list. -/
structure Call (F : Type) where
  camera : Bool
  index : Nat
  frameTime : F
  result : Bool
deriving DecidableEq, Repr

section Drivers

variable {F Q Mat : Type} [LinearOrderedField F]

/-- The first loop of `runDrivers` (VulkanSystem.cpp:348-351), entered at position `ind` with the
drivers from that position on: `renavigate = updateTransform(driver, ...) || renavigate`.  The
result is the updated drivers, the scene graph, `renavigate` and the calls made. -/
def runNodeDrivers (M : MathHelpers F Q) (frameTime : F) (loop : Bool) :
    Nat → List (Driver F) → SceneGraph F Q → Bool →
      Except Fault (List (Driver F) × SceneGraph F Q × Bool × List (Call F))
  | _, [], sg, renavigate => pure ([], sg, renavigate, [])
  | ind, driver :: rest, sg, renavigate => do
    let (driver, sg, changed) ← updateTransform M driver frameTime sg loop
    let renavigate := changed || renavigate
    let (rest, sg, renavigate, calls) ←
      runNodeDrivers M frameTime loop (ind + 1) rest sg renavigate
    pure (driver :: rest, sg, renavigate, ⟨false, ind, frameTime, changed⟩ :: calls)

/-- The second loop of `runDrivers` (VulkanSystem.cpp:352-355), entered at position `ind` with
the drivers from that position on:
`renavigate = renavigate || updateTransform(driver, ...) || renavigate`.  By the short-circuit
evaluation of `||` the call is made only while `renavigate` is false. -/
def runCameraDrivers (M : MathHelpers F Q) (frameTime : F) (loop : Bool) :
    Nat → List (Driver F) → SceneGraph F Q → Bool →
      Except Fault (List (Driver F) × SceneGraph F Q × Bool × List (Call F))
  | _, [], sg, renavigate => pure ([], sg, renavigate, [])
  | ind, driver :: rest, sg, renavigate =>
    if renavigate then do
      let (rest, sg, renavigate, calls) ←
        runCameraDrivers M frameTime loop (ind + 1) rest sg true
      pure (driver :: rest, sg, renavigate, calls)
    else do
      let (driver, sg, changed) ← updateTransform M driver frameTime sg loop
      let renavigate := changed || renavigate
      let (rest, sg, renavigate, calls) ←
        runCameraDrivers M frameTime loop (ind + 1) rest sg renavigate
      pure (driver :: rest, sg, renavigate, ⟨true, ind, frameTime, changed⟩ :: calls)

/-- The frame time after the two `*=` statements of `runDrivers` (VulkanSystem.cpp:345-346). -/
def scaledFrameTime (s : State F Mat) (frameTime : F) : F :=
  let frameTime := frameTime * s.playbackSpeed
  frameTime * (if s.playingAnimation then (if s.forwardAnimation then 1 else -1) else 0)

/-- The two driver loops of `runDrivers` (VulkanSystem.cpp:347-355) for a given frame time: the
updated node drivers, camera drivers and scene graph, the final `renavigate`, and the calls made
in call order. -/
def evalDrivers (M : MathHelpers F Q) (frameTime : F) (loop : Bool) (s : State F Mat)
    (sg : SceneGraph F Q) :
    Except Fault (List (Driver F) × List (Driver F) × SceneGraph F Q × Bool × List (Call F)) := do
  let (nodeDrivers, sg, renavigate, nodeCalls) ←
    runNodeDrivers M frameTime loop 0 s.nodeDrivers sg false
  let (cameraDrivers, sg, renavigate, cameraCalls) ←
    runCameraDrivers M frameTime loop 0 s.cameraDrivers sg renavigate
  pure (nodeDrivers, cameraDrivers, sg, renavigate, nodeCalls ++ cameraCalls)

/-- The state after the `if (renavigate)` block of `runDrivers` (VulkanSystem.cpp:356-365) has
copied the pools and the cameras out of a draw list. -/
def copyDrawList (s : State F Mat) (drawList : DrawList F Mat) : State F Mat :=
  { s with
    transformPools := drawList.transformPools
    transformInstPoolsStore := drawList.instancedTransformPools
    transformNormalPools := drawList.normalTransformPools
    transformNormalInstPoolsStore := drawList.instancedNormalTransformPools
    transformEnvironmentPools := drawList.environmentTransformPools
    transformEnvironmentInstPoolsStore := drawList.instancedEnvironmentTransformPools
    cameras := drawList.cameras }

/-- The function `VulkanSystem::runDrivers` (VulkanSystem.cpp:344-366).  `navigate` stands for
`sceneGraphP->navigateSceneGraph(false, poolSize)` of the absent `SceneGraph.h`: from the scene
graph and `poolSize` it gives the scene graph it leaves and the draw list it returns.  The result
is the new state, the new scene graph and the calls of `updateTransform` made. -/
def runDrivers (navigate : SceneGraph F Q → Int → SceneGraph F Q × DrawList F Mat)
    (M : MathHelpers F Q) (s : State F Mat) (frameTime : F) (sg : SceneGraph F Q) (loop : Bool) :
    Except Fault (State F Mat × SceneGraph F Q × List (Call F)) := do
  let frameTime := scaledFrameTime s frameTime
  let (nodeDrivers, cameraDrivers, sg, renavigate, calls) ← evalDrivers M frameTime loop s sg
  let s := { s with nodeDrivers := nodeDrivers, cameraDrivers := cameraDrivers }
  if renavigate then
    let (sg, drawList) := navigate sg s.poolSize
    pure (copyDrawList s drawList, sg, calls)
  else pure (s, sg, calls)

/-- The function `VulkanSystem::setDriverRuntime` (VulkanSystem.cpp:369-376). -/
def setDriverRuntime (s : State F Mat) (time : F) : State F Mat :=
  let cameraDrivers := s.cameraDrivers.map (fun driver => { driver with currentRuntime := time })
  let nodeDrivers := s.nodeDrivers.map (fun driver => { driver with currentRuntime := time })
  { s with cameraDrivers := cameraDrivers, nodeDrivers := nodeDrivers }

end Drivers

/-- A navigation for evaluation: it leaves the scene graph as it is and returns a draw list with
one transform pool holding `poolSize` and nothing else. -/
def demoNavigate (sg : SceneGraph ℚ AxisAngle) (poolSize : Int) :
    SceneGraph ℚ AxisAngle × DrawList ℚ Int :=
  (sg, ⟨[[poolSize]], [], [], [], [], [], []⟩)

/-- A renderer state for evaluation, with `mat44<float>` replaced by `Int`: the given drivers and
flags, playback speed 2, `poolSize` 7 and one transform pool `[[1, 2]]`. -/
def demoState (nodeDrivers cameraDrivers : List (Driver ℚ)) (playing forward : Bool) :
    State ℚ Int :=
  { playingAnimation := playing, forwardAnimation := forward, poolSize := 7, playbackSpeed := 2,
    moveVec := ⟨0, 0, 0⟩, dirVec := ⟨0, 0, 1⟩, transformPools := [[1, 2]],
    nodeDrivers := nodeDrivers, cameraDrivers := cameraDrivers, useVertexBuffer := true }

/-! ## Frustum construction and the sphere test -/

namespace float_3

variable {F : Type}

/-- Modelled from the spec: `float_3::operator-(float_3)` of `MathHelpers.h` (absent), the
componentwise difference ("point minus normal-scaled signed distance"). -/
def sub [Sub F] (v w : float_3 F) : float_3 F :=
  ⟨v.x - w.x, v.y - w.y, v.z - w.z⟩

/-- Modelled from the spec: `float_3::dot` of `MathHelpers.h` (absent), the dot product. -/
def dot [Add F] [Mul F] (v w : float_3 F) : F :=
  v.x * w.x + v.y * w.y + v.z * w.z

/-- Modelled from the spec: `float_3::cross` of `MathHelpers.h` (absent), the cross product
("plane normals via cross products"). -/
def cross [Sub F] [Mul F] (v w : float_3 F) : float_3 F :=
  ⟨v.y * w.z - v.z * w.y, v.z * w.x - v.x * w.z, v.x * w.y - v.y * w.x⟩

end float_3

/-- The operations of `MathHelpers.h` and `<cmath>` that the frustum code calls and that exact
field arithmetic cannot define: `tan`, the length and the normalisation of a 3-vector, and the
matrix products that take a point into camera space.  `Mat` stands for `mat44<float>`.  They are
parameters of the embedding. -/
structure VecMath (F : Type) (Mat : Type) where
  /-- The `<cmath>` function `tan`. -/
  tan : F → F
  /-- The value of `v.norm()`. -/
  norm : float_3 F → F
  /-- The value of `v.normalize()`. -/
  normalize : float_3 F → float_3 F
  /-- The point `toCameraSpace * toWorldSpace * centre`, or `none` when one of its coordinates is
  NaN.  No element of `F` is NaN, so the one place where the code tests for NaN is modelled by
  this alternative. -/
  toCamera : Mat → Mat → float_3 F → Option (float_3 F)

/-- The `struct frustumInfo` of VulkanSystem.cpp:1439-1462. -/
structure frustumInfo (F : Type) where
  topNormal : float_3 F
  bottomNormal : float_3 F
  nearNormal : float_3 F
  farNormal : float_3 F
  leftNormal : float_3 F
  rightNormal : float_3 F
  topOrigin : float_3 F
  bottomOrigin : float_3 F
  nearOrigin : float_3 F
  farOrigin : float_3 F
  leftOrigin : float_3 F
  rightOrigin : float_3 F
  nearBottom : F
  nearTop : F
  nearLeft : F
  nearRight : F
  farTop : F
  farLeft : F
  farRight : F
  farBottom : F
  farZ : F
  nearZ : F
deriving DecidableEq, Repr

/-- The six closest-point candidates that `sphereInFrustum` compares with the radius. -/
structure Candidates (F : Type) where
  nearPoint : float_3 F
  farPoint : float_3 F
  rightPoint : float_3 F
  leftPoint : float_3 F
  topPoint : float_3 F
  bottomPoint : float_3 F
deriving DecidableEq, Repr

section Frustum

variable {F Mat : Type} [LinearOrderedField F]

/-- The function `findFrustumInfo` (VulkanSystem.cpp:1464-1509). -/
def findFrustumInfo (V : VecMath F Mat) (camera : DrawCamera F Mat) : frustumInfo F :=
  -- Constraints
  let farZ := camera.perspectiveInfo.farP
  let nearZ := camera.perspectiveInfo.nearP
  let nearTop := V.tan (camera.perspectiveInfo.vfov / 2) * nearZ
  let farTop := V.tan (camera.perspectiveInfo.vfov / 2) * farZ
  let nearBottom := -V.tan (camera.perspectiveInfo.vfov / 2) * nearZ
  let farBottom := -V.tan (camera.perspectiveInfo.vfov / 2) * farZ
  let nearRight := camera.perspectiveInfo.aspect * nearTop
  let farRight := camera.perspectiveInfo.aspect * farTop
  let nearLeft := camera.perspectiveInfo.aspect * nearBottom
  let farLeft := camera.perspectiveInfo.aspect * farBottom
  -- Normals
  let nearNormal : float_3 F := ⟨0, 0, 1⟩
  let farNormal : float_3 F := ⟨0, 0, -1⟩
  let rightNormal := V.normalize
    (((⟨farRight, farTop, farZ⟩ : float_3 F).sub ⟨nearRight, nearTop, nearZ⟩).cross ⟨0, -1, 0⟩)
  let leftNormal := V.normalize
    (((⟨farLeft, farTop, farZ⟩ : float_3 F).sub ⟨nearLeft, nearTop, nearZ⟩).cross ⟨0, 1, 0⟩)
  let topNormal := V.normalize
    (((⟨farRight, farTop, farZ⟩ : float_3 F).sub ⟨nearRight, nearTop, nearZ⟩).cross ⟨-1, 0, 0⟩)
  let bottomNormal := V.normalize
    (((⟨farRight, farBottom, farZ⟩ : float_3 F).sub ⟨nearRight, nearBottom, nearZ⟩).cross
      ⟨1, 0, 0⟩)
  -- Origins
  let nearOrigin : float_3 F := ⟨0, 0, nearZ⟩
  let farOrigin : float_3 F := ⟨0, 0, farZ⟩
  let midZ := nearZ + (farZ - nearZ) / 2
  let topOrigin : float_3 F := ⟨0, nearTop + 1 / 2 * (farTop - nearTop), midZ⟩
  let bottomOrigin : float_3 F := ⟨0, nearBottom + 1 / 2 * (farBottom - nearBottom), midZ⟩
  let leftOrigin : float_3 F := ⟨nearLeft + 1 / 2 * (farLeft - nearLeft), 0, midZ⟩
  let rightOrigin : float_3 F := ⟨nearRight + 1 / 2 * (farRight - nearRight), 0, midZ⟩
  { topNormal := topNormal, bottomNormal := bottomNormal, nearNormal := nearNormal,
    farNormal := farNormal, leftNormal := leftNormal, rightNormal := rightNormal,
    topOrigin := topOrigin, bottomOrigin := bottomOrigin, nearOrigin := nearOrigin,
    farOrigin := farOrigin, leftOrigin := leftOrigin, rightOrigin := rightOrigin,
    nearBottom := nearBottom, nearTop := nearTop, nearLeft := nearLeft, nearRight := nearRight,
    farTop := farTop, farLeft := farLeft, farRight := farRight, farBottom := farBottom,
    farZ := farZ, nearZ := nearZ }

/-- The three statements that project a point on a plane, as they recur in `sphereInFrustum`:
`fromOrigin = point - origin; originDist = normal.dot(fromOrigin);
result = point - normal * originDist`. -/
def projectOnPlane (normal origin point : float_3 F) : float_3 F :=
  let fromOrigin := point.sub origin
  let originDist := normal.dot fromOrigin
  point.sub (normal.scale originDist)

/-- The two statements `if (v < lo) v = lo; if (v > hi) v = hi;` of the near and far planes. -/
def clampLoHi (lo hi v : F) : F :=
  let v := if v < lo then lo else v
  if v > hi then hi else v

/-- The statement `if (v > hi) v = hi; else if (v < lo) v = lo;` of the four side planes. -/
def clampHiLo (hi lo v : F) : F :=
  if v > hi then hi else if v < lo then lo else v

/-- The six closest-point candidates of `sphereInFrustum` (VulkanSystem.cpp:1518-1645) for the
camera-space point `rotatedPoint` (after its `z` has been negated). -/
def closestPoints (info : frustumInfo F) (rotatedPoint : float_3 F) : Candidates F :=
  -- Project the point on to each plane
  let nearPoint := projectOnPlane info.nearNormal info.nearOrigin rotatedPoint
  let farPoint := projectOnPlane info.farNormal info.farOrigin rotatedPoint
  let rightPoint := projectOnPlane info.rightNormal info.rightOrigin rotatedPoint
  let leftPoint := projectOnPlane info.leftNormal info.leftOrigin rotatedPoint
  let topPoint := projectOnPlane info.topNormal info.topOrigin rotatedPoint
  let bottomPoint := projectOnPlane info.bottomNormal info.bottomOrigin rotatedPoint
  -- Re-project point into frustum constraints
  -- Near
  let nearPoint := { nearPoint with x := clampLoHi info.nearLeft info.nearRight nearPoint.x }
  let nearPoint := { nearPoint with y := clampLoHi info.nearBottom info.nearTop nearPoint.y }
  -- Far
  let farPoint := { farPoint with x := clampLoHi info.farLeft info.farRight farPoint.x }
  let farPoint := { farPoint with y := clampLoHi info.farBottom info.farTop farPoint.y }
  -- Right
  let rightPoint := { rightPoint with z := clampHiLo info.farZ info.nearZ rightPoint.z }
  let zPercentage := (rightPoint.z - info.nearZ) / (info.farZ - info.nearZ)
  let rightTop := info.nearTop + (info.farTop - info.nearTop) * zPercentage
  let rightBottom := info.nearBottom + (info.farBottom - info.nearBottom) * zPercentage
  let rightPoint := { rightPoint with y := clampHiLo rightTop rightBottom rightPoint.y }
  let rightPoint := projectOnPlane info.rightNormal info.rightOrigin rightPoint
  -- Left
  let leftPoint := { leftPoint with z := clampHiLo info.farZ info.nearZ leftPoint.z }
  let zPercentage := (leftPoint.z - info.nearZ) / (info.farZ - info.nearZ)
  let leftTop := info.nearTop + (info.farTop - info.nearTop) * zPercentage
  let leftBottom := info.nearBottom + (info.farBottom - info.nearBottom) * zPercentage
  let leftPoint := { leftPoint with y := clampHiLo leftTop leftBottom leftPoint.y }
  let leftPoint := projectOnPlane info.leftNormal info.leftOrigin leftPoint
  -- Top
  let topPoint := { topPoint with z := clampHiLo info.farZ info.nearZ topPoint.z }
  let zPercentage := (topPoint.z - info.nearZ) / (info.farZ - info.nearZ)
  let topLeft := info.nearLeft + (info.farLeft - info.nearLeft) * zPercentage
  let topRight := info.nearRight + (info.farRight - info.nearRight) * zPercentage
  let topPoint := { topPoint with x := clampHiLo topRight topLeft topPoint.x }
  let topPoint := projectOnPlane info.topNormal info.topOrigin topPoint
  -- Bottom
  let bottomPoint := { bottomPoint with z := clampHiLo info.farZ info.nearZ bottomPoint.z }
  let zPercentage := (bottomPoint.z - info.nearZ) / (info.farZ - info.nearZ)
  let bottomLeft := info.nearLeft + (info.farLeft - info.nearLeft) * zPercentage
  let bottomRight := info.nearRight + (info.farRight - info.nearRight) * zPercentage
  let bottomPoint := { bottomPoint with x := clampHiLo bottomRight bottomLeft bottomPoint.x }
  let bottomPoint := projectOnPlane info.bottomNormal info.bottomOrigin bottomPoint
  { nearPoint := nearPoint, farPoint := farPoint, rightPoint := rightPoint,
    leftPoint := leftPoint, topPoint := topPoint, bottomPoint := bottomPoint }

/-- The function `sphereInFrustum` (VulkanSystem.cpp:1511-1677). -/
def sphereInFrustum (V : VecMath F Mat) (boundingSphere : float_3 F × F) (info : frustumInfo F)
    (toCameraSpace toWorldSpace : Mat) : Bool :=
  -- rotate point into camera space, NaN check
  match V.toCamera toCameraSpace toWorldSpace boundingSphere.1 with
  | none => false
  | some rotatedPoint =>
    let rotatedPoint := { rotatedPoint with z := rotatedPoint.z * -1 }
    let c := closestPoints info rotatedPoint
    -- If ANY re-projected point is within radius, then there is an intersection
    if V.norm (rotatedPoint.sub c.nearPoint) ≤ boundingSphere.2 then true
    else if V.norm (rotatedPoint.sub c.farPoint) ≤ boundingSphere.2 then true
    else if V.norm (rotatedPoint.sub c.topPoint) ≤ boundingSphere.2 then true
    else if V.norm (rotatedPoint.sub c.bottomPoint) ≤ boundingSphere.2 then true
    else if V.norm (rotatedPoint.sub c.leftPoint) ≤ boundingSphere.2 then true
    else if V.norm (rotatedPoint.sub c.rightPoint) ≤ boundingSphere.2 then true
    -- Check if inside frustum
    else if rotatedPoint.x < c.rightPoint.x ∧ rotatedPoint.x > c.leftPoint.x ∧
        rotatedPoint.y < c.topPoint.y ∧ rotatedPoint.y > c.bottomPoint.y ∧
        rotatedPoint.z > info.nearZ ∧ rotatedPoint.z < info.farZ then true
    else false

end Frustum

/-- Operations for evaluating the frustum code over `ℚ`, with `mat44<float>` replaced by a
translation vector: `tan` is the identity (a stand-in), `normalize` divides by the rational
square root of the squared length (exact whenever the length is rational), `norm` is the upper
estimate `(v.v + 1) / 2` of the length, and `toCamera` adds the two translations. -/
def evalVec : VecMath ℚ (float_3 ℚ) where
  tan x := x
  norm v := (v.dot v + 1) / 2
  normalize v := v.scale (1 / Rat.sqrt (v.dot v))
  toCamera toCameraSpace toWorldSpace centre := some ((centre.add toWorldSpace).add toCameraSpace)

/-- A camera for evaluation: `tan(vfov / 2) = 3/4` on `evalVec`, aspect 1, near plane 1, far
plane 3; the side planes are `|x| = 3/4 z` and `|y| = 3/4 z` with normals of length `5/4`. -/
def demoCamera : DrawCamera ℚ (float_3 ℚ) :=
  ⟨⟨3 / 2, 1, 1, 3⟩, ⟨0, 0, 0⟩⟩

/-! ## Laws of the vector operations named in the statements -/

section Laws

variable {F Mat : Type} [LinearOrderedField F]

/-- The law of `normalize()` that the statements assume: a vector whose length `s > 0` exists in
`F` is divided by that length. -/
def NormalizeLaw (V : VecMath F Mat) : Prop :=
  ∀ (v : float_3 F) (s : F), 0 < s → v.dot v = s * s → V.normalize v = v.scale (1 / s)

/-- The law of `norm()` that the statements assume: a length that is at most `r ≥ 0` has its
square at most `r * r` (the length is not under-estimated). -/
def NormSound (V : VecMath F Mat) : Prop :=
  ∀ (v : float_3 F) (r : F), 0 ≤ r → V.norm v ≤ r → v.dot v ≤ r * r

/-- The camera parameters that the frustum statements assume: `0 < near < far`, `aspect > 0`
and `tan(vfov / 2) > 0`. -/
def ValidCamera (V : VecMath F Mat) (camera : DrawCamera F Mat) : Prop :=
  0 < camera.perspectiveInfo.nearP ∧ camera.perspectiveInfo.nearP < camera.perspectiveInfo.farP ∧
    0 < camera.perspectiveInfo.aspect ∧ 0 < V.tan (camera.perspectiveInfo.vfov / 2)

/-- The lengths `sx = sqrt(1 + (aspect * tan(vfov/2))^2)` and `sy = sqrt(1 + tan(vfov/2)^2)` of
the un-normalised side normals per unit of depth.  They exist in the reals for every camera; in
`ℚ` they exist for some cameras only. -/
def SideLengths (V : VecMath F Mat) (camera : DrawCamera F Mat) (sx sy : F) : Prop :=
  0 < sx ∧ sx * sx = 1 + (camera.perspectiveInfo.aspect * V.tan (camera.perspectiveInfo.vfov / 2))
      * (camera.perspectiveInfo.aspect * V.tan (camera.perspectiveInfo.vfov / 2)) ∧
    0 < sy ∧ sy * sy = 1 + V.tan (camera.perspectiveInfo.vfov / 2)
      * V.tan (camera.perspectiveInfo.vfov / 2)

/-- The interior point `(0, 0, (near + far) / 2)` of the frustum of a camera. -/
def frustumCentre (camera : DrawCamera F Mat) : float_3 F :=
  ⟨0, 0, (camera.perspectiveInfo.nearP + camera.perspectiveInfo.farP) / 2⟩

end Laws

/-! ## Closed forms of the side candidates named in the statements -/

section SideForms

variable {F : Type} [LinearOrderedField F]

/-- The coordinate across a side plane of the candidate on that plane, as a closed form.  The
plane is `x = a z` with unit normal `(1, 0, -a) / s` and `k = 1 / s^2`; the point has the
coordinates `x` across and `z` in depth.  The point is projected on the plane, its depth is
clamped to `[n, f]`, and the result is projected again. -/
def sideCoord (a k n f x z : F) : F :=
  let rx := x - k * (x - a * z)
  let rz := z + a * k * (x - a * z)
  rx - k * (rx - a * clampHiLo f n rz)

/-- The depth of the candidate on a side plane, as a closed form in the notation of
`sideCoord`. -/
def sideDepth (a k n f x z : F) : F :=
  let rx := x - k * (x - a * z)
  let rz := z + a * k * (x - a * z)
  clampHiLo f n rz + a * k * (rx - a * clampHiLo f n rz)

end SideForms

/-! ## The frustum volume and the ball of a sphere, as named in the statements -/

section Volume

variable {F Mat : Type} [LinearOrderedField F]

/-- The point `q` lies inside or on the frustum volume of the camera, in camera space with `z`
pointing forward: `near ≤ z ≤ far`, `|x| ≤ aspect * tan(vfov/2) * z` and
`|y| ≤ tan(vfov/2) * z`. -/
def InFrustumVolume (V : VecMath F Mat) (camera : DrawCamera F Mat) (q : float_3 F) : Prop :=
  camera.perspectiveInfo.nearP ≤ q.z ∧ q.z ≤ camera.perspectiveInfo.farP ∧
    |q.x| ≤ camera.perspectiveInfo.aspect * V.tan (camera.perspectiveInfo.vfov / 2) * q.z ∧
    |q.y| ≤ V.tan (camera.perspectiveInfo.vfov / 2) * q.z

/-- The point `q` lies in the closed ball with the given centre and radius `radius ≥ 0`: its
squared distance from the centre is at most `radius * radius`. -/
def InBall (centre : float_3 F) (radius : F) (q : float_3 F) : Prop :=
  0 ≤ radius ∧ (q.sub centre).dot (q.sub centre) ≤ radius * radius

end Volume

/-! ## Culling: the camera matrix, the instance pools and the index pools -/

/-- Modelled from the spec: `float_4` of `MathHelpers.h` (absent from `src/`), four floats. -/
structure float_4 (F : Type) where
  x : F
  y : F
  z : F
  w : F
deriving DecidableEq, Repr

/-- The operations on `float_4` and `mat44<float>` of `MathHelpers.h` (absent from `src/`) that
`getCameraSpace` calls.  `Mat` stands for `mat44<float>`.  They are parameters of the
embedding. -/
structure MatMath (F : Type) (Mat : Type) where
  /-- The value of `float_4::normalize()`. -/
  normalize4 : float_4 F → float_4 F
  /-- The constructor `mat44<float>(v0, v1, v2, v3)`. -/
  mat44 : float_4 F → float_4 F → float_4 F → float_4 F → Mat
  /-- The three assignments `m.data[3][0] = a; m.data[3][1] = b; m.data[3][2] = c;`. -/
  setData3 : Mat → F → F → F → Mat
  /-- The product `a * b` of two matrices. -/
  mul : Mat → Mat → Mat

/-- The out-of-range accesses of the culling code, by the vector that is subscripted. -/
inductive CullFault where
  /-- The subscript `cameras[currentCamera]`. -/
  | camera
  /-- A pool subscript of a vector of pools. -/
  | pool
  /-- A subscript of an element within a pool. -/
  | element
  /-- The subscript `boundingSpheresInst[...]`. -/
  | sphere
  /-- An iterator range `[begin + indexBegin, begin + indexEnd)` that leaves its vector. -/
  | range
  /-- The subscript `indexBuffersValid[pool]`. -/
  | valid
deriving DecidableEq, Repr

section Culling

variable {F Mat : Type} {α : Type}

/-- A checked `xs[i]` read with a `size_t` subscript. -/
def getAt (e : CullFault) (xs : List α) (i : Nat) : Except CullFault α :=
  match xs[i]? with
  | some v => .ok v
  | none => .error e

/-- A checked `xs[i]` read with an `int` subscript; a negative `int` converts to a `size_t`
beyond every vector. -/
def getAtInt (e : CullFault) (xs : List α) (i : Int) : Except CullFault α :=
  if 0 ≤ i then getAt e xs i.toNat else .error e

/-- The statement `pools[pool].clear()`. -/
def clearAt (pools : List (List α)) (pool : Nat) : Except CullFault (List (List α)) :=
  if pool < pools.length then .ok (pools.set pool []) else .error CullFault.pool

/-- The statement `pools[pool].push_back(x)`. -/
def pushBack (pools : List (List α)) (pool : Nat) (x : α) : Except CullFault (List (List α)) :=
  match pools[pool]? with
  | some xs => .ok (pools.set pool (xs ++ [x]))
  | none => .error CullFault.pool

/-- The statement `pools[pool].insert(pools[pool].end(), store.begin() + indexBegin,
store.begin() + indexEnd)`: the range must lie within `store`, in order. -/
def insertRange (pools : List (List α)) (pool : Nat) (store : List α) (indexBegin indexEnd : Int) :
    Except CullFault (List (List α)) :=
  match pools[pool]? with
  | some xs =>
    if 0 ≤ indexBegin ∧ indexBegin ≤ indexEnd ∧ indexEnd ≤ (store.length : Int) then
      .ok (pools.set pool
        (xs ++ (store.drop indexBegin.toNat).take (indexEnd.toNat - indexBegin.toNat)))
    else .error CullFault.range
  | none => .error CullFault.pool

variable [LinearOrderedField F]

/-- The function `VulkanSystem::getCameraSpace` (VulkanSystem.cpp:1679-1696). -/
def getCameraSpace (V : VecMath F Mat) (W : MatMath F Mat) (camera : DrawCamera F Mat)
    (useMoveVec useDirVec : float_3 F) : Mat :=
  let useDirVec := (V.normalize useDirVec).scale (-1)
  let up : float_3 F := ⟨0, 0, -1⟩
  let cameraRight := up.cross useDirVec
  let cameraUp := useDirVec.cross cameraRight
  let cameraRight := V.normalize cameraRight
  let cameraUp := V.normalize cameraUp
  let transposed0 := W.normalize4 ⟨cameraRight.x, cameraUp.x, useDirVec.x, 0⟩
  let transposed1 := W.normalize4 ⟨cameraRight.y, cameraUp.y, useDirVec.y, 0⟩
  let transposed2 := W.normalize4 ⟨cameraRight.z, cameraUp.z, useDirVec.z, 0⟩
  let localRot := W.mat44 transposed0 transposed1 transposed2 ⟨0, 0, 0, 1⟩
  let moveLocal : float_3 F := ⟨useMoveVec.x, useMoveVec.y, useMoveVec.z⟩
  let local1 := W.setData3 localRot moveLocal.x moveLocal.y moveLocal.z
  W.mul local1 camera.transform

/-- The body of the inner loop of `cullInstances` (VulkanSystem.cpp:1716-1720) for the pool
`pool` and the position `transform` of its store.  The sphere test is evaluated only when
`useCulling` is set, as `||` does. -/
def cullInstance (V : VecMath F Mat) (info : frustumInfo F) (cameraSpace : Mat) (pool : Nat)
    (s : State F Mat) (transform : Nat) : Except CullFault (State F Mat) := do
  let visible ← if !s.useCulling then pure true else do
    let index ← getAt CullFault.pool s.transformInstIndexPools pool
    let sphere ← getAtInt CullFault.sphere s.boundingSpheresInst index
    let store ← getAt CullFault.pool s.transformInstPoolsStore pool
    let world ← getAt CullFault.element store transform
    pure (sphereInFrustum V sphere info cameraSpace world)
  if visible then do
    let store ← getAt CullFault.pool s.transformInstPoolsStore pool
    let world ← getAt CullFault.element store transform
    let transformInstPools ← pushBack s.transformInstPools pool world
    let store ← getAt CullFault.pool s.transformEnvironmentInstPoolsStore pool
    let world ← getAt CullFault.element store transform
    let transformEnvironmentInstPools ← pushBack s.transformEnvironmentInstPools pool world
    let store ← getAt CullFault.pool s.transformNormalInstPoolsStore pool
    let world ← getAt CullFault.element store transform
    let transformNormalInstPools ← pushBack s.transformNormalInstPools pool world
    pure { s with transformInstPools := transformInstPools,
                  transformEnvironmentInstPools := transformEnvironmentInstPools,
                  transformNormalInstPools := transformNormalInstPools }
  else pure s

/-- The body of the outer loop of `cullInstances` (VulkanSystem.cpp:1708-1722) for the pool
`pool`: the three visible lists are cleared (`reserve` changes no contents) and the positions of
the store are visited in order. -/
def cullInstancePool (V : VecMath F Mat) (info : frustumInfo F) (cameraSpace : Mat)
    (s : State F Mat) (pool : Nat) : Except CullFault (State F Mat) := do
  let transformInstPools ← clearAt s.transformInstPools pool
  let store ← getAt CullFault.pool s.transformInstPoolsStore pool
  let transformEnvironmentInstPools ← clearAt s.transformEnvironmentInstPools pool
  let transformNormalInstPools ← clearAt s.transformNormalInstPools pool
  let s := { s with transformInstPools := transformInstPools,
                    transformEnvironmentInstPools := transformEnvironmentInstPools,
                    transformNormalInstPools := transformNormalInstPools }
  (List.range store.length).foldlM (cullInstance V info cameraSpace pool) s

/-- The function `VulkanSystem::cullInstances` (VulkanSystem.cpp:1698-1723). -/
def cullInstances (V : VecMath F Mat) (W : MatMath F Mat) (s : State F Mat) :
    Except CullFault (State F Mat) := do
  let s :=
    if s.transformInstPools.length < s.transformInstPoolsStore.length then
      { s with
        transformInstPools := List.replicate s.transformInstPoolsStore.length []
        transformEnvironmentInstPools :=
          List.replicate s.transformEnvironmentInstPoolsStore.length []
        transformNormalInstPools := List.replicate s.transformNormalInstPoolsStore.length [] }
    else s
  let camera ← getAtInt CullFault.camera s.cameras s.currentCamera
  let info := findFrustumInfo V camera
  let cameraSpace := getCameraSpace V W camera s.moveVec s.dirVec
  (List.range s.transformInstPools.length).foldlM (cullInstancePool V info cameraSpace) s

/-- The body of the inner loop of `cullIndexPools` (VulkanSystem.cpp:1737-1745) for the pool
`pool` and the node `node` of its draw pool. -/
def cullNode (V : VecMath F Mat) (info : frustumInfo F) (cameraSpace : Mat) (pool : Nat)
    (s : State F Mat) (node : Nat) : Except CullFault (State F Mat) := do
  let visible ← if !s.useCulling then pure true else do
    let nodes ← getAt CullFault.pool s.drawPools pool
    let drawNode ← getAt CullFault.element nodes node
    let transforms ← getAt CullFault.pool s.transformPools pool
    let world ← getAt CullFault.element transforms node
    pure (sphereInFrustum V drawNode.boundingSphere info cameraSpace world)
  if visible then do
    let nodes ← getAt CullFault.pool s.drawPools pool
    let drawNode ← getAt CullFault.element nodes node
    let indexBegin := drawNode.indexStart
    let indexEnd := drawNode.indexCount + indexBegin
    let store ← getAt CullFault.pool s.indexPoolsStore pool
    let indexPools ← insertRange s.indexPools pool store indexBegin indexEnd
    pure { s with indexPools := indexPools }
  else pure s

/-- The body of the outer loop of `cullIndexPools` (VulkanSystem.cpp:1733-1746) for the pool
`pool`. -/
def cullIndexPool (V : VecMath F Mat) (info : frustumInfo F) (cameraSpace : Mat)
    (s : State F Mat) (pool : Nat) : Except CullFault (State F Mat) := do
  let indexPools ← clearAt s.indexPools pool
  let _ ← getAt CullFault.pool s.indexPoolsStore pool
  let nodes ← getAt CullFault.pool s.drawPools pool
  let s := { s with indexPools := indexPools }
  (List.range nodes.length).foldlM (cullNode V info cameraSpace pool) s

/-- The function `VulkanSystem::cullIndexPools` (VulkanSystem.cpp:1725-1747). -/
def cullIndexPools (V : VecMath F Mat) (W : MatMath F Mat) (s : State F Mat) :
    Except CullFault (State F Mat) := do
  let s :=
    if s.indexPools.length < s.indexPoolsStore.length then
      { s with
        indexPools := List.replicate s.indexPoolsStore.length []
        indexBuffersValid := List.replicate s.indexPoolsStore.length false }
    else s
  let camera ← getAtInt CullFault.camera s.cameras s.currentCamera
  let info := findFrustumInfo V camera
  let cameraSpace := getCameraSpace V W camera s.moveVec s.dirVec
  (List.range s.drawPools.length).foldlM (cullIndexPool V info cameraSpace) s

/-- The body of the loop of `createIndexBuffers` that sets the valid flags
(VulkanSystem.cpp:2092-2099). -/
def setValid (s : State F Mat) (pool : Nat) : Except CullFault (State F Mat) := do
  let indices ← getAt CullFault.pool s.indexPools pool
  if pool < s.indexBuffersValid.length then
    if indices.length = 0 then
      pure { s with indexBuffersValid := s.indexBuffersValid.set pool false }
    else
      pure { s with indexBuffersValid := s.indexBuffersValid.set pool true }
  else .error CullFault.valid

/-- The part of `VulkanSystem::createIndexBuffers` (VulkanSystem.cpp:2077-2099) that works on the
index pools and the valid flags: under `useVertexBuffer` the index pools are culled and every
pool gets its flag.  The Vulkan buffers that the function frees before and creates after, and
the parameters `realloc` and `andFree` that only they depend on, are outside the embedding. -/
def createIndexBuffers (V : VecMath F Mat) (W : MatMath F Mat) (s : State F Mat) :
    Except CullFault (State F Mat) := do
  if s.useVertexBuffer then
    let s ← cullIndexPools V W s
    (List.range s.indexPools.length).foldlM setValid s
  else pure s

end Culling

/-- Matrix operations for evaluating the culling code with `mat44<float>` replaced by a
translation vector (stand-ins): a matrix built from rows is the zero translation, `setData3`
sets the translation, and the product adds translations. -/
def evalMat : MatMath ℚ (float_3 ℚ) where
  normalize4 v := v
  mat44 _ _ _ _ := ⟨0, 0, 0⟩
  setData3 _ a b c := ⟨a, b, c⟩
  mul a b := a.add b

/-! ## Culling, as named in the statements -/

section CullingSpec

variable {F Mat : Type} {α : Type}

/-- The positions `k < n` at which `keep` holds, in increasing order. -/
def keptPositions (keep : Nat → Bool) (n : Nat) : List Nat :=
  (List.range n).filter keep

/-- The sublist of `xs` taken at the positions `ks`, in the order of `ks`. -/
def takeAt (xs : List α) (ks : List Nat) : List α :=
  ks.filterMap (fun k => xs[k]?)

variable [LinearOrderedField F]

/-- The condition of `cullInstances` for position `k` of the instanced pool `pool`, as the
statement words it: culling is disabled, or `sphereInFrustum(boundingSpheresInst[
transformInstIndexPools[pool]], info, cameraSpace, transformInstPoolsStore[pool][k])` is true. -/
def instanceKept (V : VecMath F Mat) (s : State F Mat) (info : frustumInfo F) (cameraSpace : Mat)
    (pool k : Nat) : Bool :=
  !s.useCulling ||
    match s.transformInstIndexPools[pool]?, s.transformInstPoolsStore[pool]? with
    | some index, some store =>
      match s.boundingSpheresInst[index.toNat]?, store[k]? with
      | some sphere, some world => sphereInFrustum V sphere info cameraSpace world
      | _, _ => false
    | _, _ => false

/-- The preconditions of `cullInstances` under which no subscript is out of range: the current
camera exists, the visible pools are not more than the store pools and, where they are as many,
the three visible vectors have the same size, the three stores have the same shape, and under
culling every pool has its bounding sphere. -/
def InstancesWellFormed (s : State F Mat) : Prop :=
  0 ≤ s.currentCamera ∧ s.currentCamera.toNat < s.cameras.length ∧
    s.transformInstPools.length ≤ s.transformInstPoolsStore.length ∧
    (s.transformInstPools.length = s.transformInstPoolsStore.length →
      s.transformEnvironmentInstPools.length = s.transformInstPoolsStore.length ∧
      s.transformNormalInstPools.length = s.transformInstPoolsStore.length) ∧
    s.transformEnvironmentInstPoolsStore.map List.length =
      s.transformInstPoolsStore.map List.length ∧
    s.transformNormalInstPoolsStore.map List.length =
      s.transformInstPoolsStore.map List.length ∧
    (s.useCulling = true → ∀ pool, pool < s.transformInstPoolsStore.length →
      ∃ index, s.transformInstIndexPools[pool]? = some index ∧ 0 ≤ index ∧
        index.toNat < s.boundingSpheresInst.length)

end CullingSpec

/-- A renderer state for evaluating the culling code, with `mat44<float>` replaced by a
translation vector: the camera `demoCamera` at the origin, one instanced pool with two instances
of a sphere of radius 0.01 (the first two units in front of the camera, the second thirty), and
one draw pool with two nodes at the same two places, of three indices each. -/
def demoCull (useCulling : Bool) : State ℚ (float_3 ℚ) :=
  { useCulling := useCulling, playbackSpeed := 1, moveVec := ⟨0, 0, 0⟩, dirVec := ⟨0, 0, 1⟩,
    useVertexBuffer := true, cameras := [demoCamera], currentCamera := 0,
    transformInstPoolsStore := [[⟨0, 0, -2⟩, ⟨0, 0, -30⟩]],
    transformEnvironmentInstPoolsStore := [[⟨1, 0, 0⟩, ⟨2, 0, 0⟩]],
    transformNormalInstPoolsStore := [[⟨0, 1, 0⟩, ⟨0, 2, 0⟩]],
    transformInstIndexPools := [0], boundingSpheresInst := [(⟨0, 0, 0⟩, 1 / 100)],
    indexPoolsStore := [[10, 11, 12, 13, 14, 15]],
    drawPools := [[⟨(⟨0, 0, 0⟩, 1 / 100), 0, 3⟩, ⟨(⟨0, 0, 0⟩, 1 / 100), 3, 3⟩]],
    transformPools := [[⟨0, 0, -2⟩, ⟨0, 0, -30⟩]] }

section IndexCullingSpec

variable {F Mat : Type} {α : Type}

/-- The slice `store[indexStart .. indexStart + indexCount)` named in the statements. -/
def slice (store : List α) (indexStart indexCount : Int) : List α :=
  (store.take (indexStart + indexCount).toNat).drop indexStart.toNat

variable [LinearOrderedField F]

/-- The condition of `cullIndexPools` for the node `node` of the draw pool `pool`, as the
statement words it: culling is disabled, or `sphereInFrustum(drawPools[pool][node].boundingSphere,
info, cameraSpace, transformPools[pool][node])` is true. -/
def nodeKept (V : VecMath F Mat) (s : State F Mat) (info : frustumInfo F) (cameraSpace : Mat)
    (pool node : Nat) : Bool :=
  !s.useCulling ||
    match s.drawPools[pool]?, s.transformPools[pool]? with
    | some nodes, some transforms =>
      match nodes[node]?, transforms[node]? with
      | some drawNode, some world =>
        sphereInFrustum V drawNode.boundingSphere info cameraSpace world
      | _, _ => false
    | _, _ => false

/-- The visible index list of a pool as the statement words it: the concatenation, in node order,
of the slices of the store of exactly the nodes that `keep` holds for. -/
def visibleIndices (store : List Nat) (nodes : List (DrawNode F)) (keep : Nat → Bool) :
    List Nat :=
  (takeAt nodes (keptPositions keep nodes.length)).flatMap
    (fun n => slice store n.indexStart n.indexCount)

/-- The preconditions of `cullIndexPools` under which no subscript or iterator is out of range:
the current camera exists, every draw pool has its index store, the index range of every node
lies in that store, and under culling every node has its transform. -/
def IndexPoolsWellFormed (s : State F Mat) : Prop :=
  0 ≤ s.currentCamera ∧ s.currentCamera.toNat < s.cameras.length ∧
    s.drawPools.length ≤ s.indexPoolsStore.length ∧
    (∀ (pool : Nat) (nodes : List (DrawNode F)) (store : List Nat),
      s.drawPools[pool]? = some nodes → s.indexPoolsStore[pool]? = some store →
      ∀ n ∈ nodes, 0 ≤ n.indexStart ∧ 0 ≤ n.indexCount ∧
        n.indexStart + n.indexCount ≤ (store.length : Int)) ∧
    (s.useCulling = true → ∀ (pool : Nat) (nodes : List (DrawNode F)),
      s.drawPools[pool]? = some nodes →
      ∃ transforms : List Mat, s.transformPools[pool]? = some transforms ∧
        nodes.length ≤ transforms.length)

/-- The two states agree on everything that `cullIndexPools` reads apart from the visible index
pools: the draw pools, the index store, the transform pools, the cameras and the current one,
the camera vectors and the culling flag. -/
def SameCullInputs (s t : State F Mat) : Prop :=
  t.drawPools = s.drawPools ∧ t.indexPoolsStore = s.indexPoolsStore ∧
    t.transformPools = s.transformPools ∧ t.cameras = s.cameras ∧
    t.currentCamera = s.currentCamera ∧ t.moveVec = s.moveVec ∧ t.dirVec = s.dirVec ∧
    t.useCulling = s.useCulling

end IndexCullingSpec
section IndexCullingEntry

variable {F Mat : Type}

/-- The visible index vector after the first statement of `cullIndexPools`: a vector of empty
pools of the size of the store when it was smaller than the store, itself otherwise. -/
def resizedPools (s : State F Mat) : List (List Nat) :=
  if s.indexPools.length < s.indexPoolsStore.length then
    List.replicate s.indexPoolsStore.length []
  else s.indexPools

/-- The valid flags after the first statement of `cullIndexPools`: all false, of the size of the
store, when the visible index vector was smaller than the store, unchanged otherwise. -/
def resizedValid (s : State F Mat) : List Bool :=
  if s.indexPools.length < s.indexPoolsStore.length then
    List.replicate s.indexPoolsStore.length false
  else s.indexBuffersValid

end IndexCullingEntry
/-- The state that `cullIndexPools` leaves from `demoCull true`: the first node is in the frustum
and the second is not, so the visible index pool holds the three indices of the first node. -/
def demoCulled : State ℚ (float_3 ℚ) :=
  { demoCull true with indexPools := [[10, 11, 12]], indexBuffersValid := [false] }
/-- The precondition of the flag loop of `createIndexBuffers` under which `indexBuffersValid[pool]`
is in range for every pool: where `cullIndexPools` does not resize the two vectors, there are at
least as many flags as visible index pools. -/
def ValidFlagsWellFormed {F Mat : Type} (s : State F Mat) : Prop :=
  s.indexPoolsStore.length ≤ s.indexPools.length →
    s.indexPools.length ≤ s.indexBuffersValid.length

/-- Operations for evaluating the NaN guard over `ℚ`: as `evalVec`, with `mat44<float>` replaced
by an optional translation vector, where `none` stands for a matrix with NaN entries; the
transformed centre has NaN coordinates as soon as one of the two matrices has NaN entries. -/
def nanVec : VecMath ℚ (Option (float_3 ℚ)) where
  tan x := x
  norm v := (v.dot v + 1) / 2
  normalize v := v.scale (1 / Rat.sqrt (v.dot v))
  toCamera toCameraSpace toWorldSpace centre :=
    match toCameraSpace, toWorldSpace with
    | some a, some b => some ((centre.add b).add a)
    | _, _ => none

section PlaneSpec

variable {F : Type} [LinearOrderedField F]

/-- The point `q` lies on the plane given by a normal and a reference origin:
`normal . (q - origin) = 0`. -/
def OnPlane (normal origin q : float_3 F) : Prop :=
  normal.dot (q.sub origin) = 0

end PlaneSpec

/-- The outcome of a driver evaluation in which every read of `times[]` and `values[]` was within
bounds: the call returned, or it stopped at the subscript of the scene graph node. -/
def ReadsInBounds {α : Type} (r : Except Fault α) : Prop :=
  r ≠ .error Fault.times ∧ r ≠ .error Fault.values

/-! ## The side normals with either handedness of the cross product -/

namespace float_3

variable {F : Type}

/-- Modelled from the spec: the cross product of the opposite handedness, `w × v`.
`MathHelpers.h` is absent from `src/`, so which of the two `float_3::cross` computes is not
known; `cross` above is the usual one. -/
def crossLeft [Sub F] [Mul F] (v w : float_3 F) : float_3 F :=
  w.cross v

end float_3

section SideNormals

variable {F Mat : Type} [LinearOrderedField F]

/-- The four side normals of `findFrustumInfo` (VulkanSystem.cpp:1481-1500) with the cross
product as a parameter, in the order right, left, top, bottom.  With `float_3.cross` they are
the side normals of `findFrustumInfo`. -/
def sideNormalsWith (cross : float_3 F → float_3 F → float_3 F) (V : VecMath F Mat)
    (camera : DrawCamera F Mat) : float_3 F × float_3 F × float_3 F × float_3 F :=
  let farZ := camera.perspectiveInfo.farP
  let nearZ := camera.perspectiveInfo.nearP
  let nearTop := V.tan (camera.perspectiveInfo.vfov / 2) * nearZ
  let farTop := V.tan (camera.perspectiveInfo.vfov / 2) * farZ
  let nearBottom := -V.tan (camera.perspectiveInfo.vfov / 2) * nearZ
  let farBottom := -V.tan (camera.perspectiveInfo.vfov / 2) * farZ
  let nearRight := camera.perspectiveInfo.aspect * nearTop
  let farRight := camera.perspectiveInfo.aspect * farTop
  let nearLeft := camera.perspectiveInfo.aspect * nearBottom
  let farLeft := camera.perspectiveInfo.aspect * farBottom
  let rightNormal := V.normalize
    (cross ((⟨farRight, farTop, farZ⟩ : float_3 F).sub ⟨nearRight, nearTop, nearZ⟩) ⟨0, -1, 0⟩)
  let leftNormal := V.normalize
    (cross ((⟨farLeft, farTop, farZ⟩ : float_3 F).sub ⟨nearLeft, nearTop, nearZ⟩) ⟨0, 1, 0⟩)
  let topNormal := V.normalize
    (cross ((⟨farRight, farTop, farZ⟩ : float_3 F).sub ⟨nearRight, nearTop, nearZ⟩) ⟨-1, 0, 0⟩)
  let bottomNormal := V.normalize
    (cross ((⟨farRight, farBottom, farZ⟩ : float_3 F).sub ⟨nearRight, nearBottom, nearZ⟩)
      ⟨1, 0, 0⟩)
  (rightNormal, leftNormal, topNormal, bottomNormal)

end SideNormals

/-! ## Basic facts about the checked reads and writes -/

section Basic

variable {F : Type} {Q : Type}

theorem ok_bind {ε α β : Type} (a : α) (f : α → Except ε β) :
    (Except.ok a >>= f) = f a := rfl

theorem error_bind {ε α β : Type} (e : ε) (f : α → Except ε β) :
    (Except.error e >>= f) = Except.error e := rfl

theorem pure_eq_ok {ε α : Type} (a : α) : (pure a : Except ε α) = Except.ok a := rfl

theorem channel_cases (c : Channel) :
    c = Channel.CH_TRANSLATE ∨ c = Channel.CH_ROTATE ∨ c = Channel.CH_SCALE := by
  cases c <;> simp

theorem interpolation_cases (c : Interpolation) :
    c = Interpolation.LINEAR ∨ c = Interpolation.STEP ∨ c = Interpolation.SLERP := by
  cases c <;> simp

theorem readAt_of_lt [Zero F] (f : Fault) (xs : List F) (i : Nat) (h : i < xs.length) :
    readAt f xs i = .ok (xs.getD i 0) := by
  simp [readAt, List.getD, List.getElem?_eq_getElem h]

theorem readAt_of_le (f : Fault) (xs : List F) (i : Nat) (h : xs.length ≤ i) :
    readAt f xs i = .error f := by
  simp [readAt, List.getElem?_eq_none h]

theorem readVec_of_lt [Zero F] (values : List F) (k : Nat) (h : k + 2 < values.length) :
    readVec values k =
      .ok ⟨values.getD k 0, values.getD (k + 1) 0, values.getD (k + 2) 0⟩ := by
  simp [readVec, readAt_of_lt _ values k (by omega), readAt_of_lt _ values (k + 1) (by omega),
    readAt_of_lt _ values (k + 2) h, ok_bind, pure_eq_ok]

theorem writeNode_of_some (sg : SceneGraph F Q) (id : Nat) (f : GraphNode F Q → GraphNode F Q)
    (n : GraphNode F Q) (h : sg.graphNodes[id]? = some n) :
    writeNode sg id f = .ok ⟨sg.graphNodes.set id (f n)⟩ := by
  simp [writeNode, h]

theorem nextIndex_eq_mod [LinearOrderedField F] (times : List F) (ind : Nat)
    (h : ind < times.length) : nextIndex times ind = (ind + 1) % times.length := by
  unfold nextIndex
  split
  · have : ind + 1 = times.length := by omega
    simp [this]
  · rw [Nat.mod_eq_of_lt (by omega)]

theorem nextIndex_lt [LinearOrderedField F] (times : List F) (ind : Nat)
    (h : ind < times.length) : nextIndex times ind < times.length := by
  unfold nextIndex
  split <;> omega

end Basic

/-! ## The channel updates -/

section Channels

variable {F : Type} {Q : Type} [LinearOrderedField F]

theorem linear_translate_eq (M : MathHelpers F Q) (d : Driver F) (ind : Nat)
    (sg : SceneGraph F Q) (node : GraphNode F Q)
    (hind : ind < d.times.length)
    (hvalues : d.times.length * 3 ≤ d.values.length)
    (hnode : sg.graphNodes[d.id]? = some node)
    (hch : d.channel = Channel.CH_TRANSLATE) :
    updateChannelLinear M d ind sg =
      .ok (d, ⟨sg.graphNodes.set d.id { node with
        translate := blend (vec3At d.values ind) (vec3At d.values ((ind + 1) % d.times.length))
          (fraction d ind ((ind + 1) % d.times.length)) }⟩, true) := by
  have hnext := nextIndex_lt d.times ind hind
  have hmod := nextIndex_eq_mod d.times ind hind
  rw [hmod] at hnext
  have r1 := readAt_of_lt Fault.times d.times ind hind
  have r2 := readAt_of_lt Fault.times d.times _ hnext
  have v1 := readVec_of_lt d.values (ind * 3) (by omega)
  have v2 := readVec_of_lt d.values ((ind + 1) % d.times.length * 3) (by omega)
  simp only [updateChannelLinear, hmod, r1, r2, v1, v2, hch, ok_bind, pure_eq_ok,
    writeNode_of_some sg d.id _ node hnode, blend, fraction, vec3At, timeAt]

theorem linear_scale_eq (M : MathHelpers F Q) (d : Driver F) (ind : Nat)
    (sg : SceneGraph F Q) (node : GraphNode F Q)
    (hind : ind < d.times.length)
    (hvalues : d.times.length * 3 ≤ d.values.length)
    (hnode : sg.graphNodes[d.id]? = some node)
    (hch : d.channel = Channel.CH_SCALE) :
    updateChannelLinear M d ind sg =
      .ok (d, ⟨sg.graphNodes.set d.id { node with
        scale := blend (vec3At d.values ind) (vec3At d.values ((ind + 1) % d.times.length))
          (fraction d ind ((ind + 1) % d.times.length)) }⟩, true) := by
  have hnext := nextIndex_lt d.times ind hind
  have hmod := nextIndex_eq_mod d.times ind hind
  rw [hmod] at hnext
  have r1 := readAt_of_lt Fault.times d.times ind hind
  have r2 := readAt_of_lt Fault.times d.times _ hnext
  have v1 := readVec_of_lt d.values (ind * 3) (by omega)
  have v2 := readVec_of_lt d.values ((ind + 1) % d.times.length * 3) (by omega)
  simp only [updateChannelLinear, hmod, r1, r2, v1, v2, hch, ok_bind, pure_eq_ok,
    writeNode_of_some sg d.id _ node hnode, blend, fraction, vec3At, timeAt]

theorem linear_rotate_eq (M : MathHelpers F Q) (d : Driver F) (ind : Nat)
    (sg : SceneGraph F Q) (node : GraphNode F Q)
    (hind : ind < d.times.length)
    (hvalues : d.times.length * 4 ≤ d.values.length)
    (hnode : sg.graphNodes[d.id]? = some node)
    (hch : d.channel = Channel.CH_ROTATE) :
    updateChannelLinear M d ind sg =
      .ok (d, ⟨sg.graphNodes.set d.id { node with
        rotation := M.qadd
          (M.qscale (quatOf M (axisAt d.values ind) (angleAt d.values ind))
            (1 - fraction d ind ((ind + 1) % d.times.length)))
          (M.qscale (quatOf M (axisAt d.values ((ind + 1) % d.times.length))
              (angleAt d.values ((ind + 1) % d.times.length)))
            (fraction d ind ((ind + 1) % d.times.length))) }⟩, true) := by
  have hnext := nextIndex_lt d.times ind hind
  have hmod := nextIndex_eq_mod d.times ind hind
  rw [hmod] at hnext
  have r1 := readAt_of_lt Fault.times d.times ind hind
  have r2 := readAt_of_lt Fault.times d.times _ hnext
  have a1 := readAt_of_lt Fault.values d.values (ind * 4 + 3) (by omega)
  have a2 := readAt_of_lt Fault.values d.values ((ind + 1) % d.times.length * 4 + 3) (by omega)
  have v1 := readVec_of_lt d.values (ind * 4) (by omega)
  have v2 := readVec_of_lt d.values ((ind + 1) % d.times.length * 4) (by omega)
  simp only [updateChannelLinear, hmod, r1, r2, a1, a2, v1, v2, hch, ok_bind, pure_eq_ok,
    writeNode_of_some sg d.id _ node hnode, fraction, quatOf, axisAt, angleAt, timeAt]

theorem slerp_eq_linear_of_channel (M : MathHelpers F Q) (d : Driver F) (ind : Nat)
    (sg : SceneGraph F Q)
    (hch : d.channel = Channel.CH_TRANSLATE ∨ d.channel = Channel.CH_SCALE) :
    updateChannelSlerp M d ind sg = updateChannelLinear M d ind sg := by
  cases h1 : readAt Fault.times d.times ind with
  | error e => simp [updateChannelSlerp, updateChannelLinear, h1, error_bind]
  | ok a =>
    cases h2 : readAt Fault.times d.times (nextIndex d.times ind) with
    | error e => simp [updateChannelSlerp, updateChannelLinear, h1, h2, ok_bind, error_bind]
    | ok b =>
      rcases hch with hch | hch <;>
        simp only [updateChannelSlerp, h1, h2, hch, ok_bind]

theorem slerp_rotate_ok (M : MathHelpers F Q) (d : Driver F) (ind : Nat)
    (sg : SceneGraph F Q) (node : GraphNode F Q)
    (hind : ind < d.times.length)
    (hvalues : d.times.length * 4 ≤ d.values.length)
    (hnode : sg.graphNodes[d.id]? = some node)
    (hch : d.channel = Channel.CH_ROTATE) :
    ∃ q : Q, updateChannelSlerp M d ind sg =
      .ok (d, ⟨sg.graphNodes.set d.id { node with rotation := q }⟩, true) := by
  have hnext := nextIndex_lt d.times ind hind
  have r1 := readAt_of_lt Fault.times d.times ind hind
  have r2 := readAt_of_lt Fault.times d.times _ hnext
  have a1 := readAt_of_lt Fault.values d.values (ind * 4 + 3) (by omega)
  have a2 := readAt_of_lt Fault.values d.values (nextIndex d.times ind * 4 + 3) (by omega)
  have v1 := readVec_of_lt d.values (ind * 4) (by omega)
  have v2 := readVec_of_lt d.values (nextIndex d.times ind * 4) (by omega)
  simp only [updateChannelSlerp, r1, r2, a1, a2, v1, v2, hch, ok_bind, pure_eq_ok,
    writeNode_of_some sg d.id _ node hnode]
  exact ⟨_, rfl⟩

omit [LinearOrderedField F] in
theorem step_same (M : MathHelpers F Q) (d : Driver F) (ind : Nat) (sg : SceneGraph F Q)
    (h : d.lastIndex = (ind : Int)) :
    updateChannelStep M d ind sg = .ok (d, sg, false) := by
  simp [updateChannelStep, h, pure_eq_ok]

theorem step_translate_eq (M : MathHelpers F Q) (d : Driver F) (ind : Nat)
    (sg : SceneGraph F Q) (node : GraphNode F Q)
    (h : d.lastIndex ≠ (ind : Int))
    (hnode : sg.graphNodes[d.id]? = some node)
    (hch : d.channel = Channel.CH_TRANSLATE) (hlen : ind * 3 + 2 < d.values.length) :
    updateChannelStep M d ind sg =
      .ok ({ d with lastIndex := (ind : Int) },
        ⟨sg.graphNodes.set d.id { node with translate := vec3At d.values ind }⟩, true) := by
  simp only [updateChannelStep, h, if_false, hch, readVec_of_lt d.values (ind * 3) hlen,
    ok_bind, pure_eq_ok, writeNode_of_some sg d.id _ node hnode, vec3At]

theorem step_rotate_eq (M : MathHelpers F Q) (d : Driver F) (ind : Nat)
    (sg : SceneGraph F Q) (node : GraphNode F Q)
    (h : d.lastIndex ≠ (ind : Int))
    (hnode : sg.graphNodes[d.id]? = some node)
    (hch : d.channel = Channel.CH_ROTATE) (hlen : ind * 4 + 3 < d.values.length) :
    updateChannelStep M d ind sg =
      .ok ({ d with lastIndex := (ind : Int) },
        ⟨sg.graphNodes.set d.id { node with
          rotation := quatOf M (axisAt d.values ind) (angleAt d.values ind) }⟩, true) := by
  simp only [updateChannelStep, h, if_false, hch,
    readVec_of_lt d.values (ind * 4) (by omega),
    readAt_of_lt Fault.values d.values (ind * 4 + 3) hlen,
    ok_bind, pure_eq_ok, writeNode_of_some sg d.id _ node hnode, quatOf, axisAt, angleAt]

theorem step_scale_eq (M : MathHelpers F Q) (d : Driver F) (ind : Nat)
    (sg : SceneGraph F Q) (node : GraphNode F Q)
    (h : d.lastIndex ≠ (ind : Int))
    (hnode : sg.graphNodes[d.id]? = some node)
    (hch : d.channel = Channel.CH_SCALE) (hlen : ind * 3 + 2 < d.values.length) :
    updateChannelStep M d ind sg =
      .ok ({ d with lastIndex := (ind : Int) },
        ⟨sg.graphNodes.set d.id { node with scale := vec3At d.values ind }⟩, true) := by
  simp only [updateChannelStep, h, if_false, hch, readVec_of_lt d.values (ind * 3) hlen,
    ok_bind, pure_eq_ok, writeNode_of_some sg d.id _ node hnode, vec3At]

omit [LinearOrderedField F] in
theorem node_of_wellFormed {d : Driver F} {sg : SceneGraph F Q} (hwf : WellFormed d sg) :
    ∃ node, sg.graphNodes[d.id]? = some node := by
  have h : d.id < sg.graphNodes.length := hwf.2.1
  exact ⟨sg.graphNodes[d.id], List.getElem?_eq_getElem h⟩

/-- On a well-formed driver `updateChannelLinear` returns true, leaves the driver as it is and
overwrites one node. -/
theorem linear_ok (M : MathHelpers F Q) (d : Driver F) (ind : Nat) (sg : SceneGraph F Q)
    (hwf : WellFormed d sg) (hind : ind < d.times.length) :
    ∃ node, updateChannelLinear M d ind sg = .ok (d, ⟨sg.graphNodes.set d.id node⟩, true) := by
  obtain ⟨node, hnode⟩ := node_of_wellFormed hwf
  have hv := hwf.2.2
  cases hch : d.channel <;> rw [hch] at hv
  · exact ⟨_, linear_translate_eq M d ind sg node hind hv hnode hch⟩
  · exact ⟨_, linear_rotate_eq M d ind sg node hind hv hnode hch⟩
  · exact ⟨_, linear_scale_eq M d ind sg node hind hv hnode hch⟩

/-- On a well-formed driver `updateChannelSlerp` returns true, leaves the driver as it is and
overwrites one node. -/
theorem slerp_ok (M : MathHelpers F Q) (d : Driver F) (ind : Nat) (sg : SceneGraph F Q)
    (hwf : WellFormed d sg) (hind : ind < d.times.length) :
    ∃ node, updateChannelSlerp M d ind sg = .ok (d, ⟨sg.graphNodes.set d.id node⟩, true) := by
  cases hch : d.channel
  · rw [slerp_eq_linear_of_channel M d ind sg (Or.inl hch)]
    exact linear_ok M d ind sg hwf hind
  · obtain ⟨node, hnode⟩ := node_of_wellFormed hwf
    have hv := hwf.2.2
    rw [hch] at hv
    obtain ⟨q, hq⟩ := slerp_rotate_ok M d ind sg node hind hv hnode hch
    exact ⟨_, hq⟩
  · rw [slerp_eq_linear_of_channel M d ind sg (Or.inr hch)]
    exact linear_ok M d ind sg hwf hind

/-- On a well-formed driver `updateChannelStep` returns whether `ind` differs from `lastIndex`,
leaves `lastIndex = ind` and keeps the number of nodes. -/
theorem step_ok (M : MathHelpers F Q) (d : Driver F) (ind : Nat) (sg : SceneGraph F Q)
    (hwf : WellFormed d sg) (hind : ind < d.times.length) :
    ∃ sg2 : SceneGraph F Q, updateChannelStep M d ind sg =
        .ok ({ d with lastIndex := (ind : Int) }, sg2, decide (d.lastIndex ≠ (ind : Int))) ∧
      sg2.graphNodes.length = sg.graphNodes.length := by
  by_cases h : d.lastIndex = (ind : Int)
  · refine ⟨sg, ?_, rfl⟩
    rw [step_same M d ind sg h]
    have hd : ({ d with lastIndex := (ind : Int) } : Driver F) = d := by rw [← h]
    rw [hd]
    simp [h]
  · obtain ⟨node, hnode⟩ := node_of_wellFormed hwf
    have hv := hwf.2.2
    have hdec : decide (d.lastIndex ≠ (ind : Int)) = true := by simpa using h
    rw [hdec]
    rcases channel_cases d.channel with hch | hch | hch <;> rw [hch] at hv <;> simp only at hv
    · exact ⟨_, step_translate_eq M d ind sg node h hnode hch (by omega), by simp⟩
    · exact ⟨_, step_rotate_eq M d ind sg node h hnode hch (by omega), by simp⟩
    · exact ⟨_, step_scale_eq M d ind sg node h hnode hch (by omega), by simp⟩

end Channels

/-! ## The runtime update and the keyframe search -/

section Runtime

variable {F : Type} {Q : Type} [LinearOrderedField F]

theorem advanceRuntime_eq (d : Driver F) (dt : F) (loop : Bool) (hne : 0 < d.times.length) :
    advanceRuntime d dt loop =
      .ok { d with currentRuntime :=
        wrappedRuntime d.currentRuntime dt loop (firstTime d) (lastTime d) } := by
  have r0 := readAt_of_lt Fault.times d.times 0 hne
  have rl := readAt_of_lt Fault.times d.times (d.times.length - 1) (by omega)
  unfold firstTime lastTime timeAt
  generalize d.times.getD 0 0 = T0 at r0
  generalize d.times.getD (d.times.length - 1) 0 = L at rl
  cases loop
  · by_cases h1 : d.currentRuntime ≤ L
    · by_cases h2 : d.currentRuntime + dt < T0 <;>
        simp [advanceRuntime, r0, rl, ok_bind, pure_eq_ok, wrappedRuntime, advancedRuntime,
          h1, h2]
    · by_cases h2 : d.currentRuntime < T0 <;>
        simp [advanceRuntime, r0, rl, ok_bind, pure_eq_ok, wrappedRuntime, advancedRuntime,
          h1, h2]
  · by_cases h1 : d.currentRuntime + dt > L
    · by_cases h2 : d.currentRuntime + dt - L < T0 <;>
        simp [advanceRuntime, r0, rl, ok_bind, pure_eq_ok, wrappedRuntime, advancedRuntime,
          h1, h2]
    · by_cases h2 : d.currentRuntime + dt < T0 <;>
        simp [advanceRuntime, r0, rl, ok_bind, pure_eq_ok, wrappedRuntime, advancedRuntime,
          h1, h2]

/-- The keyframe search entered at `ind < count` stops at an index `i` with `ind ≤ i < count`
such that every index from `ind` up to `i` (excluded) has its successor time below `r`, and `i`
is the last index or its successor time is at least `r`. -/
theorem locateLoop_spec (times : List F) (r : F) (ind : Nat) (hind : ind < times.length) :
    ∃ i, locateLoop times r ind = .ok i ∧ ind ≤ i ∧ i < times.length ∧
      (∀ j, ind ≤ j → j < i → timeAt times (j + 1) < r) ∧
      (i = times.length - 1 ∨ r ≤ timeAt times (i + 1)) := by
  by_cases hlast : ind = times.length - 1
  · refine ⟨ind, ?_, le_refl _, hind, fun j h1 h2 => absurd h2 (by omega), Or.inl hlast⟩
    rw [locateLoop]
    simp only [hind, dite_true, pure_eq_ok]
    rw [if_pos hlast]
  · have hnext : ind + 1 < times.length := by omega
    have rd := readAt_of_lt Fault.times times (ind + 1) hnext
    by_cases hge : timeAt times (ind + 1) ≥ r
    · refine ⟨ind, ?_, le_refl _, hind, fun j h1 h2 => absurd h2 (by omega), Or.inr hge⟩
      rw [locateLoop]
      simp only [hind, dite_true, pure_eq_ok, rd]
      rw [if_neg hlast]
      exact if_pos hge
    · obtain ⟨i, hi, h1, h2, h3, h4⟩ := locateLoop_spec times r (ind + 1) hnext
      refine ⟨i, ?_, by omega, h2, ?_, h4⟩
      · rw [locateLoop]
        simp only [hind, dite_true, pure_eq_ok, rd]
        rw [if_neg hlast]
        exact (if_neg hge).trans hi
      · intro j hj1 hj2
        by_cases hj : j = ind
        · subst hj
          exact not_le.mp hge
        · exact h3 j (by omega) hj2
termination_by times.length - ind

/-- The shape of every outcome of `updateTransform` on a driver with at least one keyframe time:
the runtime statements succeed and leave the wrapped runtime, the search succeeds with an index
`ind`, and the outcome is that of the channel update selected by the interpolation kind. -/
theorem updateTransform_eq (M : MathHelpers F Q) (d : Driver F) (dt : F) (sg : SceneGraph F Q)
    (loop : Bool) (hne : 0 < d.times.length) :
    ∃ ind, ind < d.times.length ∧
      locateLoop d.times (wrappedRuntime d.currentRuntime dt loop (firstTime d) (lastTime d)) 0
        = .ok ind ∧
      updateTransform M d dt sg loop =
        (match d.interpolation with
          | .LINEAR => updateChannelLinear M (advanced d dt loop) ind sg
          | .STEP => updateChannelStep M (advanced d dt loop) ind sg
          | .SLERP => updateChannelSlerp M (advanced d dt loop) ind sg) := by
  obtain ⟨i, hi, _, h2, _, _⟩ := locateLoop_spec d.times
    (wrappedRuntime d.currentRuntime dt loop (firstTime d) (lastTime d)) 0 hne
  refine ⟨i, h2, hi, ?_⟩
  simp only [updateTransform, advanceRuntime_eq d dt loop hne, ok_bind, hi, advanced]

omit [LinearOrderedField F] in
theorem wellFormed_congr {d e : Driver F} {sg sg2 : SceneGraph F Q} (hwf : WellFormed d sg)
    (hid : e.id = d.id) (hch : e.channel = d.channel) (ht : e.times = d.times)
    (hv : e.values = d.values) (hlen : sg2.graphNodes.length = sg.graphNodes.length) :
    WellFormed e sg2 := by
  unfold WellFormed at *
  rw [hid, hch, ht, hv, hlen]
  exact hwf

/-- On a well-formed driver `updateTransform` succeeds.  The outcome driver is the advanced
driver up to `lastIndex`; a STEP driver ends with `lastIndex` at the located index and returns
whether that index differs from the old `lastIndex`, any other driver keeps `lastIndex` and
returns true. -/
theorem updateTransform_ok (M : MathHelpers F Q) (d : Driver F) (dt : F) (sg : SceneGraph F Q)
    (loop : Bool) (hwf : WellFormed d sg) :
    ∃ (ind : Nat) (li : Int) (sg2 : SceneGraph F Q) (b : Bool),
      ind < d.times.length ∧
      locateLoop d.times (advanced d dt loop).currentRuntime 0 = .ok ind ∧
      updateTransform M d dt sg loop = .ok ({ advanced d dt loop with lastIndex := li }, sg2, b) ∧
      sg2.graphNodes.length = sg.graphNodes.length ∧
      (d.interpolation = Interpolation.STEP →
        li = (ind : Int) ∧ b = decide (d.lastIndex ≠ (ind : Int))) ∧
      (d.interpolation ≠ Interpolation.STEP → li = d.lastIndex ∧ b = true) := by
  obtain ⟨ind, hind, hloc, hut⟩ := updateTransform_eq M d dt sg loop hwf.1
  have hwf2 : WellFormed (advanced d dt loop) sg := wellFormed_congr hwf rfl rfl rfl rfl rfl
  rcases interpolation_cases d.interpolation with hi | hi | hi
  · obtain ⟨node, hnode⟩ := linear_ok M (advanced d dt loop) ind sg hwf2 hind
    refine ⟨ind, d.lastIndex, ⟨sg.graphNodes.set (advanced d dt loop).id node⟩, true, hind, hloc,
      ?_, ?_, ?_, ?_⟩
    · rw [hut, hi]
      exact hnode
    · simp [advanced]
    · intro h
      rw [hi] at h
      cases h
    · intro _
      exact ⟨rfl, rfl⟩
  · obtain ⟨sg2, hstep, hlen⟩ := step_ok M (advanced d dt loop) ind sg hwf2 hind
    refine ⟨ind, ind, sg2, decide (d.lastIndex ≠ (ind : Int)), hind, hloc, ?_, hlen, ?_, ?_⟩
    · rw [hut, hi]
      exact hstep
    · intro _
      exact ⟨rfl, rfl⟩
    · intro h
      exact absurd hi h
  · obtain ⟨node, hnode⟩ := slerp_ok M (advanced d dt loop) ind sg hwf2 hind
    refine ⟨ind, d.lastIndex, ⟨sg.graphNodes.set (advanced d dt loop).id node⟩, true, hind, hloc,
      ?_, ?_, ?_, ?_⟩
    · rw [hut, hi]
      exact hnode
    · simp [advanced]
    · intro h
      rw [hi] at h
      cases h
    · intro _
      exact ⟨rfl, rfl⟩

theorem updateTransform_of (M : MathHelpers F Q)
    (d : Driver F) (dt : F) (sg : SceneGraph F Q) (loop : Bool) (d1 : Driver F) (ind : Nat)
    (h1 : advanceRuntime d dt loop = .ok d1)
    (h2 : locateLoop d1.times d1.currentRuntime 0 = .ok ind) :
    updateTransform M d dt sg loop =
      (match d1.interpolation with
        | .LINEAR => updateChannelLinear M d1 ind sg
        | .STEP => updateChannelStep M d1 ind sg
        | .SLERP => updateChannelSlerp M d1 ind sg) := by
  simp only [updateTransform, h1, ok_bind, h2]

end Runtime

/-! ## The runtime statements of `updateTransform` -/

section RuntimeClaims

variable {F : Type} {Q : Type} [LinearOrderedField F]

theorem demo_wellFormed (channel : Channel) (interpolation : Interpolation) (r : ℚ) (li : Int)
    (h : channel ≠ Channel.CH_ROTATE) :
    WellFormed (demoDriver channel interpolation r li) demoScene := by
  cases channel <;> simp [WellFormed, demoDriver, demoScene] at h ⊢

/-- C3: with `loop = true`, when the old runtime plus the delta exceeds the last keyframe time
`L` and the difference `r + d - L` is not below `times[0]`, `updateTransform` succeeds and leaves
`currentRuntime = r + d - L`. -/
theorem updateTransform_loop_wraps (M : MathHelpers F Q) (d : Driver F) (dt : F)
    (sg : SceneGraph F Q) (hwf : WellFormed d sg)
    (hgt : lastTime d < d.currentRuntime + dt)
    (hge : firstTime d ≤ d.currentRuntime + dt - lastTime d) :
    ∃ out, updateTransform M d dt sg true = .ok out ∧
      out.1.currentRuntime = d.currentRuntime + dt - lastTime d := by
  obtain ⟨ind, li, sg2, b, -, -, hut, -⟩ := updateTransform_ok M d dt sg true hwf
  refine ⟨_, hut, ?_⟩
  simp [advanced, wrappedRuntime, advancedRuntime, hgt, not_lt.mpr hge]

/-- The example of C3: with `times = [0, 1, 2]`, looping, runtime 1.9 and delta 0.3 the new
runtime is 0.2, not 2.2. -/
theorem updateTransform_loop_wraps_witness :
    ∃ out, updateTransform evalMath (demoDriver Channel.CH_TRANSLATE Interpolation.LINEAR
        (19 / 10) (-1)) (3 / 10) demoScene true = .ok out ∧
      out.1.currentRuntime = 1 / 5 ∧ out.1.currentRuntime ≠ 11 / 5 := by
  obtain ⟨out, h, hr⟩ := updateTransform_loop_wraps evalMath
    (demoDriver Channel.CH_TRANSLATE Interpolation.LINEAR (19 / 10) (-1)) (3 / 10) demoScene
    (demo_wellFormed _ _ _ _ (by decide))
    (by norm_num [lastTime, timeAt, demoDriver])
    (by norm_num [lastTime, firstTime, timeAt, demoDriver])
  refine ⟨out, h, ?_, ?_⟩ <;> rw [hr] <;> norm_num [lastTime, timeAt, demoDriver]

/-- C4: when the runtime after the delta has been added (and, when looping, wrapped backward) is
below the first keyframe time `times[0]`, `updateTransform` succeeds and adds the last keyframe
time `L` to it.  In particular, when the delta is added and no backward wrap takes place, the new
runtime is `r + d + L`. -/
theorem updateTransform_wraps_forward (M : MathHelpers F Q) (d : Driver F) (dt : F)
    (sg : SceneGraph F Q) (loop : Bool) (hwf : WellFormed d sg)
    (hlt : advancedRuntime d.currentRuntime dt loop (lastTime d) < firstTime d) :
    ∃ out, updateTransform M d dt sg loop = .ok out ∧
      out.1.currentRuntime = advancedRuntime d.currentRuntime dt loop (lastTime d) + lastTime d ∧
      ((loop = true ∨ d.currentRuntime ≤ lastTime d) →
        (loop = true → d.currentRuntime + dt ≤ lastTime d) →
        out.1.currentRuntime = d.currentRuntime + dt + lastTime d) := by
  obtain ⟨ind, li, sg2, b, -, -, hut, -⟩ := updateTransform_ok M d dt sg loop hwf
  have hcr : (advanced d dt loop).currentRuntime =
      advancedRuntime d.currentRuntime dt loop (lastTime d) + lastTime d := by
    simp [advanced, wrappedRuntime, hlt]
  refine ⟨_, hut, hcr, ?_⟩
  intro hadd hback
  show (advanced d dt loop).currentRuntime = _
  rw [hcr]
  unfold advancedRuntime
  simp only [if_pos hadd]
  rw [if_neg]
  rintro ⟨hl, hgt⟩
  exact absurd (hback hl) (not_le.mpr hgt)

/-- The example of C4: with `times = [0, 1, 2]`, runtime 0.05 and delta -0.2 the new runtime is
1.85. -/
theorem updateTransform_wraps_forward_witness :
    ∃ out, updateTransform evalMath (demoDriver Channel.CH_TRANSLATE Interpolation.LINEAR
        (1 / 20) (-1)) (-1 / 5) demoScene false = .ok out ∧
      out.1.currentRuntime = 37 / 20 := by
  obtain ⟨out, h, -, hr⟩ := updateTransform_wraps_forward evalMath
    (demoDriver Channel.CH_TRANSLATE Interpolation.LINEAR (1 / 20) (-1)) (-1 / 5) demoScene false
    (demo_wellFormed _ _ _ _ (by decide))
    (by norm_num [advancedRuntime, lastTime, firstTime, timeAt, demoDriver])
  refine ⟨out, h, ?_⟩
  rw [hr (Or.inr (by norm_num [lastTime, timeAt, demoDriver])) (fun h => by cases h)]
  norm_num [lastTime, timeAt, demoDriver]

/-- C5: with `loop = false`, `updateTransform` succeeds and adds the delta to `currentRuntime`
exactly when `currentRuntime` is not past the last keyframe time `L` (the forward wrap below
`times[0]` then applies to the result).  Once `currentRuntime > L` and `times[0] ≤ L`, the call
leaves `currentRuntime` unchanged whatever the delta, and leaves the keyframe times and the
well-formedness as they are, so the same holds for every further non-looping call. -/
theorem updateTransform_no_loop (M : MathHelpers F Q) (d : Driver F) (dt : F)
    (sg : SceneGraph F Q) (hwf : WellFormed d sg) :
    ∃ out, updateTransform M d dt sg false = .ok out ∧
      (d.currentRuntime ≤ lastTime d →
        out.1.currentRuntime =
          if d.currentRuntime + dt < firstTime d then d.currentRuntime + dt + lastTime d
          else d.currentRuntime + dt) ∧
      (lastTime d < d.currentRuntime →
        out.1.currentRuntime =
          if d.currentRuntime < firstTime d then d.currentRuntime + lastTime d
          else d.currentRuntime) ∧
      (lastTime d < d.currentRuntime → firstTime d ≤ lastTime d →
        out.1.currentRuntime = d.currentRuntime ∧ out.1.times = d.times ∧
          WellFormed out.1 out.2.1) := by
  obtain ⟨ind, li, sg2, b, -, -, hut, hlen, -⟩ := updateTransform_ok M d dt sg false hwf
  refine ⟨_, hut, ?_, ?_, ?_⟩
  · intro h
    simp [advanced, wrappedRuntime, advancedRuntime, h]
  · intro h
    simp [advanced, wrappedRuntime, advancedRuntime, not_le.mpr h]
  · intro h h0
    refine ⟨?_, rfl, wellFormed_congr hwf rfl rfl rfl rfl hlen⟩
    have : ¬ d.currentRuntime < firstTime d := not_lt.mpr (le_trans h0 (le_of_lt h))
    simp [advanced, wrappedRuntime, advancedRuntime, not_le.mpr h, this]

/-- A frozen driver of C5: with `times = [0, 1, 2]`, runtime 2.5 and no looping, a call with
delta 7 leaves the runtime at 2.5. -/
theorem updateTransform_no_loop_witness :
    ∃ out, updateTransform evalMath (demoDriver Channel.CH_SCALE Interpolation.STEP
        (5 / 2) 2) 7 demoScene false = .ok out ∧
      out.1.currentRuntime = 5 / 2 := by
  obtain ⟨out, h, -, -, hr⟩ := updateTransform_no_loop evalMath
    (demoDriver Channel.CH_SCALE Interpolation.STEP (5 / 2) 2) 7 demoScene
    (demo_wellFormed _ _ _ _ (by decide))
  exact ⟨out, h, (hr (by norm_num [lastTime, timeAt, demoDriver])
    (by norm_num [lastTime, firstTime, timeAt, demoDriver])).1⟩

/-- C7: on a well-formed driver `updateTransform` succeeds, and it returns true if and only if
the interpolation is LINEAR or SLERP (spherical), or it is STEP and the index `ind` located on
this call differs from `lastIndex`.  For a STEP driver a second call on the outcome of the first
succeeds as well and returns true if and only if the index `ind2` it locates differs from `ind`:
false when both ticks locate the same index, true on the tick where the located index
changes. -/
theorem updateTransform_returns (M : MathHelpers F Q) (d : Driver F) (dt : F)
    (sg : SceneGraph F Q) (loop : Bool) (hwf : WellFormed d sg) :
    ∃ d1 ind out, advanceRuntime d dt loop = .ok d1 ∧
      locateLoop d1.times d1.currentRuntime 0 = .ok ind ∧
      updateTransform M d dt sg loop = .ok out ∧
      (out.2.2 = true ↔
        (d.interpolation = Interpolation.LINEAR ∨ d.interpolation = Interpolation.SLERP ∨
          (d.interpolation = Interpolation.STEP ∧ d.lastIndex ≠ (ind : Int)))) ∧
      (d.interpolation = Interpolation.STEP → ∀ (dt2 : F) (loop2 : Bool),
        ∃ d2 ind2 out2, advanceRuntime out.1 dt2 loop2 = .ok d2 ∧
          locateLoop d2.times d2.currentRuntime 0 = .ok ind2 ∧
          updateTransform M out.1 dt2 out.2.1 loop2 = .ok out2 ∧
          (out2.2.2 = true ↔ ind2 ≠ ind)) := by
  obtain ⟨ind, li, sg2, b, -, hloc, hut, hlen, hstep, hother⟩ :=
    updateTransform_ok M d dt sg loop hwf
  refine ⟨advanced d dt loop, ind, _, advanceRuntime_eq d dt loop hwf.1, hloc, hut, ?_, ?_⟩
  · rcases interpolation_cases d.interpolation with hi | hi | hi
    · have := (hother (by rw [hi]; decide)).2
      simp [hi, this]
    · have := (hstep hi).2
      simp [hi, this]
    · have := (hother (by rw [hi]; decide)).2
      simp [hi, this]
  · intro hi dt2 loop2
    have hli := (hstep hi).1
    have hwf2 : WellFormed ({ advanced d dt loop with lastIndex := li } : Driver F) sg2 :=
      wellFormed_congr hwf rfl rfl rfl rfl hlen
    obtain ⟨ind2, li2, sg3, b2, -, hloc2, hut2, -, hstep2, -⟩ :=
      updateTransform_ok M _ dt2 sg2 loop2 hwf2
    refine ⟨_, ind2, _, advanceRuntime_eq _ dt2 loop2 hwf2.1, hloc2, hut2, ?_⟩
    have hb2 := (hstep2 hi).2
    simp only [hb2, hli]
    simp
    exact ⟨fun h e => h e.symm, fun h e => h e.symm⟩

/-- An instance of C7: a STEP driver with times `[0, 1, 2]` at runtime 0 and `lastIndex = -1`:
the first tick of 0.1 locates index 0 and returns true, a second tick of 0.1 locates index 0
again and returns false. -/
theorem updateTransform_returns_witness :
    ∃ out out2, updateTransform evalMath (demoDriver Channel.CH_TRANSLATE Interpolation.STEP
        0 (-1)) (1 / 10) demoScene false = .ok out ∧ out.2.2 = true ∧
      updateTransform evalMath out.1 (1 / 10) out.2.1 false = .ok out2 ∧ out2.2.2 = false := by
  obtain ⟨d1, ind, out, h1, h2, h3, h4, h5⟩ := updateTransform_returns evalMath
    (demoDriver Channel.CH_TRANSLATE Interpolation.STEP 0 (-1)) (1 / 10) demoScene false
    (demo_wellFormed _ _ _ _ (by decide))
  have e1 : advanceRuntime (demoDriver Channel.CH_TRANSLATE Interpolation.STEP 0 (-1)) (1 / 10)
      false = .ok (demoDriver Channel.CH_TRANSLATE Interpolation.STEP (1 / 10) (-1)) := by
    norm_num [advanceRuntime, readAt, demoDriver, pure_eq_ok, ok_bind]
  have hd1 := Except.ok.inj (h1.symm.trans e1)
  subst hd1
  have e2 : locateLoop [(0 : ℚ), 1, 2] (1 / 10) 0 = .ok 0 := by
    rw [locateLoop]
    norm_num [readAt, pure_eq_ok]
  have hind : ind = 0 := (Except.ok.inj (h2.symm.trans e2))
  subst hind
  obtain ⟨d2, ind2, out2, g1, g2, g3, g4⟩ := h5 rfl (1 / 10) false
  have e3 : updateTransform evalMath (demoDriver Channel.CH_TRANSLATE Interpolation.STEP 0 (-1))
      (1 / 10) demoScene false =
      .ok (demoDriver Channel.CH_TRANSLATE Interpolation.STEP (1 / 10) 0,
        ⟨[{ demoNode with translate := ⟨1, 2, 3⟩ }]⟩, true) := by
    rw [updateTransform_of evalMath _ _ demoScene false _ 0 e1 e2]
    norm_num [demoDriver, updateChannelStep, readVec, readAt, writeNode, demoScene, pure_eq_ok,
      ok_bind]
  have hout := Except.ok.inj (h3.symm.trans e3)
  subst hout
  have e4 : advanceRuntime (demoDriver Channel.CH_TRANSLATE Interpolation.STEP (1 / 10) 0)
      (1 / 10) false = .ok (demoDriver Channel.CH_TRANSLATE Interpolation.STEP (1 / 5) 0) := by
    norm_num [advanceRuntime, readAt, demoDriver, pure_eq_ok, ok_bind]
  have hd2 := Except.ok.inj (g1.symm.trans e4)
  subst hd2
  have e5 : locateLoop [(0 : ℚ), 1, 2] (1 / 5) 0 = .ok 0 := by
    rw [locateLoop]
    norm_num [readAt, pure_eq_ok]
  have hind2 : ind2 = 0 := (Except.ok.inj (g2.symm.trans e5))
  subst hind2
  refine ⟨_, out2, h3, rfl, g3, ?_⟩
  cases hb : out2.2.2
  · rfl
  · exact absurd rfl (g4.mp hb)

/-- The amended C2: on a driver with at least one keyframe time, the runtime statements of
`updateTransform` succeed, the search on the new runtime succeeds, and `updateTransform` is the
channel update at the located index `ind`.  That index is the first one that is the last index of
the array or has `times[ind + 1] ≥ currentRuntime`: every index `j < ind` has
`times[j + 1] < currentRuntime`; and it is the last index when no `times[j + 1]` reaches the
runtime. -/
theorem updateTransform_locates (M : MathHelpers F Q) (d : Driver F) (dt : F)
    (sg : SceneGraph F Q) (loop : Bool) (hne : 0 < d.times.length) :
    ∃ d1 ind, advanceRuntime d dt loop = .ok d1 ∧
      locateLoop d1.times d1.currentRuntime 0 = .ok ind ∧
      updateTransform M d dt sg loop =
        (match d.interpolation with
          | .LINEAR => updateChannelLinear M d1 ind sg
          | .STEP => updateChannelStep M d1 ind sg
          | .SLERP => updateChannelSlerp M d1 ind sg) ∧
      ind < d.times.length ∧
      (∀ j, j < ind → timeAt d.times (j + 1) < d1.currentRuntime) ∧
      (ind = d.times.length - 1 ∨ d1.currentRuntime ≤ timeAt d.times (ind + 1)) ∧
      ((∀ j, j + 1 < d.times.length → timeAt d.times (j + 1) < d1.currentRuntime) →
        ind = d.times.length - 1) := by
  obtain ⟨ind, hind, hloc, hut⟩ := updateTransform_eq M d dt sg loop hne
  obtain ⟨i, hi, -, -, h3, h4⟩ := locateLoop_spec d.times
    (wrappedRuntime d.currentRuntime dt loop (firstTime d) (lastTime d)) 0 hne
  have hii : i = ind := by
    rw [hi] at hloc
    exact Except.ok.inj hloc
  subst hii
  refine ⟨advanced d dt loop, i, advanceRuntime_eq d dt loop hne, hloc, hut, hind,
    fun j hj => h3 j (Nat.zero_le j) hj, h4, ?_⟩
  intro hall
  rcases h4 with h4 | h4
  · exact h4
  · by_cases hlast : i + 1 < d.times.length
    · exact absurd (hall i hlast) (not_lt.mpr h4)
    · omega

/-- An instance of the amended C2: with `times = [0, 1, 2]`, runtime 1 and delta 0.5 the index
located for the new runtime 1.5 is 1. -/
theorem updateTransform_locates_witness :
    ∃ d1 ind, advanceRuntime (demoDriver Channel.CH_TRANSLATE Interpolation.STEP 1 (-1))
        (1 / 2) false = .ok d1 ∧
      locateLoop d1.times d1.currentRuntime 0 = .ok ind ∧ ind = 1 := by
  obtain ⟨d1, ind, h1, h2, -, h4, h5, h6, -⟩ := updateTransform_locates evalMath
    (demoDriver Channel.CH_TRANSLATE Interpolation.STEP 1 (-1)) (1 / 2) demoScene false
    (by decide)
  refine ⟨d1, ind, h1, h2, ?_⟩
  have hd1 : d1.currentRuntime = 3 / 2 := by
    have h := advanceRuntime_eq (demoDriver Channel.CH_TRANSLATE Interpolation.STEP 1 (-1))
      (1 / 2) false (by decide)
    rw [h] at h1
    rw [← Except.ok.inj h1]
    norm_num [wrappedRuntime, advancedRuntime, firstTime, lastTime, timeAt, demoDriver]
  rw [hd1] at h5 h6
  have hlen : (demoDriver Channel.CH_TRANSLATE Interpolation.STEP 1 (-1)).times.length = 3 := rfl
  rw [hlen] at h4 h6
  have hne0 : ind ≠ 0 := by
    intro h0
    have := h5 0
    subst h0
    rcases h6 with h6 | h6
    · omega
    · norm_num [timeAt, demoDriver] at h6
  have hne2 : ind ≠ 2 := by
    intro h2
    have := h5 1 (by omega)
    norm_num [timeAt, demoDriver] at this
  omega

/-- The counterexample to C2 as stated: with `times = [0, 1, 2]`, runtime 1 and delta 0.5 the
new runtime is 1.5 and the located index is 1, which is neither an index with
`times[i + 1] < 1.5` (the last such index is 0) nor the last index of the array. -/
theorem located_index_counterexample :
    advanceRuntime (demoDriver Channel.CH_TRANSLATE Interpolation.STEP 1 (-1)) (1 / 2) false =
        .ok (demoDriver Channel.CH_TRANSLATE Interpolation.STEP (3 / 2) (-1)) ∧
      locateLoop [(0 : ℚ), 1, 2] (3 / 2) 0 = .ok 1 ∧
      ¬ SpecLocated [(0 : ℚ), 1, 2] (3 / 2) 1 ∧
      SpecLocated [(0 : ℚ), 1, 2] (3 / 2) 0 := by
  refine ⟨?_, ?_, ?_, ?_⟩
  · norm_num [advanceRuntime, readAt, demoDriver, pure_eq_ok, ok_bind]
  · rw [locateLoop]
    norm_num [readAt, pure_eq_ok]
    rw [locateLoop]
    norm_num [readAt, pure_eq_ok]
  · unfold SpecLocated
    norm_num [timeAt]
  · unfold SpecLocated
    left
    refine ⟨by decide, by norm_num [timeAt], ?_⟩
    intro j hj hlen
    have hj1 : j = 1 := by
      simp only [List.length_cons, List.length_nil] at hlen
      omega
    subst hj1
    norm_num [timeAt]

theorem blend_zero (v w : float_3 F) : blend v w 0 = v := by
  simp [blend, float_3.scale, float_3.add]

theorem blend_one (v w : float_3 F) : blend v w 1 = w := by
  simp [blend, float_3.scale, float_3.add]

/-- On strictly increasing keyframe times (at least two), a runtime equal to the keyframe time
`times[k]` locates an index at which the linear blend is keyframe `k` itself: index 0 with
fraction 0 when `k = 0`, index `k - 1` with fraction 1 otherwise. -/
theorem blend_at_keyframe (d : Driver F) (k ind : Nat) (hn : 2 ≤ d.times.length)
    (hinc : StrictlyIncreasing d.times) (hk : k < d.times.length)
    (hrt : d.currentRuntime = timeAt d.times k)
    (hloc : locateLoop d.times d.currentRuntime 0 = .ok ind) :
    blend (vec3At d.values ind) (vec3At d.values ((ind + 1) % d.times.length))
      (fraction d ind ((ind + 1) % d.times.length)) = vec3At d.values k := by
  obtain ⟨i, hi, -, h2, h3, h4⟩ := locateLoop_spec d.times d.currentRuntime 0 (by omega)
  have hii : i = ind := by
    rw [hi] at hloc
    exact Except.ok.inj hloc
  subst hii
  rw [hrt] at h3 h4
  have hle : i + 1 ≤ k ∨ k = 0 := by
    by_contra hcon
    push_neg at hcon
    have := h3 (k - 1) (Nat.zero_le _) (by omega)
    rw [show k - 1 + 1 = k by omega] at this
    exact lt_irrefl _ this
  have hge : k ≤ i + 1 := by
    rcases h4 with h4 | h4
    · omega
    · by_contra hcon
      push_neg at hcon
      exact absurd (hinc (i + 1) k hcon hk) (not_lt.mpr h4)
  rcases hle with hle | hk0
  · have hki : k = i + 1 := by omega
    have hmod : (i + 1) % d.times.length = i + 1 := Nat.mod_eq_of_lt (by omega)
    have hlt : timeAt d.times i < timeAt d.times (i + 1) := hinc i (i + 1) (by omega) (by omega)
    have hfr : fraction d i (i + 1) = 1 := by
      unfold fraction
      rw [hrt, hki]
      exact div_self (sub_ne_zero.mpr (ne_of_gt hlt))
    rw [hmod, hfr, blend_one, hki]
  · subst hk0
    have hi0 : i = 0 := by
      by_contra hcon
      have h01 := h3 0 (le_refl _) (by omega)
      exact absurd (hinc 0 1 (by omega) (by omega)) (not_lt.mpr (le_of_lt h01))
    subst hi0
    have hfr : fraction d 0 ((0 + 1) % d.times.length) = 0 := by
      unfold fraction
      rw [hrt, sub_self, zero_div]
    rw [hfr, blend_zero]

/-- C8: for a LINEAR driver on the TRANSLATE (resp. SCALE) channel with at least two strictly
increasing keyframe times, when the runtime that `updateTransform` arrives at equals a keyframe
time `times[k]`, the call writes exactly the raw 3-vector of keyframe `k` into the translate
(resp. scale) field of the target node. -/
theorem updateTransform_at_keyframe (M : MathHelpers F Q) (d d1 : Driver F) (dt : F)
    (sg : SceneGraph F Q) (loop : Bool) (node : GraphNode F Q) (k : Nat)
    (hn : 2 ≤ d.times.length) (hinc : StrictlyIncreasing d.times)
    (hvalues : d.times.length * 3 ≤ d.values.length)
    (hnode : sg.graphNodes[d.id]? = some node)
    (hlin : d.interpolation = Interpolation.LINEAR)
    (hk : k < d.times.length)
    (hadv : advanceRuntime d dt loop = .ok d1)
    (hrt : d1.currentRuntime = timeAt d.times k) :
    (d.channel = Channel.CH_TRANSLATE →
      updateTransform M d dt sg loop =
        .ok (d1, ⟨sg.graphNodes.set d.id { node with translate := vec3At d.values k }⟩, true)) ∧
    (d.channel = Channel.CH_SCALE →
      updateTransform M d dt sg loop =
        .ok (d1, ⟨sg.graphNodes.set d.id { node with scale := vec3At d.values k }⟩, true)) := by
  obtain ⟨ind, hind, hloc, hut⟩ := updateTransform_eq M d dt sg loop (by omega)
  have hd1 : d1 = advanced d dt loop := by
    rw [advanceRuntime_eq d dt loop (by omega)] at hadv
    exact (Except.ok.inj hadv).symm
  rw [hlin] at hut
  rw [← hd1] at hut
  have hb := blend_at_keyframe d1 k ind (by rw [hd1]; exact hn) (by rw [hd1]; exact hinc)
    (by rw [hd1]; exact hk) (by rw [hrt, hd1]; rfl) (by rw [hd1]; exact hloc)
  have ht : d1.times = d.times := by rw [hd1]; rfl
  have hv : d1.values = d.values := by rw [hd1]; rfl
  have hid : d1.id = d.id := by rw [hd1]; rfl
  constructor
  · intro hch
    rw [hut, linear_translate_eq M d1 ind sg node (by rw [ht]; exact hind)
      (by rw [ht, hv]; exact hvalues) (by rw [hid]; exact hnode) (by rw [hd1]; exact hch),
      hb, hv, hid]
  · intro hch
    rw [hut, linear_scale_eq M d1 ind sg node (by rw [ht]; exact hind)
      (by rw [ht, hv]; exact hvalues) (by rw [hid]; exact hnode) (by rw [hd1]; exact hch),
      hb, hv, hid]

theorem demo_increasing : StrictlyIncreasing [(0 : ℚ), 1, 2] := by
  intro i j hij hj
  simp only [List.length_cons, List.length_nil] at hj
  have hcases : (i = 0 ∧ j = 1) ∨ (i = 0 ∧ j = 2) ∨ (i = 1 ∧ j = 2) := by omega
  rcases hcases with ⟨rfl, rfl⟩ | ⟨rfl, rfl⟩ | ⟨rfl, rfl⟩ <;> norm_num [timeAt]

/-- An instance of C8: with `times = [0, 1, 2]`, runtime 0.5 and delta 0.5 the new runtime is
the keyframe time 1 and the translate written is keyframe 1, `(4, 5, 6)`. -/
theorem updateTransform_at_keyframe_witness :
    updateTransform evalMath (demoDriver Channel.CH_TRANSLATE Interpolation.LINEAR (1 / 2) (-1))
        (1 / 2) demoScene false =
      .ok (demoDriver Channel.CH_TRANSLATE Interpolation.LINEAR 1 (-1),
        ⟨[{ demoNode with translate := ⟨4, 5, 6⟩ }]⟩, true) := by
  have h := (updateTransform_at_keyframe evalMath
    (demoDriver Channel.CH_TRANSLATE Interpolation.LINEAR (1 / 2) (-1))
    (demoDriver Channel.CH_TRANSLATE Interpolation.LINEAR 1 (-1)) (1 / 2) demoScene false
    demoNode 1 (by decide) demo_increasing (by decide) rfl rfl (by decide)
    (by norm_num [advanceRuntime, readAt, demoDriver, pure_eq_ok, ok_bind])
    (by norm_num [timeAt, demoDriver])).1 rfl
  rw [h]
  simp [demoDriver, demoScene, vec3At]

end RuntimeClaims

/-! ## The channel updates, as claimed -/

section ChannelClaims

variable {F : Type} {Q : Type} [LinearOrderedField F]

/-- C1: for a driver on the TRANSLATE (resp. SCALE) channel, `updateChannelLinear` at a located
index `ind < count` writes `v_ind * (1 - t) + v_next * t` into the translate (resp. scale) field
of the target node, with `next = (ind + 1) mod count` and
`t = (currentRuntime - times[ind]) / (times[next] - times[ind])`; the other fields of the node,
the other nodes and the driver are unchanged and the call returns true. -/
theorem updateChannelLinear_translate_scale (M : MathHelpers F Q) (d : Driver F) (ind : Nat)
    (sg : SceneGraph F Q) (node : GraphNode F Q)
    (hind : ind < d.times.length)
    (hvalues : d.times.length * 3 ≤ d.values.length)
    (hnode : sg.graphNodes[d.id]? = some node) :
    (d.channel = Channel.CH_TRANSLATE →
      updateChannelLinear M d ind sg =
        .ok (d, ⟨sg.graphNodes.set d.id { node with
          translate := blend (vec3At d.values ind) (vec3At d.values ((ind + 1) % d.times.length))
            (fraction d ind ((ind + 1) % d.times.length)) }⟩, true)) ∧
    (d.channel = Channel.CH_SCALE →
      updateChannelLinear M d ind sg =
        .ok (d, ⟨sg.graphNodes.set d.id { node with
          scale := blend (vec3At d.values ind) (vec3At d.values ((ind + 1) % d.times.length))
            (fraction d ind ((ind + 1) % d.times.length)) }⟩, true)) :=
  ⟨linear_translate_eq M d ind sg node hind hvalues hnode,
    linear_scale_eq M d ind sg node hind hvalues hnode⟩

/-- An instance of C1: at index 1 and runtime 1.25 of the times `[0, 1, 2]` the fraction is 0.25
and the scale written is `0.75 * (4, 5, 6) + 0.25 * (7, 8, 10)`; the translate and the rotation
of the node stay. -/
theorem updateChannelLinear_translate_scale_witness :
    updateChannelLinear evalMath (demoDriver Channel.CH_SCALE Interpolation.LINEAR (5 / 4) (-1))
        1 demoScene =
      .ok (demoDriver Channel.CH_SCALE Interpolation.LINEAR (5 / 4) (-1),
        ⟨[{ demoNode with scale := ⟨19 / 4, 23 / 4, 7⟩ }]⟩, true) := by
  have h := (updateChannelLinear_translate_scale evalMath
    (demoDriver Channel.CH_SCALE Interpolation.LINEAR (5 / 4) (-1)) 1 demoScene demoNode
    (by decide) (by decide) rfl).2 rfl
  rw [h]
  norm_num [demoDriver, demoScene, vec3At, blend, fraction, timeAt, float_3.scale, float_3.add]

/-- C6: `updateChannelStep` at located index `ind`.  If `ind` equals `lastIndex` nothing changes
and the call returns false.  Otherwise `lastIndex` becomes `ind`, exactly the node field of the
driver's channel is overwritten with the raw value of keyframe `ind` (the 3-vector
`values[3 ind .. 3 ind + 2]`, or for ROTATE the quaternion set from angle `values[4 ind + 3]` and
axis `values[4 ind .. 4 ind + 2]`), the two other fields of the node are kept, and the call
returns true. -/
theorem updateChannelStep_spec (M : MathHelpers F Q) (d : Driver F) (ind : Nat)
    (sg : SceneGraph F Q) :
    (d.lastIndex = (ind : Int) → updateChannelStep M d ind sg = .ok (d, sg, false)) ∧
    (d.lastIndex ≠ (ind : Int) → ∀ node : GraphNode F Q, sg.graphNodes[d.id]? = some node →
      (d.channel = Channel.CH_TRANSLATE → ind * 3 + 2 < d.values.length →
        updateChannelStep M d ind sg =
          .ok ({ d with lastIndex := (ind : Int) },
            ⟨sg.graphNodes.set d.id { node with translate := vec3At d.values ind }⟩, true)) ∧
      (d.channel = Channel.CH_ROTATE → ind * 4 + 3 < d.values.length →
        updateChannelStep M d ind sg =
          .ok ({ d with lastIndex := (ind : Int) },
            ⟨sg.graphNodes.set d.id { node with
              rotation := quatOf M (axisAt d.values ind) (angleAt d.values ind) }⟩, true)) ∧
      (d.channel = Channel.CH_SCALE → ind * 3 + 2 < d.values.length →
        updateChannelStep M d ind sg =
          .ok ({ d with lastIndex := (ind : Int) },
            ⟨sg.graphNodes.set d.id { node with scale := vec3At d.values ind }⟩, true))) :=
  ⟨step_same M d ind sg, fun h node hnode =>
    ⟨step_translate_eq M d ind sg node h hnode, step_rotate_eq M d ind sg node h hnode,
      step_scale_eq M d ind sg node h hnode⟩⟩

/-- An instance of C6: a rotate driver with `lastIndex = 0` stepped to index 2 gets
`lastIndex = 2` and the node the rotation of keyframe 2, axis `(0, 1, 0)` and angle 1; stepped to
index 0 it changes nothing and returns false. -/
theorem updateChannelStep_spec_witness :
    updateChannelStep evalMath (demoRotate Interpolation.STEP (9 / 4) 0) 2 demoScene =
        .ok (demoRotate Interpolation.STEP (9 / 4) 2,
          ⟨[{ demoNode with rotation := ⟨1, ⟨0, 1, 0⟩⟩ }]⟩, true) ∧
      updateChannelStep evalMath (demoRotate Interpolation.STEP (9 / 4) 0) 0 demoScene =
        .ok (demoRotate Interpolation.STEP (9 / 4) 0, demoScene, false) := by
  have h := updateChannelStep_spec evalMath (demoRotate Interpolation.STEP (9 / 4) 0) 2 demoScene
  have h0 := updateChannelStep_spec evalMath (demoRotate Interpolation.STEP (9 / 4) 0) 0 demoScene
  refine ⟨?_, h0.1 rfl⟩
  rw [(h.2 (by decide) demoNode rfl).2.1 rfl (by decide)]
  simp [demoRotate, demoScene, quatOf, axisAt, angleAt, evalMath]

/-- C10: on the TRANSLATE and SCALE channels `updateChannelSlerp` produces the same outcome (node
state, driver state and returned value, or the same fault) as `updateChannelLinear` on the same
inputs. -/
theorem updateChannelSlerp_eq_linear (M : MathHelpers F Q) (d : Driver F) (ind : Nat)
    (sg : SceneGraph F Q)
    (hch : d.channel = Channel.CH_TRANSLATE ∨ d.channel = Channel.CH_SCALE) :
    updateChannelSlerp M d ind sg = updateChannelLinear M d ind sg :=
  slerp_eq_linear_of_channel M d ind sg hch

/-- An instance of C10: a spherical driver on the TRANSLATE channel. -/
theorem updateChannelSlerp_eq_linear_witness :
    updateChannelSlerp evalMath (demoDriver Channel.CH_TRANSLATE Interpolation.SLERP (1 / 2) 0)
        0 demoScene =
      updateChannelLinear evalMath (demoDriver Channel.CH_TRANSLATE Interpolation.SLERP (1 / 2) 0)
        0 demoScene :=
  updateChannelSlerp_eq_linear evalMath _ 0 demoScene (Or.inl rfl)

/-- C9: for a driver on the ROTATE channel, `updateChannelLinear` writes the sum
`Q(axis_i, angle_i) * (1 - t) + Q(axis_next, angle_next) * t` of the two scaled keyframe
quaternions, with nothing applied to the sum (no renormalisation).  For `times = [0, 1]`,
`values = [0, 0, 1, 0, 0, 0, 1, p]` (`p` any angle, such as pi), runtime 0 and delta 0.5 the
located index is 0, the fraction is 0.5 and `updateTransform` writes
`Q((0, 0, 1), 0) * 0.5 + Q((0, 0, 1), p) * 0.5`. -/
theorem updateChannelLinear_rotate (M : MathHelpers F Q) :
    (∀ (d : Driver F) (ind : Nat) (sg : SceneGraph F Q) (node : GraphNode F Q),
      ind < d.times.length → d.times.length * 4 ≤ d.values.length →
      sg.graphNodes[d.id]? = some node → d.channel = Channel.CH_ROTATE →
      updateChannelLinear M d ind sg =
        .ok (d, ⟨sg.graphNodes.set d.id { node with
          rotation := M.qadd
            (M.qscale (quatOf M (axisAt d.values ind) (angleAt d.values ind))
              (1 - fraction d ind ((ind + 1) % d.times.length)))
            (M.qscale (quatOf M (axisAt d.values ((ind + 1) % d.times.length))
                (angleAt d.values ((ind + 1) % d.times.length)))
              (fraction d ind ((ind + 1) % d.times.length))) }⟩, true)) ∧
    (∀ (id : Nat) (li : Int) (p : F) (sg : SceneGraph F Q) (node : GraphNode F Q) (loop : Bool),
      sg.graphNodes[id]? = some node →
      locateLoop [(0 : F), 1] (1 / 2) 0 = .ok 0 ∧
      fraction (⟨id, Channel.CH_ROTATE, Interpolation.LINEAR, [0, 1],
        [0, 0, 1, 0, 0, 0, 1, p], 1 / 2, li⟩ : Driver F) 0 1 = 1 / 2 ∧
      updateTransform M ⟨id, Channel.CH_ROTATE, Interpolation.LINEAR, [0, 1],
          [0, 0, 1, 0, 0, 0, 1, p], 0, li⟩ (1 / 2) sg loop =
        .ok (⟨id, Channel.CH_ROTATE, Interpolation.LINEAR, [0, 1],
            [0, 0, 1, 0, 0, 0, 1, p], 1 / 2, li⟩,
          ⟨sg.graphNodes.set id { node with
            rotation := M.qadd (M.qscale (quatOf M ⟨0, 0, 1⟩ 0) (1 / 2))
              (M.qscale (quatOf M ⟨0, 0, 1⟩ p) (1 / 2)) }⟩, true)) := by
  refine ⟨fun d ind sg node hind hvalues hnode hch =>
    linear_rotate_eq M d ind sg node hind hvalues hnode hch, ?_⟩
  intro id li p sg node loop hnode
  have hloc : locateLoop [(0 : F), 1] (1 / 2) 0 = .ok 0 := by
    rw [locateLoop]
    norm_num [readAt, pure_eq_ok]
  refine ⟨hloc, by norm_num [fraction, timeAt], ?_⟩
  cases loop <;>
    norm_num [updateTransform, advanceRuntime, readAt, pure_eq_ok, ok_bind, hloc,
      updateChannelLinear, nextIndex, readVec, writeNode, hnode, quatOf]

/-- An instance of C9: the rotate driver with times `[0, 1, 2]` at index 0 and runtime 0.5
blends the keyframes `((0, 0, 1), 0)` and `((0, 0, 1), 3)` with the weights 0.5 and 0.5; on the
evaluation quaternions the sum is angle 1.5 about `(0, 0, 1)`. -/
theorem updateChannelLinear_rotate_witness :
    updateChannelLinear evalMath (demoRotate Interpolation.LINEAR (1 / 2) (-1)) 0 demoScene =
      .ok (demoRotate Interpolation.LINEAR (1 / 2) (-1),
        ⟨[{ demoNode with rotation := ⟨3 / 2, ⟨0, 0, 1⟩⟩ }]⟩, true) := by
  have h := (updateChannelLinear_rotate evalMath).1
    (demoRotate Interpolation.LINEAR (1 / 2) (-1)) 0 demoScene demoNode
    (by decide) (by decide) rfl rfl
  rw [h]
  norm_num [demoRotate, demoScene, quatOf, axisAt, angleAt, fraction, timeAt, evalMath,
    float_3.scale, float_3.add]

end ChannelClaims

/-! ## Spherical interpolation on the ROTATE channel -/

section SphericalClaims

variable {F : Type} {Q : Type} [LinearOrderedField F]

/-- The ROTATE case of `updateChannelSlerp` on in-range inputs: the rotation written is the sum
of the re-set `rotateInd` and the rebuilt `rotateNext`, scaled by `sin((1-t) omega) / sin(omega)`
and `sin(t omega) / sin(omega)`, with `omega` computed from the pre-interpolated quaternions. -/
theorem slerp_rotate_eq (M : MathHelpers F Q) (d : Driver F) (ind : Nat)
    (sg : SceneGraph F Q) (node : GraphNode F Q)
    (hind : ind < d.times.length)
    (hvalues : d.times.length * 4 ≤ d.values.length)
    (hnode : sg.graphNodes[d.id]? = some node)
    (hch : d.channel = Channel.CH_ROTATE) :
    updateChannelSlerp M d ind sg =
      .ok (d, ⟨sg.graphNodes.set d.id { node with
        rotation := M.qadd
          (M.qscale (reusedRotateInd M d ind ((ind + 1) % d.times.length))
            (M.sin ((1 - fraction d ind ((ind + 1) % d.times.length)) *
                slerpOmega M d ind ((ind + 1) % d.times.length)) /
              M.sin (slerpOmega M d ind ((ind + 1) % d.times.length))))
          (M.qscale (quatOf M (axisAt d.values ((ind + 1) % d.times.length))
              (angleAt d.values ((ind + 1) % d.times.length)))
            (M.sin (fraction d ind ((ind + 1) % d.times.length) *
                slerpOmega M d ind ((ind + 1) % d.times.length)) /
              M.sin (slerpOmega M d ind ((ind + 1) % d.times.length)))) }⟩, true) := by
  have hnext := nextIndex_lt d.times ind hind
  have hmod := nextIndex_eq_mod d.times ind hind
  rw [hmod] at hnext
  have r1 := readAt_of_lt Fault.times d.times ind hind
  have r2 := readAt_of_lt Fault.times d.times _ hnext
  have a1 := readAt_of_lt Fault.values d.values (ind * 4 + 3) (by omega)
  have a2 := readAt_of_lt Fault.values d.values ((ind + 1) % d.times.length * 4 + 3) (by omega)
  have v1 := readVec_of_lt d.values (ind * 4) (by omega)
  have v2 := readVec_of_lt d.values ((ind + 1) % d.times.length * 4) (by omega)
  simp only [updateChannelSlerp, hmod, r1, r2, a1, a2, v1, v2, hch, ok_bind, pure_eq_ok,
    writeNode_of_some sg d.id _ node hnode, fraction, quatOf, axisAt, angleAt, timeAt,
    reusedRotateInd, slerpOmega, preInterpolated]

/-- The ROTATE case of `updateChannelSlerp` when `setAngle` then `setAxis` overwrites the
quaternion: the rotation written is the blend of the un-scaled keyframe quaternions with the
`omega` of the pre-interpolated ones. -/
theorem slerp_rotate_blend (M : MathHelpers F Q) (d : Driver F) (ind : Nat)
    (sg : SceneGraph F Q) (node : GraphNode F Q)
    (hset : SetOverwrites M)
    (hind : ind < d.times.length)
    (hvalues : d.times.length * 4 ≤ d.values.length)
    (hnode : sg.graphNodes[d.id]? = some node)
    (hch : d.channel = Channel.CH_ROTATE) :
    updateChannelSlerp M d ind sg =
      .ok (d, ⟨sg.graphNodes.set d.id { node with
        rotation := slerpBlend M d ind ((ind + 1) % d.times.length)
          (slerpOmega M d ind ((ind + 1) % d.times.length)) }⟩, true) := by
  rw [slerp_rotate_eq M d ind sg node hind hvalues hnode hch]
  unfold slerpBlend reusedRotateInd
  rw [hset]

/-- The amended C11: for a driver on the ROTATE channel, `updateChannelSlerp` writes
`Q_i * (sin((1-t) omega) / sin(omega)) + Q_next * (sin(t omega) / sin(omega))`, where `Q_i` and
`Q_next` are built from the un-scaled keyframes at `ind` and `next` (`setAngle` then `setAxis`
taken to overwrite the quaternion) and `omega` is the `acos` of the dot product of the normalised
pre-interpolated quaternions, built from angle and axis of keyframe `ind` times `1 - t` and of
keyframe `next` times `t`. -/
theorem updateChannelSlerp_rotate (M : MathHelpers F Q) (d : Driver F) (ind : Nat)
    (sg : SceneGraph F Q) (node : GraphNode F Q)
    (hset : SetOverwrites M)
    (hind : ind < d.times.length)
    (hvalues : d.times.length * 4 ≤ d.values.length)
    (hnode : sg.graphNodes[d.id]? = some node)
    (hch : d.channel = Channel.CH_ROTATE) :
    updateChannelSlerp M d ind sg =
      .ok (d, ⟨sg.graphNodes.set d.id { node with
        rotation := slerpBlend M d ind ((ind + 1) % d.times.length)
          (slerpOmega M d ind ((ind + 1) % d.times.length)) }⟩, true) :=
  slerp_rotate_blend M d ind sg node hset hind hvalues hnode hch

theorem probeMath_overwrites : SetOverwrites probeMath := by
  intro q a v
  rfl

theorem evalMath_overwrites : SetOverwrites evalMath := by
  intro q a v
  rfl

theorem sqrt_nine_fourths : Rat.sqrt (9 / 4) = 3 / 2 := by
  rw [show (9 / 4 : ℚ) = 3 / 2 * (3 / 2) by norm_num, Rat.sqrt_eq]
  norm_num

theorem sqrt_one_fourth : Rat.sqrt (1 / 4) = 1 / 2 := by
  rw [show (1 / 4 : ℚ) = 1 / 2 * (1 / 2) by norm_num, Rat.sqrt_eq]
  norm_num

theorem sqrt_one : Rat.sqrt 1 = 1 := by
  rw [show (1 : ℚ) = 1 * 1 by norm_num, Rat.sqrt_eq]
  norm_num

/-- An instance of the amended C11: the driver `demoUnit` at index 0 and runtime 0.5 has
`t = 0.5`; the pre-interpolated quaternions are half the keyframe quaternions, their normalised
dot product is `4/5`, `omega` is `acos(4/5)` (`7/10` on the stand-in) and the rotation written
is the blend of the two keyframe quaternions with that `omega`. -/
theorem updateChannelSlerp_rotate_witness :
    updateChannelSlerp probeMath (demoUnit (1 / 2)) 0 demoScene =
      .ok (demoUnit (1 / 2),
        ⟨[{ demoNode with rotation := ⟨7053 / 22040, ⟨0, 0, 21159 / 22040⟩⟩ }]⟩, true) := by
  have h := updateChannelSlerp_rotate probeMath (demoUnit (1 / 2)) 0
    demoScene demoNode probeMath_overwrites (by decide) (by decide) rfl rfl
  rw [h]
  norm_num [demoUnit, demoScene, slerpBlend, slerpOmega, preInterpolated, quatOf, axisAt,
    angleAt, fraction, timeAt, probeMath, float_3.scale, float_3.add, sqrt_one_fourth]

/-- The counterexample to C11 as stated.  The driver `demoUnit` at runtime 1, advanced by 0.5
without looping, has runtime 1.5 beyond its last keyframe; `updateTransform` locates index 1
with successor 0 and `t = -1/2`.  The pre-interpolated quaternions are `3/2 Q_1` and
`-1/2 Q_0`, so the dot product of their normalisations is `-4/5`, the negative of the dot
product `4/5` of the normalised un-scaled quaternions.  The `omega` of the code is `acos(-4/5)`
and that of the claim is `acos(4/5)` (`23/10` and `7/10` on the stand-in), and the rotation that
`updateTransform` writes is not the claimed blend. -/
theorem slerp_omega_counterexample :
    fraction (demoUnit (3 / 2)) 1 0 = -1 / 2 ∧
      probeMath.dot
        (probeMath.normalize (preInterpolated probeMath (demoUnit (3 / 2)).values 1 (3 / 2)))
        (probeMath.normalize (preInterpolated probeMath (demoUnit (3 / 2)).values 0 (-1 / 2)))
        = -4 / 5 ∧
      probeMath.dot
        (probeMath.normalize (quatOf probeMath (axisAt (demoUnit (3 / 2)).values 1)
          (angleAt (demoUnit (3 / 2)).values 1)))
        (probeMath.normalize (quatOf probeMath (axisAt (demoUnit (3 / 2)).values 0)
          (angleAt (demoUnit (3 / 2)).values 0))) = 4 / 5 ∧
      slerpOmega probeMath (demoUnit (3 / 2)) 1 0 = 23 / 10 ∧
      specOmega probeMath (demoUnit (3 / 2)) 1 0 = 7 / 10 ∧
      slerpBlend probeMath (demoUnit (3 / 2)) 1 0 (specOmega probeMath (demoUnit (3 / 2)) 1 0) =
        ⟨17631 / 22040, ⟨0, 0, 11753 / 22040⟩⟩ ∧
      updateTransform probeMath (demoUnit 1) (1 / 2) demoScene false =
        .ok (demoUnit (3 / 2),
          ⟨[{ demoNode with rotation := ⟨-21249 / 2840, ⟨0, 0, -37687 / 2840⟩⟩ }]⟩, true) ∧
      (⟨-21249 / 2840, ⟨0, 0, -37687 / 2840⟩⟩ : AxisAngle) ≠
        ⟨17631 / 22040, ⟨0, 0, 11753 / 22040⟩⟩ := by
  refine ⟨?_, ?_, ?_, ?_, ?_, ?_, ?_, ?_⟩
  · norm_num [fraction, demoUnit, timeAt]
  · norm_num [preInterpolated, demoUnit, quatOf, axisAt, angleAt, probeMath, float_3.scale,
      sqrt_nine_fourths, sqrt_one_fourth]
  · norm_num [demoUnit, quatOf, axisAt, angleAt, probeMath, float_3.scale, sqrt_one]
  · norm_num [slerpOmega, preInterpolated, demoUnit, quatOf, axisAt, angleAt, probeMath,
      fraction, timeAt, float_3.scale, sqrt_nine_fourths, sqrt_one_fourth]
  · norm_num [specOmega, demoUnit, quatOf, axisAt, angleAt, probeMath, float_3.scale,
      sqrt_one]
  · norm_num [slerpBlend, specOmega, demoUnit, quatOf, axisAt, angleAt, probeMath,
      fraction, timeAt, float_3.scale, float_3.add, sqrt_one]
  · have h1 : advanceRuntime (demoUnit 1) (1 / 2) false = .ok (demoUnit (3 / 2)) := by
      rw [advanceRuntime_eq _ _ _ (by simp [demoUnit])]
      norm_num [wrappedRuntime, advancedRuntime, demoUnit, firstTime, lastTime, timeAt]
    have h2 : locateLoop (demoUnit (3 / 2)).times (demoUnit (3 / 2)).currentRuntime 0
        = .ok 1 := by
      rw [locateLoop]
      norm_num [demoUnit, readAt, pure_eq_ok]
      rw [locateLoop]
      norm_num [readAt, pure_eq_ok]
    rw [updateTransform_of probeMath _ _ _ _ _ 1 h1 h2]
    show updateChannelSlerp probeMath (demoUnit (3 / 2)) 1 demoScene = _
    rw [slerp_rotate_blend probeMath (demoUnit (3 / 2)) 1 demoScene demoNode
      probeMath_overwrites (by decide) (by decide) rfl rfl]
    norm_num [demoUnit, demoScene, slerpBlend, slerpOmega, preInterpolated, quatOf,
      axisAt, angleAt, fraction, timeAt, probeMath, float_3.scale, float_3.add,
      sqrt_nine_fourths, sqrt_one_fourth]
  · intro h
    have := congrArg AxisAngle.angle h
    norm_num at this

end SphericalClaims

/-! ## Spherical interpolation between coincident keyframes -/

section CoincidentClaims

variable {F : Type} {Q : Type} [LinearOrderedField F]

/-- The code at the failing input of C12: for a driver on the ROTATE channel whose keyframes `ind`
and `next` hold the same axis and angle, at the fraction `t = 1/2` the two pre-interpolated
quaternions coincide; when a quaternion is at angle 0 from itself (`acos(dot(n, n)) = 0`) and
`sin 0 = 0`, `omega` is 0 and `sin(omega)` is 0, and `updateChannelSlerp` applies no guard: the
two coefficients it scales the keyframe rotation by are quotients with the divisor 0. -/
theorem updateChannelSlerp_coincident (M : MathHelpers F Q) (d : Driver F) (ind : Nat)
    (sg : SceneGraph F Q) (node : GraphNode F Q)
    (hset : SetOverwrites M)
    (hself : ∀ q : Q, M.acos (M.dot (M.normalize q) (M.normalize q)) = 0)
    (hsin : M.sin 0 = 0)
    (hind : ind < d.times.length)
    (hvalues : d.times.length * 4 ≤ d.values.length)
    (hnode : sg.graphNodes[d.id]? = some node)
    (hch : d.channel = Channel.CH_ROTATE)
    (haxis : axisAt d.values ((ind + 1) % d.times.length) = axisAt d.values ind)
    (hangle : angleAt d.values ((ind + 1) % d.times.length) = angleAt d.values ind)
    (hhalf : fraction d ind ((ind + 1) % d.times.length) = 1 / 2) :
    slerpOmega M d ind ((ind + 1) % d.times.length) = 0 ∧
      M.sin (slerpOmega M d ind ((ind + 1) % d.times.length)) = 0 ∧
      updateChannelSlerp M d ind sg =
        .ok (d, ⟨sg.graphNodes.set d.id { node with
          rotation := M.qadd
            (M.qscale (quatOf M (axisAt d.values ind) (angleAt d.values ind))
              (M.sin ((1 - 1 / 2) * 0) / 0))
            (M.qscale (quatOf M (axisAt d.values ind) (angleAt d.values ind))
              (M.sin (1 / 2 * 0) / 0)) }⟩, true) := by
  have homega : slerpOmega M d ind ((ind + 1) % d.times.length) = 0 := by
    unfold slerpOmega preInterpolated
    rw [hhalf, haxis, hangle]
    have h12 : (1 : F) - 1 / 2 = 1 / 2 := by norm_num
    rw [h12]
    exact hself _
  refine ⟨homega, by rw [homega, hsin], ?_⟩
  rw [slerp_rotate_blend M d ind sg node hset hind hvalues hnode hch]
  unfold slerpBlend
  rw [homega, hsin, hhalf, haxis, hangle]

/-- An instance of the failing input of C12: two keyframes `((0, 0, 1), 0)` at the times 0 and 1,
runtime 0.5.  The divisor is 0; in exact arithmetic, where a quotient by 0 is 0, the rotation
written is the zero quaternion and not the keyframe rotation `(0, (0, 0, 1))`. -/
theorem updateChannelSlerp_coincident_witness :
    evalMath.sin (slerpOmega evalMath (demoCoincident (1 / 2)) 0 1) = 0 ∧
      updateChannelSlerp evalMath (demoCoincident (1 / 2)) 0 demoScene =
        .ok (demoCoincident (1 / 2),
          ⟨[{ demoNode with rotation := ⟨0, ⟨0, 0, 0⟩⟩ }]⟩, true) ∧
      quatOf evalMath (axisAt (demoCoincident (1 / 2)).values 0)
        (angleAt (demoCoincident (1 / 2)).values 0) = ⟨0, ⟨0, 0, 1⟩⟩ := by
  have h := updateChannelSlerp_coincident evalMath (demoCoincident (1 / 2)) 0 demoScene demoNode
    evalMath_overwrites (fun _ => rfl) rfl (by decide) (by decide) rfl rfl
    (by simp [demoCoincident, axisAt]) (by simp [demoCoincident, angleAt])
    (by norm_num [fraction, timeAt, demoCoincident])
  refine ⟨h.2.1, ?_, ?_⟩
  · rw [h.2.2]
    norm_num [demoCoincident, demoScene, quatOf, axisAt, angleAt, evalMath, float_3.scale,
      float_3.add]
  · simp [demoCoincident, quatOf, axisAt, angleAt, evalMath]

end CoincidentClaims

/-! ## The driver pass -/

section DriverPass

variable {F Q Mat : Type} [LinearOrderedField F]

/-- On drivers that are well-formed for the scene graph, the node driver loop succeeds: it calls
`updateTransform` once per driver with the given frame time, keeps the number of nodes and of
drivers, keeps every driver well-formed, and ends with `renavigate` true exactly when it started
true or a call returned true. -/
theorem runNodeDrivers_ok (M : MathHelpers F Q) (ft : F) (loop : Bool) :
    ∀ (ds : List (Driver F)) (ind : Nat) (sg : SceneGraph F Q) (rn0 : Bool),
      (∀ d ∈ ds, WellFormed d sg) →
      ∃ ds2 sg2 rn calls, runNodeDrivers M ft loop ind ds sg rn0 = .ok (ds2, sg2, rn, calls) ∧
        sg2.graphNodes.length = sg.graphNodes.length ∧
        calls.length = ds.length ∧
        (∀ d ∈ ds2, WellFormed d sg2) ∧
        (rn = true ↔ (rn0 = true ∨ ∃ c ∈ calls, c.result = true)) ∧
        (∀ c ∈ calls, c.frameTime = ft ∧ c.camera = false) := by
  intro ds
  induction ds with
  | nil =>
    intro ind sg rn0 _
    exact ⟨[], sg, rn0, [], rfl, rfl, rfl, by simp, by simp, by simp⟩
  | cons d rest ih =>
    intro ind sg rn0 hwf
    have hd : WellFormed d sg := hwf d (List.mem_cons_self _ _)
    obtain ⟨i, li, sg1, b, -, -, hut, hlen, -⟩ := updateTransform_ok M d ft sg loop hd
    have hrest : ∀ e ∈ rest, WellFormed e sg1 := fun e he =>
      wellFormed_congr (hwf e (List.mem_cons_of_mem _ he)) rfl rfl rfl rfl hlen
    obtain ⟨ds2, sg2, rn, calls, hrun, hlen2, hcalls, hwf2, hrn, hft⟩ :=
      ih (ind + 1) sg1 (b || rn0) hrest
    have hd1 : WellFormed ({ advanced d ft loop with lastIndex := li } : Driver F) sg2 :=
      wellFormed_congr hd rfl rfl rfl rfl (hlen2.trans hlen)
    generalize ({ advanced d ft loop with lastIndex := li } : Driver F) = d1 at hut hd1
    refine ⟨d1 :: ds2, sg2, rn, ⟨false, ind, ft, b⟩ :: calls, ?_, hlen2.trans hlen, ?_, ?_, ?_,
      ?_⟩
    · simp only [runNodeDrivers, hut, ok_bind, hrun, pure_eq_ok]
    · simp [hcalls]
    · intro e he
      rcases List.mem_cons.mp he with rfl | he
      · exact hd1
      · exact hwf2 e he
    · rw [hrn]
      simp only [Bool.or_eq_true, List.mem_cons, exists_eq_or_imp]
      tauto
    · intro c hc
      rcases List.mem_cons.mp hc with rfl | hc
      · exact ⟨rfl, rfl⟩
      · exact hft c hc

/-- Once `renavigate` is true the camera driver loop makes no call: it leaves the camera drivers
and the scene graph as they are. -/
theorem runCameraDrivers_skip (M : MathHelpers F Q) (ft : F) (loop : Bool) :
    ∀ (ds : List (Driver F)) (ind : Nat) (sg : SceneGraph F Q),
      runCameraDrivers M ft loop ind ds sg true = .ok (ds, sg, true, []) := by
  intro ds
  induction ds with
  | nil =>
    intro ind sg
    rfl
  | cons d rest ih =>
    intro ind sg
    simp only [runCameraDrivers, if_true, ih, ok_bind, pure_eq_ok]

/-- On drivers that are well-formed for the scene graph, the camera driver loop succeeds: every
call it makes passes the given frame time, and it ends with `renavigate` true exactly when it
started true or a call returned true. -/
theorem runCameraDrivers_ok (M : MathHelpers F Q) (ft : F) (loop : Bool) :
    ∀ (ds : List (Driver F)) (ind : Nat) (sg : SceneGraph F Q) (rn0 : Bool),
      (∀ d ∈ ds, WellFormed d sg) →
      ∃ ds2 sg2 rn calls, runCameraDrivers M ft loop ind ds sg rn0 = .ok (ds2, sg2, rn, calls) ∧
        sg2.graphNodes.length = sg.graphNodes.length ∧
        (rn = true ↔ (rn0 = true ∨ ∃ c ∈ calls, c.result = true)) ∧
        (∀ c ∈ calls, c.frameTime = ft ∧ c.camera = true) := by
  intro ds
  induction ds with
  | nil =>
    intro ind sg rn0 _
    exact ⟨[], sg, rn0, [], rfl, rfl, by simp, by simp⟩
  | cons d rest ih =>
    intro ind sg rn0 hwf
    cases rn0 with
    | true =>
      exact ⟨d :: rest, sg, true, [], runCameraDrivers_skip M ft loop _ ind sg, rfl, by simp,
        by simp⟩
    | false =>
      have hd : WellFormed d sg := hwf d (List.mem_cons_self _ _)
      obtain ⟨i, li, sg1, b, -, -, hut, hlen, -⟩ := updateTransform_ok M d ft sg loop hd
      have hrest : ∀ e ∈ rest, WellFormed e sg1 := fun e he =>
        wellFormed_congr (hwf e (List.mem_cons_of_mem _ he)) rfl rfl rfl rfl hlen
      obtain ⟨ds2, sg2, rn, calls, hrun, hlen2, hrn, hft⟩ :=
        ih (ind + 1) sg1 (b || false) hrest
      generalize ({ advanced d ft loop with lastIndex := li } : Driver F) = d1 at hut
      refine ⟨d1 :: ds2, sg2, rn, ⟨true, ind, ft, b⟩ :: calls, ?_, hlen2.trans hlen, ?_, ?_⟩
      · simp only [runCameraDrivers, hut, ok_bind, hrun, pure_eq_ok]
        simp
      · rw [hrn]
        simp only [Bool.or_eq_true, List.mem_cons, exists_eq_or_imp]
        tauto
      · intro c hc
        rcases List.mem_cons.mp hc with rfl | hc
        · exact ⟨rfl, rfl⟩
        · exact hft c hc

/-- On drivers that are well-formed for the scene graph, the two driver loops succeed; every call
passes the given frame time, there is one call per node driver followed by the calls on camera
drivers, and `renavigate` ends true exactly when a call returned true. -/
theorem evalDrivers_ok (M : MathHelpers F Q) (ft : F) (loop : Bool) (s : State F Mat)
    (sg : SceneGraph F Q)
    (hnode : ∀ d ∈ s.nodeDrivers, WellFormed d sg)
    (hcam : ∀ d ∈ s.cameraDrivers, WellFormed d sg) :
    ∃ nd cd sg2 rn calls, evalDrivers M ft loop s sg = .ok (nd, cd, sg2, rn, calls) ∧
      (rn = true ↔ ∃ c ∈ calls, c.result = true) ∧
      (∀ c ∈ calls, c.frameTime = ft) ∧
      s.nodeDrivers.length ≤ calls.length := by
  obtain ⟨nd, sg1, rn1, calls1, h1, hlen1, hc1, -, hrn1, hft1⟩ :=
    runNodeDrivers_ok M ft loop s.nodeDrivers 0 sg false hnode
  have hcam1 : ∀ d ∈ s.cameraDrivers, WellFormed d sg1 := fun d hd =>
    wellFormed_congr (hcam d hd) rfl rfl rfl rfl hlen1
  obtain ⟨cd, sg2, rn2, calls2, h2, -, hrn2, hft2⟩ :=
    runCameraDrivers_ok M ft loop s.cameraDrivers 0 sg1 rn1 hcam1
  refine ⟨nd, cd, sg2, rn2, calls1 ++ calls2, ?_, ?_, ?_, ?_⟩
  · simp only [evalDrivers, h1, ok_bind, h2, pure_eq_ok]
  · rw [hrn2, hrn1]
    simp only [List.mem_append, Bool.false_eq_true, false_or]
    constructor
    · rintro (⟨c, hc, h⟩ | ⟨c, hc, h⟩)
      · exact ⟨c, Or.inl hc, h⟩
      · exact ⟨c, Or.inr hc, h⟩
    · rintro ⟨c, hc | hc, h⟩
      · exact Or.inl ⟨c, hc, h⟩
      · exact Or.inr ⟨c, hc, h⟩
  · intro c hc
    rcases List.mem_append.mp hc with hc | hc
    · exact (hft1 c hc).1
    · exact (hft2 c hc).1
  · simp [hc1]

end DriverPass

/-! ## The driver pass, as claimed -/

section DriverPassClaims

variable {F Q Mat : Type} [LinearOrderedField F]

/-- The node driver loop ends with `renavigate` true when it started true or one of its
well-formed drivers is not a STEP driver (a LINEAR or spherical driver always returns true). -/
theorem runNodeDrivers_renavigate (M : MathHelpers F Q) (ft : F) (loop : Bool) :
    ∀ (ds : List (Driver F)) (ind : Nat) (sg : SceneGraph F Q) (rn0 : Bool)
      (ds2 : List (Driver F)) (sg2 : SceneGraph F Q) (rn : Bool) (calls : List (Call F)),
      (∀ d ∈ ds, WellFormed d sg) →
      (rn0 = true ∨ ∃ d ∈ ds, d.interpolation ≠ Interpolation.STEP) →
      runNodeDrivers M ft loop ind ds sg rn0 = .ok (ds2, sg2, rn, calls) → rn = true := by
  intro ds
  induction ds with
  | nil =>
    intro ind sg rn0 ds2 sg2 rn calls _ h hrun
    rcases h with h | ⟨d, hd, -⟩
    · simp only [runNodeDrivers, pure_eq_ok, Except.ok.injEq, Prod.mk.injEq] at hrun
      rw [← hrun.2.2.1, h]
    · cases hd
  | cons d rest ih =>
    intro ind sg rn0 ds2 sg2 rn calls hwf h hrun
    have hd : WellFormed d sg := hwf d (List.mem_cons_self _ _)
    obtain ⟨i, li, sg1, b, -, -, hut, hlen, -, hother⟩ := updateTransform_ok M d ft sg loop hd
    have hrest : ∀ e ∈ rest, WellFormed e sg1 := fun e he =>
      wellFormed_congr (hwf e (List.mem_cons_of_mem _ he)) rfl rfl rfl rfl hlen
    obtain ⟨ds3, sg3, rn3, calls3, hrun3, -⟩ :=
      runNodeDrivers_ok M ft loop rest (ind + 1) sg1 (b || rn0) hrest
    have hrn3 : rn3 = true := by
      refine ih (ind + 1) sg1 (b || rn0) ds3 sg3 rn3 calls3 hrest ?_ hrun3
      rcases h with h | ⟨e, he, hne⟩
      · left
        simp [h]
      · rcases List.mem_cons.mp he with rfl | he
        · left
          simp [(hother hne).2]
        · exact Or.inr ⟨e, he, hne⟩
    generalize ({ advanced d ft loop with lastIndex := li } : Driver F) = d1 at hut
    simp only [runNodeDrivers, hut, ok_bind, hrun3, pure_eq_ok, Except.ok.injEq,
      Prod.mk.injEq] at hrun
    rw [← hrun.2.2.1, hrn3]

/-- The code at the failing inputs of C13: when the node drivers are well-formed and one of them
is not a STEP driver, `runDrivers` succeeds, every call of `updateTransform` it makes is on a
node driver, and the camera drivers are left exactly as they were: none of them is evaluated. -/
theorem runDrivers_skips_cameras
    (navigate : SceneGraph F Q → Int → SceneGraph F Q × DrawList F Mat)
    (M : MathHelpers F Q) (s : State F Mat) (frameTime : F) (sg : SceneGraph F Q) (loop : Bool)
    (hnode : ∀ d ∈ s.nodeDrivers, WellFormed d sg)
    (hlin : ∃ d ∈ s.nodeDrivers, d.interpolation ≠ Interpolation.STEP) :
    ∃ s2 sg2 calls, runDrivers navigate M s frameTime sg loop = .ok (s2, sg2, calls) ∧
      s2.cameraDrivers = s.cameraDrivers ∧
      calls.length = s.nodeDrivers.length ∧
      ∀ c ∈ calls, c.camera = false := by
  obtain ⟨nd, sg1, rn1, calls1, h1, -, hc1, -, -, hft1⟩ :=
    runNodeDrivers_ok M (scaledFrameTime s frameTime) loop s.nodeDrivers 0 sg false hnode
  have hrn : rn1 = true :=
    runNodeDrivers_renavigate M _ loop s.nodeDrivers 0 sg false nd sg1 rn1 calls1 hnode
      (Or.inr hlin) h1
  subst hrn
  refine ⟨copyDrawList { s with nodeDrivers := nd, cameraDrivers := s.cameraDrivers }
    (navigate sg1 s.poolSize).2, (navigate sg1 s.poolSize).1, calls1, ?_, rfl, hc1,
    fun c hc => (hft1 c hc).2⟩
  simp only [runDrivers, evalDrivers, h1, ok_bind, runCameraDrivers_skip, pure_eq_ok,
    List.append_nil, if_true]

/-- The failing input of C13 evaluated: one LINEAR node driver and one STEP camera driver at
runtime 0, frame time 0.05 at playback speed 2.  The call succeeds with a single call of
`updateTransform`, and the camera driver is still at runtime 0. -/
theorem runDrivers_skips_cameras_witness :
    ∃ s2 sg2 calls, runDrivers demoNavigate evalMath
        (demoState [demoDriver Channel.CH_TRANSLATE Interpolation.LINEAR 0 (-1)]
          [demoDriver Channel.CH_SCALE Interpolation.STEP 0 (-1)] true true)
        (1 / 20) demoScene false = .ok (s2, sg2, calls) ∧
      s2.cameraDrivers = [demoDriver Channel.CH_SCALE Interpolation.STEP 0 (-1)] ∧
      calls.length = 1 := by
  obtain ⟨s2, sg2, calls, h, hcam, hlen, -⟩ := runDrivers_skips_cameras demoNavigate evalMath
    (demoState [demoDriver Channel.CH_TRANSLATE Interpolation.LINEAR 0 (-1)]
      [demoDriver Channel.CH_SCALE Interpolation.STEP 0 (-1)] true true) (1 / 20) demoScene false
    (by
      intro d hd
      simp only [demoState, List.mem_singleton] at hd
      rw [hd]
      exact demo_wellFormed _ _ _ _ (by decide))
    ⟨demoDriver Channel.CH_TRANSLATE Interpolation.LINEAR 0 (-1), by simp [demoState],
      by simp [demoDriver]⟩
  exact ⟨s2, sg2, calls, h, hcam, hlen⟩

/-- C14: on well-formed drivers `runDrivers` succeeds.  With `sg1` the scene graph that the two
driver loops leave, when at least one call of `updateTransform` made in the call returned true
the transform, normal-transform and environment-transform pools (static and instanced stores) and
the camera list are those of the draw list that the navigation of `sg1` returns; when every call
returned false they are the ones of the old state and the scene graph is `sg1`. -/
theorem runDrivers_renavigates
    (navigate : SceneGraph F Q → Int → SceneGraph F Q × DrawList F Mat)
    (M : MathHelpers F Q) (s : State F Mat) (frameTime : F) (sg : SceneGraph F Q) (loop : Bool)
    (hnode : ∀ d ∈ s.nodeDrivers, WellFormed d sg)
    (hcam : ∀ d ∈ s.cameraDrivers, WellFormed d sg) :
    ∃ nd cd sg1 rn s2 sg2 calls,
      evalDrivers M (scaledFrameTime s frameTime) loop s sg = .ok (nd, cd, sg1, rn, calls) ∧
      runDrivers navigate M s frameTime sg loop = .ok (s2, sg2, calls) ∧
      ((∃ c ∈ calls, c.result = true) →
        sg2 = (navigate sg1 s.poolSize).1 ∧
        s2.transformPools = (navigate sg1 s.poolSize).2.transformPools ∧
        s2.transformInstPoolsStore = (navigate sg1 s.poolSize).2.instancedTransformPools ∧
        s2.transformNormalPools = (navigate sg1 s.poolSize).2.normalTransformPools ∧
        s2.transformNormalInstPoolsStore =
          (navigate sg1 s.poolSize).2.instancedNormalTransformPools ∧
        s2.transformEnvironmentPools = (navigate sg1 s.poolSize).2.environmentTransformPools ∧
        s2.transformEnvironmentInstPoolsStore =
          (navigate sg1 s.poolSize).2.instancedEnvironmentTransformPools ∧
        s2.cameras = (navigate sg1 s.poolSize).2.cameras) ∧
      ((∀ c ∈ calls, c.result = false) →
        sg2 = sg1 ∧
        s2.transformPools = s.transformPools ∧
        s2.transformInstPoolsStore = s.transformInstPoolsStore ∧
        s2.transformNormalPools = s.transformNormalPools ∧
        s2.transformNormalInstPoolsStore = s.transformNormalInstPoolsStore ∧
        s2.transformEnvironmentPools = s.transformEnvironmentPools ∧
        s2.transformEnvironmentInstPoolsStore = s.transformEnvironmentInstPoolsStore ∧
        s2.cameras = s.cameras) := by
  obtain ⟨nd, cd, sg1, rn, calls, hev, hrn, -, -⟩ :=
    evalDrivers_ok M (scaledFrameTime s frameTime) loop s sg hnode hcam
  cases rn with
  | true =>
    refine ⟨nd, cd, sg1, true, copyDrawList { s with nodeDrivers := nd, cameraDrivers := cd }
      (navigate sg1 s.poolSize).2, (navigate sg1 s.poolSize).1, calls, hev, ?_, ?_, ?_⟩
    · simp only [runDrivers, hev, ok_bind, if_true, pure_eq_ok]
    · intro _
      exact ⟨rfl, rfl, rfl, rfl, rfl, rfl, rfl, rfl⟩
    · intro hall
      obtain ⟨c, hc, hres⟩ := hrn.mp rfl
      rw [hall c hc] at hres
      cases hres
  | false =>
    refine ⟨nd, cd, sg1, false, { s with nodeDrivers := nd, cameraDrivers := cd }, sg1, calls,
      hev, ?_, ?_, ?_⟩
    · simp only [runDrivers, hev, ok_bind, pure_eq_ok]
      rfl
    · intro hex
      have := hrn.mpr hex
      cases this
    · intro _
      exact ⟨rfl, rfl, rfl, rfl, rfl, rfl, rfl, rfl⟩

/-- An instance of C14: a single STEP node driver whose `lastIndex` already is the located index
0 reports no change, and the transform pool `[[1, 2]]` stays. -/
theorem runDrivers_renavigates_witness :
    ∃ s2 sg2, runDrivers demoNavigate evalMath
        (demoState [demoDriver Channel.CH_TRANSLATE Interpolation.STEP 0 0] [] true true)
        (1 / 20) demoScene false =
          .ok (s2, sg2, [⟨false, 0, 1 / 10, false⟩]) ∧
      s2.transformPools = [[1, 2]] := by
  obtain ⟨nd, cd, sg1, rn, s2, sg2, calls, hev, hrun, -, hsame⟩ :=
    runDrivers_renavigates demoNavigate evalMath
      (demoState [demoDriver Channel.CH_TRANSLATE Interpolation.STEP 0 0] [] true true)
      (1 / 20) demoScene false
      (by
        intro d hd
        simp only [demoState, List.mem_singleton] at hd
        rw [hd]
        exact demo_wellFormed _ _ _ _ (by decide))
      (by
        intro d hd
        simp [demoState] at hd)
  have hs : scaledFrameTime
      (demoState [demoDriver Channel.CH_TRANSLATE Interpolation.STEP 0 0] [] true true)
      (1 / 20) = 1 / 10 := by
    norm_num [scaledFrameTime, demoState]
  have e1 : advanceRuntime (demoDriver Channel.CH_TRANSLATE Interpolation.STEP 0 0) (1 / 10)
      false = .ok (demoDriver Channel.CH_TRANSLATE Interpolation.STEP (1 / 10) 0) := by
    norm_num [advanceRuntime, readAt, demoDriver, pure_eq_ok, ok_bind]
  have e2 : locateLoop [(0 : ℚ), 1, 2] (1 / 10) 0 = .ok 0 := by
    rw [locateLoop]
    norm_num [readAt, pure_eq_ok]
  have e3 : updateTransform evalMath (demoDriver Channel.CH_TRANSLATE Interpolation.STEP 0 0)
      (1 / 10) demoScene false =
      .ok (demoDriver Channel.CH_TRANSLATE Interpolation.STEP (1 / 10) 0, demoScene, false) := by
    rw [updateTransform_of evalMath _ _ demoScene false _ 0 e1 e2]
    norm_num [demoDriver, updateChannelStep, pure_eq_ok]
  have e4 : evalDrivers evalMath (1 / 10) false
      (demoState [demoDriver Channel.CH_TRANSLATE Interpolation.STEP 0 0] [] true true)
      demoScene =
      .ok ([demoDriver Channel.CH_TRANSLATE Interpolation.STEP (1 / 10) 0], [], demoScene, false,
        [⟨false, 0, 1 / 10, false⟩]) := by
    have hn : (demoState [demoDriver Channel.CH_TRANSLATE Interpolation.STEP 0 0] [] true
        true).nodeDrivers = [demoDriver Channel.CH_TRANSLATE Interpolation.STEP 0 0] := rfl
    have hc : (demoState [demoDriver Channel.CH_TRANSLATE Interpolation.STEP 0 0] [] true
        true).cameraDrivers = [] := rfl
    simp only [evalDrivers, hn, hc, runNodeDrivers, runCameraDrivers, e3, ok_bind, pure_eq_ok,
      List.append_nil, Bool.or_false, List.singleton_append]
  rw [hs, e4] at hev
  simp only [Except.ok.injEq, Prod.mk.injEq] at hev
  obtain ⟨-, -, -, -, hcalls⟩ := hev
  subst hcalls
  refine ⟨s2, sg2, hrun, ?_⟩
  rw [(hsame (by simp)).2.1]
  rfl

/-- C15: on well-formed drivers `runDrivers` succeeds, and the frame time it passes to every
call of `updateTransform` it makes is `frameTime * playbackSpeed * s` with `s = 0` when
`playingAnimation` is false, `s = -1` when playing with `forwardAnimation` false and `s = 1` when
playing forward; the drivers it leaves are those that the two driver loops produce with that
frame time. -/
theorem runDrivers_frameTime
    (navigate : SceneGraph F Q → Int → SceneGraph F Q × DrawList F Mat)
    (M : MathHelpers F Q) (s : State F Mat) (frameTime : F) (sg : SceneGraph F Q) (loop : Bool)
    (hnode : ∀ d ∈ s.nodeDrivers, WellFormed d sg)
    (hcam : ∀ d ∈ s.cameraDrivers, WellFormed d sg) :
    ∃ s2 sg2 sg1 rn calls,
      runDrivers navigate M s frameTime sg loop = .ok (s2, sg2, calls) ∧
      evalDrivers M (frameTime * s.playbackSpeed *
          (if s.playingAnimation = false then 0
            else if s.forwardAnimation = false then -1 else 1)) loop s sg =
        .ok (s2.nodeDrivers, s2.cameraDrivers, sg1, rn, calls) ∧
      ∀ c ∈ calls, c.frameTime = frameTime * s.playbackSpeed *
        (if s.playingAnimation = false then 0
          else if s.forwardAnimation = false then -1 else 1) := by
  have hs : scaledFrameTime s frameTime = frameTime * s.playbackSpeed *
      (if s.playingAnimation = false then 0
        else if s.forwardAnimation = false then -1 else 1) := by
    unfold scaledFrameTime
    cases s.playingAnimation <;> cases s.forwardAnimation <;> simp
  obtain ⟨nd, cd, sg1, rn, calls, hev, -, hft, -⟩ :=
    evalDrivers_ok M (scaledFrameTime s frameTime) loop s sg hnode hcam
  rw [← hs]
  cases rn with
  | true =>
    refine ⟨copyDrawList { s with nodeDrivers := nd, cameraDrivers := cd }
      (navigate sg1 s.poolSize).2, (navigate sg1 s.poolSize).1, sg1, true, calls, ?_, hev, hft⟩
    simp only [runDrivers, hev, ok_bind, if_true, pure_eq_ok]
  | false =>
    refine ⟨{ s with nodeDrivers := nd, cameraDrivers := cd }, sg1, sg1, false, calls, ?_, hev,
      hft⟩
    simp only [runDrivers, hev, ok_bind, pure_eq_ok]
    rfl

/-- An instance of C15: at playback speed 2, playing in reverse, the frame time 0.05 reaches the
driver as -0.1. -/
theorem runDrivers_frameTime_witness :
    ∃ s2 sg2 calls, runDrivers demoNavigate evalMath
        (demoState [demoDriver Channel.CH_TRANSLATE Interpolation.STEP 0 0] [] true false)
        (1 / 20) demoScene true = .ok (s2, sg2, calls) ∧
      ∀ c ∈ calls, c.frameTime = -(1 / 10) := by
  obtain ⟨s2, sg2, sg1, rn, calls, hrun, -, hft⟩ :=
    runDrivers_frameTime demoNavigate evalMath
      (demoState [demoDriver Channel.CH_TRANSLATE Interpolation.STEP 0 0] [] true false)
      (1 / 20) demoScene true
      (by
        intro d hd
        simp only [demoState, List.mem_singleton] at hd
        rw [hd]
        exact demo_wellFormed _ _ _ _ (by decide))
      (by
        intro d hd
        simp [demoState] at hd)
  refine ⟨s2, sg2, calls, hrun, fun c hc => ?_⟩
  rw [hft c hc]
  norm_num [demoState]

/-- C16: after `setDriverRuntime(time)` every node driver and every camera driver has
`currentRuntime = time`; the drivers are the same in number and each keeps its `id`, `channel`,
`interpolation`, `times`, `values` and `lastIndex`; every other member of the state is as
before.  The function has no access to the scene graph and calls nothing. -/
theorem setDriverRuntime_spec (s : State F Mat) (time : F) :
    (∀ d ∈ (setDriverRuntime s time).nodeDrivers, d.currentRuntime = time) ∧
    (∀ d ∈ (setDriverRuntime s time).cameraDrivers, d.currentRuntime = time) ∧
    (setDriverRuntime s time).nodeDrivers.map (fun d => { d with currentRuntime := (0 : F) }) =
      s.nodeDrivers.map (fun d => { d with currentRuntime := (0 : F) }) ∧
    (setDriverRuntime s time).cameraDrivers.map (fun d => { d with currentRuntime := (0 : F) }) =
      s.cameraDrivers.map (fun d => { d with currentRuntime := (0 : F) }) ∧
    { setDriverRuntime s time with
        nodeDrivers := s.nodeDrivers, cameraDrivers := s.cameraDrivers } = s := by
  refine ⟨?_, ?_, ?_, ?_, rfl⟩
  · intro d hd
    simp only [setDriverRuntime, List.mem_map] at hd
    obtain ⟨e, -, rfl⟩ := hd
    rfl
  · intro d hd
    simp only [setDriverRuntime, List.mem_map] at hd
    obtain ⟨e, -, rfl⟩ := hd
    rfl
  · simp only [setDriverRuntime, List.map_map]
    rfl
  · simp only [setDriverRuntime, List.map_map]
    rfl

end DriverPassClaims

/-! ## The frustum planes -/

section FrustumPlanes

variable {F Mat : Type} [LinearOrderedField F]

theorem evalVec_normalizeLaw : NormalizeLaw evalVec := by
  intro v s hs hv
  show v.scale (1 / Rat.sqrt (v.dot v)) = v.scale (1 / s)
  rw [hv, Rat.sqrt_eq, abs_of_pos hs]

theorem evalVec_normSound : NormSound evalVec := by
  intro v r hr hle
  have hle2 : (v.dot v + 1) / 2 ≤ r := hle
  nlinarith [sq_nonneg (v.dot v - 1), sq_nonneg (r - (v.dot v + 1) / 2)]

/-- The four side normals that `findFrustumInfo` returns, when `normalize()` divides by the
length: with `a = aspect * tan(vfov/2)` and `t = tan(vfov/2)` they are `(1, 0, -a) / sx`,
`(-1, 0, -a) / sx`, `(0, -1, t) / sy` and `(0, 1, t) / sy`. -/
theorem findFrustumInfo_normals (V : VecMath F Mat) (camera : DrawCamera F Mat) (sx sy : F)
    (hlaw : NormalizeLaw V) (hnf : camera.perspectiveInfo.nearP < camera.perspectiveInfo.farP)
    (hs : SideLengths V camera sx sy) :
    (findFrustumInfo V camera).rightNormal =
        ⟨1 / sx, 0, -(camera.perspectiveInfo.aspect * V.tan (camera.perspectiveInfo.vfov / 2))
          / sx⟩ ∧
      (findFrustumInfo V camera).leftNormal =
        ⟨-1 / sx, 0, -(camera.perspectiveInfo.aspect * V.tan (camera.perspectiveInfo.vfov / 2))
          / sx⟩ ∧
      (findFrustumInfo V camera).topNormal =
        ⟨0, -1 / sy, V.tan (camera.perspectiveInfo.vfov / 2) / sy⟩ ∧
      (findFrustumInfo V camera).bottomNormal =
        ⟨0, 1 / sy, V.tan (camera.perspectiveInfo.vfov / 2) / sy⟩ := by
  obtain ⟨hsx, hsx2, hsy, hsy2⟩ := hs
  simp only [findFrustumInfo]
  generalize camera.perspectiveInfo.aspect = A at *
  generalize V.tan (camera.perspectiveInfo.vfov / 2) = T at *
  have hd : 0 < camera.perspectiveInfo.farP - camera.perspectiveInfo.nearP := sub_pos.mpr hnf
  generalize camera.perspectiveInfo.farP = f at *
  generalize camera.perspectiveInfo.nearP = n at *
  have hsx0 : sx ≠ 0 := ne_of_gt hsx
  have hsy0 : sy ≠ 0 := ne_of_gt hsy
  have hd0 : f - n ≠ 0 := ne_of_gt hd
  refine ⟨?_, ?_, ?_, ?_⟩
  · rw [hlaw _ ((f - n) * sx) (mul_pos hd hsx)
      (by simp only [float_3.dot, float_3.cross, float_3.sub]
          linear_combination (-(f - n) ^ 2) * hsx2)]
    simp only [float_3.scale, float_3.cross, float_3.sub, float_3.mk.injEq]
    refine ⟨?_, ?_, ?_⟩ <;> (field_simp; try ring)
  · rw [hlaw _ ((f - n) * sx) (mul_pos hd hsx)
      (by simp only [float_3.dot, float_3.cross, float_3.sub]
          linear_combination (-(f - n) ^ 2) * hsx2)]
    simp only [float_3.scale, float_3.cross, float_3.sub, float_3.mk.injEq]
    refine ⟨?_, ?_, ?_⟩ <;> (field_simp; try ring)
  · rw [hlaw _ ((f - n) * sy) (mul_pos hd hsy)
      (by simp only [float_3.dot, float_3.cross, float_3.sub]
          linear_combination (-(f - n) ^ 2) * hsy2)]
    simp only [float_3.scale, float_3.cross, float_3.sub, float_3.mk.injEq]
    refine ⟨?_, ?_, ?_⟩ <;> (field_simp; try ring)
  · rw [hlaw _ ((f - n) * sy) (mul_pos hd hsy)
      (by simp only [float_3.dot, float_3.cross, float_3.sub]
          linear_combination (-(f - n) ^ 2) * hsy2)]
    simp only [float_3.scale, float_3.cross, float_3.sub, float_3.mk.injEq]
    refine ⟨?_, ?_, ?_⟩ <;> (field_simp; try ring)

theorem demoCamera_valid : ValidCamera evalVec demoCamera := by
  unfold ValidCamera
  norm_num [demoCamera, evalVec]

theorem demoCamera_sideLengths : SideLengths evalVec demoCamera (5 / 4) (5 / 4) := by
  unfold SideLengths
  norm_num [demoCamera, evalVec]

/-- With `float_3.cross` the normals of `sideNormalsWith` are the side normals that
`findFrustumInfo` returns. -/
theorem sideNormalsWith_cross (V : VecMath F Mat) (camera : DrawCamera F Mat) :
    sideNormalsWith float_3.cross V camera =
      ((findFrustumInfo V camera).rightNormal, (findFrustumInfo V camera).leftNormal,
        (findFrustumInfo V camera).topNormal, (findFrustumInfo V camera).bottomNormal) := rfl

/-- The four side normals with the cross product of the opposite handedness, when `normalize()`
divides by the length: the negatives of those of `findFrustumInfo_normals`. -/
theorem sideNormalsWith_crossLeft (V : VecMath F Mat) (camera : DrawCamera F Mat) (sx sy : F)
    (hlaw : NormalizeLaw V) (hnf : camera.perspectiveInfo.nearP < camera.perspectiveInfo.farP)
    (hs : SideLengths V camera sx sy) :
    sideNormalsWith float_3.crossLeft V camera =
      (⟨-1 / sx, 0, camera.perspectiveInfo.aspect * V.tan (camera.perspectiveInfo.vfov / 2)
          / sx⟩,
        ⟨1 / sx, 0, camera.perspectiveInfo.aspect * V.tan (camera.perspectiveInfo.vfov / 2)
          / sx⟩,
        ⟨0, 1 / sy, -V.tan (camera.perspectiveInfo.vfov / 2) / sy⟩,
        ⟨0, -1 / sy, -V.tan (camera.perspectiveInfo.vfov / 2) / sy⟩) := by
  obtain ⟨hsx, hsx2, hsy, hsy2⟩ := hs
  simp only [sideNormalsWith, float_3.crossLeft]
  generalize camera.perspectiveInfo.aspect = A at *
  generalize V.tan (camera.perspectiveInfo.vfov / 2) = T at *
  have hd : 0 < camera.perspectiveInfo.farP - camera.perspectiveInfo.nearP := sub_pos.mpr hnf
  generalize camera.perspectiveInfo.farP = f at *
  generalize camera.perspectiveInfo.nearP = n at *
  have hsx0 : sx ≠ 0 := ne_of_gt hsx
  have hsy0 : sy ≠ 0 := ne_of_gt hsy
  have hd0 : f - n ≠ 0 := ne_of_gt hd
  rw [hlaw _ ((f - n) * sx) (mul_pos hd hsx)
      (by simp only [float_3.dot, float_3.cross, float_3.sub]
          linear_combination (-(f - n) ^ 2) * hsx2),
    hlaw _ ((f - n) * sx) (mul_pos hd hsx)
      (by simp only [float_3.dot, float_3.cross, float_3.sub]
          linear_combination (-(f - n) ^ 2) * hsx2),
    hlaw _ ((f - n) * sy) (mul_pos hd hsy)
      (by simp only [float_3.dot, float_3.cross, float_3.sub]
          linear_combination (-(f - n) ^ 2) * hsy2),
    hlaw _ ((f - n) * sy) (mul_pos hd hsy)
      (by simp only [float_3.dot, float_3.cross, float_3.sub]
          linear_combination (-(f - n) ^ 2) * hsy2)]
  simp only [float_3.scale, float_3.cross, float_3.sub, float_3.mk.injEq, Prod.mk.injEq]
  refine ⟨⟨?_, ?_, ?_⟩, ⟨?_, ?_, ?_⟩, ⟨?_, ?_, ?_⟩, ⟨?_, ?_, ?_⟩⟩ <;> (field_simp; try ring)

/-- The directions of the six normals of `findFrustumInfo` relative to the interior point
`c = (0, 0, (near + far) / 2)`, when `normalize()` divides by the length: near, far, top and
bottom have a positive dot product with `c - origin`, left and right a negative one. -/
theorem findFrustumInfo_directions (V : VecMath F Mat) (camera : DrawCamera F Mat)
    (sx sy : F) (hlaw : NormalizeLaw V) (hcam : ValidCamera V camera)
    (hs : SideLengths V camera sx sy) :
    0 < (findFrustumInfo V camera).nearNormal.dot
        ((frustumCentre camera).sub (findFrustumInfo V camera).nearOrigin) ∧
      0 < (findFrustumInfo V camera).farNormal.dot
        ((frustumCentre camera).sub (findFrustumInfo V camera).farOrigin) ∧
      0 < (findFrustumInfo V camera).topNormal.dot
        ((frustumCentre camera).sub (findFrustumInfo V camera).topOrigin) ∧
      0 < (findFrustumInfo V camera).bottomNormal.dot
        ((frustumCentre camera).sub (findFrustumInfo V camera).bottomOrigin) ∧
      (findFrustumInfo V camera).leftNormal.dot
        ((frustumCentre camera).sub (findFrustumInfo V camera).leftOrigin) < 0 ∧
      (findFrustumInfo V camera).rightNormal.dot
        ((frustumCentre camera).sub (findFrustumInfo V camera).rightOrigin) < 0 := by
  obtain ⟨hr, hl, ht, hb⟩ := findFrustumInfo_normals V camera sx sy hlaw hcam.2.1 hs
  rw [hr, hl, ht, hb]
  obtain ⟨hn, hnf, hA, hT⟩ := hcam
  obtain ⟨hsx, -, hsy, -⟩ := hs
  simp only [findFrustumInfo, frustumCentre, float_3.dot, float_3.sub]
  generalize camera.perspectiveInfo.aspect = A at *
  generalize V.tan (camera.perspectiveInfo.vfov / 2) = T at *
  generalize camera.perspectiveInfo.farP = f at *
  generalize camera.perspectiveInfo.nearP = n at *
  have hf : 0 < f := lt_trans hn hnf
  have hsum : 0 < n + f := add_pos hn hf
  have hTs : 0 < T * (n + f) := mul_pos hT hsum
  have hATs : 0 < A * T * (n + f) := mul_pos (mul_pos hA hT) hsum
  refine ⟨by linarith, by linarith, ?_, ?_, ?_, ?_⟩
  · have h : 0 * (0 - 0) + -1 / sy * (0 - (T * n + 1 / 2 * (T * f - T * n))) +
        T / sy * ((n + f) / 2 - (n + (f - n) / 2)) = T * (n + f) / (2 * sy) := by
      field_simp
      ring
    rw [h]
    positivity
  · have h : 0 * (0 - 0) + 1 / sy * (0 - (-T * n + 1 / 2 * (-T * f - -T * n))) +
        T / sy * ((n + f) / 2 - (n + (f - n) / 2)) = T * (n + f) / (2 * sy) := by
      field_simp
      ring
    rw [h]
    positivity
  · have h : -1 / sx * (0 - (A * (-T * n) + 1 / 2 * (A * (-T * f) - A * (-T * n)))) + 0 * (0 - 0) +
        -(A * T) / sx * ((n + f) / 2 - (n + (f - n) / 2)) = -(A * T * (n + f) / (2 * sx)) := by
      field_simp
      ring
    rw [h]
    exact neg_neg_of_pos (by positivity)
  · have h : 1 / sx * (0 - (A * (T * n) + 1 / 2 * (A * (T * f) - A * (T * n)))) + 0 * (0 - 0) +
        -(A * T) / sx * ((n + f) / 2 - (n + (f - n) / 2)) = -(A * T * (n + f) / (2 * sx)) := by
      field_simp
      ring
    rw [h]
    exact neg_neg_of_pos (by positivity)

/-- The directions of the four side normals with the cross product of the opposite handedness:
left and right have a positive dot product with `c - origin`, top and bottom a negative one. -/
theorem sideNormalsWith_crossLeft_directions (V : VecMath F Mat) (camera : DrawCamera F Mat)
    (sx sy : F) (hlaw : NormalizeLaw V) (hcam : ValidCamera V camera)
    (hs : SideLengths V camera sx sy) :
    0 < (sideNormalsWith float_3.crossLeft V camera).1.dot
        ((frustumCentre camera).sub (findFrustumInfo V camera).rightOrigin) ∧
      0 < (sideNormalsWith float_3.crossLeft V camera).2.1.dot
        ((frustumCentre camera).sub (findFrustumInfo V camera).leftOrigin) ∧
      (sideNormalsWith float_3.crossLeft V camera).2.2.1.dot
        ((frustumCentre camera).sub (findFrustumInfo V camera).topOrigin) < 0 ∧
      (sideNormalsWith float_3.crossLeft V camera).2.2.2.dot
        ((frustumCentre camera).sub (findFrustumInfo V camera).bottomOrigin) < 0 := by
  rw [sideNormalsWith_crossLeft V camera sx sy hlaw hcam.2.1 hs]
  obtain ⟨hn, hnf, hA, hT⟩ := hcam
  obtain ⟨hsx, -, hsy, -⟩ := hs
  simp only [findFrustumInfo, frustumCentre, float_3.dot, float_3.sub]
  generalize camera.perspectiveInfo.aspect = A at *
  generalize V.tan (camera.perspectiveInfo.vfov / 2) = T at *
  generalize camera.perspectiveInfo.farP = f at *
  generalize camera.perspectiveInfo.nearP = n at *
  have hf : 0 < f := lt_trans hn hnf
  have hsum : 0 < n + f := add_pos hn hf
  have hTs : 0 < T * (n + f) := mul_pos hT hsum
  have hATs : 0 < A * T * (n + f) := mul_pos (mul_pos hA hT) hsum
  refine ⟨?_, ?_, ?_, ?_⟩
  · have h : -1 / sx * (0 - (A * (T * n) + 1 / 2 * (A * (T * f) - A * (T * n)))) + 0 * (0 - 0) +
        A * T / sx * ((n + f) / 2 - (n + (f - n) / 2)) = A * T * (n + f) / (2 * sx) := by
      field_simp
      ring
    rw [h]
    positivity
  · have h : 1 / sx * (0 - (A * (-T * n) + 1 / 2 * (A * (-T * f) - A * (-T * n)))) + 0 * (0 - 0) +
        A * T / sx * ((n + f) / 2 - (n + (f - n) / 2)) = A * T * (n + f) / (2 * sx) := by
      field_simp
      ring
    rw [h]
    positivity
  · have h : 0 * (0 - 0) + 1 / sy * (0 - (T * n + 1 / 2 * (T * f - T * n))) +
        -T / sy * ((n + f) / 2 - (n + (f - n) / 2)) = -(T * (n + f) / (2 * sy)) := by
      field_simp
      ring
    rw [h]
    exact neg_neg_of_pos (by positivity)
  · have h : 0 * (0 - 0) + -1 / sy * (0 - (-T * n + 1 / 2 * (-T * f - -T * n))) +
        -T / sy * ((n + f) / 2 - (n + (f - n) / 2)) = -(T * (n + f) / (2 * sy)) := by
      field_simp
      ring
    rw [h]
    exact neg_neg_of_pos (by positivity)

/-- C20 on the code: for every camera with `0 < near < far`, `aspect > 0` and
`tan(vfov/2) > 0` the six normals that `findFrustumInfo` returns do not all point toward the
frustum interior.  With the usual cross product the near, far, top and bottom normals have a
positive dot product with `c - origin` for the interior point `c = (0, 0, (near + far) / 2)`
and the left and right normals a negative one; with the cross product of the opposite
handedness the left and right normals have a positive one and the top and bottom normals a
negative one. -/
theorem findFrustumInfo_normal_directions (V : VecMath F Mat) (camera : DrawCamera F Mat)
    (sx sy : F) (hlaw : NormalizeLaw V) (hcam : ValidCamera V camera)
    (hs : SideLengths V camera sx sy) :
    (0 < (findFrustumInfo V camera).nearNormal.dot
        ((frustumCentre camera).sub (findFrustumInfo V camera).nearOrigin) ∧
      0 < (findFrustumInfo V camera).farNormal.dot
        ((frustumCentre camera).sub (findFrustumInfo V camera).farOrigin) ∧
      0 < (findFrustumInfo V camera).topNormal.dot
        ((frustumCentre camera).sub (findFrustumInfo V camera).topOrigin) ∧
      0 < (findFrustumInfo V camera).bottomNormal.dot
        ((frustumCentre camera).sub (findFrustumInfo V camera).bottomOrigin) ∧
      (findFrustumInfo V camera).leftNormal.dot
        ((frustumCentre camera).sub (findFrustumInfo V camera).leftOrigin) < 0 ∧
      (findFrustumInfo V camera).rightNormal.dot
        ((frustumCentre camera).sub (findFrustumInfo V camera).rightOrigin) < 0) ∧
    (0 < (sideNormalsWith float_3.crossLeft V camera).1.dot
        ((frustumCentre camera).sub (findFrustumInfo V camera).rightOrigin) ∧
      0 < (sideNormalsWith float_3.crossLeft V camera).2.1.dot
        ((frustumCentre camera).sub (findFrustumInfo V camera).leftOrigin) ∧
      (sideNormalsWith float_3.crossLeft V camera).2.2.1.dot
        ((frustumCentre camera).sub (findFrustumInfo V camera).topOrigin) < 0 ∧
      (sideNormalsWith float_3.crossLeft V camera).2.2.2.dot
        ((frustumCentre camera).sub (findFrustumInfo V camera).bottomOrigin) < 0) :=
  ⟨findFrustumInfo_directions V camera sx sy hlaw hcam hs,
    sideNormalsWith_crossLeft_directions V camera sx sy hlaw hcam hs⟩

/-- The failing input of C20 on the operations over `ℚ`: for the camera with
`tan(vfov/2) = 3/4`, aspect 1, near 1 and far 3 the right normal points away from the interior
and the top normal toward it; with the cross product of the opposite handedness it is the top
normal that points away. -/
theorem findFrustumInfo_normal_directions_witness :
    (findFrustumInfo evalVec demoCamera).rightNormal.dot
        ((frustumCentre demoCamera).sub (findFrustumInfo evalVec demoCamera).rightOrigin) < 0 ∧
      0 < (findFrustumInfo evalVec demoCamera).topNormal.dot
        ((frustumCentre demoCamera).sub (findFrustumInfo evalVec demoCamera).topOrigin) ∧
      (sideNormalsWith float_3.crossLeft evalVec demoCamera).2.2.1.dot
        ((frustumCentre demoCamera).sub (findFrustumInfo evalVec demoCamera).topOrigin) < 0 := by
  have h := findFrustumInfo_normal_directions evalVec demoCamera (5 / 4) (5 / 4)
    evalVec_normalizeLaw demoCamera_valid demoCamera_sideLengths
  exact ⟨h.1.2.2.2.2.2, h.1.2.2.1, h.2.2.2.1⟩

/-- The right normal at the failing input of C20: for the camera with `tan(vfov/2) = 3/4`,
aspect 1, near 1 and far 3 the right normal is `(4/5, 0, -3/5)`, the right origin is
`(3/2, 0, 2)`, and the dot product of the normal with `c - origin` for `c = (0, 0, 2)` is
`-6/5`, which is not positive. -/
theorem right_normal_counterexample :
    (findFrustumInfo evalVec demoCamera).rightNormal = ⟨4 / 5, 0, -3 / 5⟩ ∧
      (findFrustumInfo evalVec demoCamera).rightOrigin = ⟨3 / 2, 0, 2⟩ ∧
      frustumCentre demoCamera = ⟨0, 0, 2⟩ ∧
      (findFrustumInfo evalVec demoCamera).rightNormal.dot
        ((frustumCentre demoCamera).sub (findFrustumInfo evalVec demoCamera).rightOrigin)
          = -6 / 5 ∧
      ¬ (0 < (findFrustumInfo evalVec demoCamera).rightNormal.dot
        ((frustumCentre demoCamera).sub (findFrustumInfo evalVec demoCamera).rightOrigin)) := by
  have hr := (findFrustumInfo_normals evalVec demoCamera (5 / 4) (5 / 4)
    evalVec_normalizeLaw demoCamera_valid.2.1 demoCamera_sideLengths).1
  have hr2 : (findFrustumInfo evalVec demoCamera).rightNormal = ⟨4 / 5, 0, -3 / 5⟩ := by
    rw [hr]
    norm_num [demoCamera, evalVec]
  have ho : (findFrustumInfo evalVec demoCamera).rightOrigin = ⟨3 / 2, 0, 2⟩ := by
    norm_num [findFrustumInfo, demoCamera, evalVec]
  have hc : frustumCentre demoCamera = ⟨0, 0, 2⟩ := by
    norm_num [frustumCentre, demoCamera]
  refine ⟨hr2, ho, hc, ?_, ?_⟩
  · rw [hr2, ho, hc]
    norm_num [float_3.dot, float_3.sub]
  · rw [hr2, ho, hc]
    norm_num [float_3.dot, float_3.sub]

end FrustumPlanes

/-! ## The sphere test -/

section SphereTest

variable {F Mat : Type} [LinearOrderedField F]

theorem closestPoints_right (info : frustumInfo F) (p : float_3 F) (a s m : F)
    (hN : info.rightNormal = ⟨1 / s, 0, -a / s⟩) (hO : info.rightOrigin = ⟨a * m, 0, m⟩) :
    (closestPoints info p).rightPoint.x =
        sideCoord a (1 / s * (1 / s)) info.nearZ info.farZ p.x p.z ∧
      (closestPoints info p).rightPoint.z =
        sideDepth a (1 / s * (1 / s)) info.nearZ info.farZ p.x p.z := by
  simp only [closestPoints, projectOnPlane, hN, hO, float_3.sub, float_3.dot, float_3.scale,
    sideCoord, sideDepth]
  constructor <;> ring_nf

theorem closestPoints_left (info : frustumInfo F) (p : float_3 F) (a s m : F)
    (hN : info.leftNormal = ⟨-1 / s, 0, -a / s⟩) (hO : info.leftOrigin = ⟨-(a * m), 0, m⟩) :
    (closestPoints info p).leftPoint.x =
        -sideCoord a (1 / s * (1 / s)) info.nearZ info.farZ (-p.x) p.z ∧
      (closestPoints info p).leftPoint.z =
        sideDepth a (1 / s * (1 / s)) info.nearZ info.farZ (-p.x) p.z := by
  simp only [closestPoints, projectOnPlane, hN, hO, float_3.sub, float_3.dot, float_3.scale,
    sideCoord, sideDepth]
  constructor <;> ring_nf

theorem closestPoints_top (info : frustumInfo F) (p : float_3 F) (t s m : F)
    (hN : info.topNormal = ⟨0, -1 / s, t / s⟩) (hO : info.topOrigin = ⟨0, t * m, m⟩) :
    (closestPoints info p).topPoint.y =
        sideCoord t (1 / s * (1 / s)) info.nearZ info.farZ p.y p.z ∧
      (closestPoints info p).topPoint.z =
        sideDepth t (1 / s * (1 / s)) info.nearZ info.farZ p.y p.z := by
  simp only [closestPoints, projectOnPlane, hN, hO, float_3.sub, float_3.dot, float_3.scale,
    sideCoord, sideDepth]
  constructor <;> ring_nf

theorem closestPoints_bottom (info : frustumInfo F) (p : float_3 F) (t s m : F)
    (hN : info.bottomNormal = ⟨0, 1 / s, t / s⟩) (hO : info.bottomOrigin = ⟨0, -(t * m), m⟩) :
    (closestPoints info p).bottomPoint.y =
        -sideCoord t (1 / s * (1 / s)) info.nearZ info.farZ (-p.y) p.z ∧
      (closestPoints info p).bottomPoint.z =
        sideDepth t (1 / s * (1 / s)) info.nearZ info.farZ (-p.y) p.z := by
  simp only [closestPoints, projectOnPlane, hN, hO, float_3.sub, float_3.dot, float_3.scale,
    sideCoord, sideDepth]
  constructor <;> ring_nf

/-- The candidate on a side plane lies beyond a point that is strictly inside: for `z < f` and
`x < a z` the coordinate of the candidate across the plane exceeds `x`. -/
theorem lt_sideCoord (a k n f x z : F) (ha : 0 < a) (hk : k * (1 + a * a) = 1)
    (hzf : z < f) (hx : x < a * z) : x < sideCoord a k n f x z := by
  have hk0 : 0 < k := by
    have h1 : 0 < 1 + a * a := by positivity
    by_contra hcon
    have hle : k ≤ 0 := not_lt.mp hcon
    have : k * (1 + a * a) ≤ 0 := mul_nonpos_of_nonpos_of_nonneg hle (le_of_lt h1)
    linarith
  have hk1 : a * a * k = 1 - k := by linear_combination hk
  have hu : 0 < a * z - x := sub_pos.mpr hx
  -- the candidate exceeds `x` by `k * (u * (2 - k) + a * (z' - z))` with `u = a z - x`
  have key : ∀ z2 : F, 0 < (a * z - x) * (2 - k) + a * (z2 - z) →
      x < x - k * (x - a * z) - k * (x - k * (x - a * z) - a * z2) := by
    intro z2 h
    have h2 : x - k * (x - a * z) - k * (x - k * (x - a * z) - a * z2) - x =
        k * ((a * z - x) * (2 - k) + a * (z2 - z)) := by ring
    have h3 : 0 < k * ((a * z - x) * (2 - k) + a * (z2 - z)) := mul_pos hk0 h
    linarith
  have hk2 : k ≤ 1 := by nlinarith [mul_nonneg (le_of_lt hk0) (mul_self_nonneg a)]
  unfold sideCoord clampHiLo
  simp only []
  split_ifs with h1 h2
  · apply key
    have : 0 < a * (f - z) := mul_pos ha (sub_pos.mpr hzf)
    nlinarith [mul_pos hu (show (0 : F) < 2 - k by linarith)]
  · apply key
    -- here `z + a k (x - a z) < n`
    have h4 : a * (z - n) < a * a * k * (a * z - x) := by
      have : z - n < a * k * (a * z - x) := by linarith
      have := mul_lt_mul_of_pos_left this ha
      linarith
    rw [hk1] at h4
    nlinarith
  · apply key
    have : a * (z + a * k * (x - a * z) - z) = -(a * a * k) * (a * z - x) := by ring
    rw [this, hk1]
    nlinarith

/-- The candidate of a point on the axis stays in front: for `0 < k ≤ 1`, `n ≤ f`, `0 ≤ f` and
`0 ≤ z` the depth of the candidate of the point `(0, z)` is at most `f + z / 4`. -/
theorem sideDepth_axis_le (a k n f z : F) (hk0 : 0 < k) (hk : k * (1 + a * a) = 1)
    (hnf : n ≤ f) (hf : 0 ≤ f) (hz : 0 ≤ z) : sideDepth a k n f 0 z ≤ f + z / 4 := by
  have hk1 : a * a * k = 1 - k := by linear_combination hk
  have hk2 : k ≤ 1 := by nlinarith [mul_nonneg (le_of_lt hk0) (mul_self_nonneg a)]
  have hclamp : ∀ v : F, clampHiLo f n v ≤ f := by
    intro v
    unfold clampHiLo
    split_ifs with h1 h2
    · exact le_refl _
    · exact hnf
    · exact not_lt.mp h1
  have hform : ∀ z2 : F, z2 + a * k * (0 - k * (0 - a * z) - a * z2) =
      k * z2 + k * (1 - k) * z := by
    intro z2
    have : z2 + a * k * (0 - k * (0 - a * z) - a * z2) =
        z2 * (1 - a * a * k) + k * (a * a * k) * z := by ring
    rw [this, hk1]
    ring
  unfold sideDepth
  simp only []
  rw [hform]
  have h1 : k * clampHiLo f n (z + a * k * (0 - a * z)) ≤ f := by
    have := hclamp (z + a * k * (0 - a * z))
    nlinarith
  have h2 : k * (1 - k) * z ≤ z / 4 := by
    have : k * (1 - k) ≤ 1 / 4 := by nlinarith [sq_nonneg (k - 1 / 2)]
    nlinarith
  linarith

/-- The four side origins that `findFrustumInfo` returns lie on their planes at the depth
`m = near + (far - near) / 2`. -/
theorem findFrustumInfo_origins (V : VecMath F Mat) (camera : DrawCamera F Mat) :
    (findFrustumInfo V camera).rightOrigin =
        ⟨camera.perspectiveInfo.aspect * V.tan (camera.perspectiveInfo.vfov / 2) *
          (camera.perspectiveInfo.nearP +
            (camera.perspectiveInfo.farP - camera.perspectiveInfo.nearP) / 2), 0,
          camera.perspectiveInfo.nearP +
            (camera.perspectiveInfo.farP - camera.perspectiveInfo.nearP) / 2⟩ ∧
      (findFrustumInfo V camera).leftOrigin =
        ⟨-(camera.perspectiveInfo.aspect * V.tan (camera.perspectiveInfo.vfov / 2) *
          (camera.perspectiveInfo.nearP +
            (camera.perspectiveInfo.farP - camera.perspectiveInfo.nearP) / 2)), 0,
          camera.perspectiveInfo.nearP +
            (camera.perspectiveInfo.farP - camera.perspectiveInfo.nearP) / 2⟩ ∧
      (findFrustumInfo V camera).topOrigin =
        ⟨0, V.tan (camera.perspectiveInfo.vfov / 2) *
          (camera.perspectiveInfo.nearP +
            (camera.perspectiveInfo.farP - camera.perspectiveInfo.nearP) / 2),
          camera.perspectiveInfo.nearP +
            (camera.perspectiveInfo.farP - camera.perspectiveInfo.nearP) / 2⟩ ∧
      (findFrustumInfo V camera).bottomOrigin =
        ⟨0, -(V.tan (camera.perspectiveInfo.vfov / 2) *
          (camera.perspectiveInfo.nearP +
            (camera.perspectiveInfo.farP - camera.perspectiveInfo.nearP) / 2)),
          camera.perspectiveInfo.nearP +
            (camera.perspectiveInfo.farP - camera.perspectiveInfo.nearP) / 2⟩ := by
  simp only [findFrustumInfo, float_3.mk.injEq, true_and, and_true]
  refine ⟨?_, ?_, ?_, ?_⟩ <;> ring

/-- The coordinates of the four side candidates that the inside test and the distance tests of
`sphereInFrustum` depend on, as closed forms, when `normalize()` divides by the length. -/
theorem closestPoints_sides (V : VecMath F Mat) (camera : DrawCamera F Mat) (sx sy : F)
    (p : float_3 F) (hlaw : NormalizeLaw V)
    (hnf : camera.perspectiveInfo.nearP < camera.perspectiveInfo.farP)
    (hs : SideLengths V camera sx sy) :
    (closestPoints (findFrustumInfo V camera) p).rightPoint.x =
        sideCoord (camera.perspectiveInfo.aspect * V.tan (camera.perspectiveInfo.vfov / 2))
          (1 / sx * (1 / sx)) camera.perspectiveInfo.nearP camera.perspectiveInfo.farP p.x p.z ∧
      (closestPoints (findFrustumInfo V camera) p).leftPoint.x =
        -sideCoord (camera.perspectiveInfo.aspect * V.tan (camera.perspectiveInfo.vfov / 2))
          (1 / sx * (1 / sx)) camera.perspectiveInfo.nearP camera.perspectiveInfo.farP (-p.x)
          p.z ∧
      (closestPoints (findFrustumInfo V camera) p).topPoint.y =
        sideCoord (V.tan (camera.perspectiveInfo.vfov / 2))
          (1 / sy * (1 / sy)) camera.perspectiveInfo.nearP camera.perspectiveInfo.farP p.y p.z ∧
      (closestPoints (findFrustumInfo V camera) p).bottomPoint.y =
        -sideCoord (V.tan (camera.perspectiveInfo.vfov / 2))
          (1 / sy * (1 / sy)) camera.perspectiveInfo.nearP camera.perspectiveInfo.farP (-p.y)
          p.z ∧
      (closestPoints (findFrustumInfo V camera) p).rightPoint.z =
        sideDepth (camera.perspectiveInfo.aspect * V.tan (camera.perspectiveInfo.vfov / 2))
          (1 / sx * (1 / sx)) camera.perspectiveInfo.nearP camera.perspectiveInfo.farP p.x p.z ∧
      (closestPoints (findFrustumInfo V camera) p).leftPoint.z =
        sideDepth (camera.perspectiveInfo.aspect * V.tan (camera.perspectiveInfo.vfov / 2))
          (1 / sx * (1 / sx)) camera.perspectiveInfo.nearP camera.perspectiveInfo.farP (-p.x)
          p.z ∧
      (closestPoints (findFrustumInfo V camera) p).topPoint.z =
        sideDepth (V.tan (camera.perspectiveInfo.vfov / 2))
          (1 / sy * (1 / sy)) camera.perspectiveInfo.nearP camera.perspectiveInfo.farP p.y p.z ∧
      (closestPoints (findFrustumInfo V camera) p).bottomPoint.z =
        sideDepth (V.tan (camera.perspectiveInfo.vfov / 2))
          (1 / sy * (1 / sy)) camera.perspectiveInfo.nearP camera.perspectiveInfo.farP (-p.y)
          p.z := by
  obtain ⟨hr, hl, ht, hb⟩ := findFrustumInfo_normals V camera sx sy hlaw hnf hs
  obtain ⟨hro, hlo, hto, hbo⟩ := findFrustumInfo_origins V camera
  have h1 := closestPoints_right (findFrustumInfo V camera) p _ sx _ hr hro
  have h2 := closestPoints_left (findFrustumInfo V camera) p _ sx _ hl hlo
  have h3 := closestPoints_top (findFrustumInfo V camera) p _ sy _ ht hto
  have h4 := closestPoints_bottom (findFrustumInfo V camera) p _ sy _ hb hbo
  exact ⟨h1.1, h2.1, h3.1, h4.1, h1.2, h2.2, h3.2, h4.2⟩

theorem sideLengths_k (V : VecMath F Mat) (camera : DrawCamera F Mat) (sx sy : F)
    (hs : SideLengths V camera sx sy) :
    0 < 1 / sx * (1 / sx) ∧
      1 / sx * (1 / sx) *
        (1 + camera.perspectiveInfo.aspect * V.tan (camera.perspectiveInfo.vfov / 2) *
          (camera.perspectiveInfo.aspect * V.tan (camera.perspectiveInfo.vfov / 2))) = 1 ∧
      0 < 1 / sy * (1 / sy) ∧
      1 / sy * (1 / sy) *
        (1 + V.tan (camera.perspectiveInfo.vfov / 2) *
          V.tan (camera.perspectiveInfo.vfov / 2)) = 1 := by
  obtain ⟨hsx, hsx2, hsy, hsy2⟩ := hs
  have hsx0 : sx ≠ 0 := ne_of_gt hsx
  have hsy0 : sy ≠ 0 := ne_of_gt hsy
  refine ⟨by positivity, ?_, by positivity, ?_⟩
  · rw [← hsx2]
    field_simp
  · rw [← hsy2]
    field_simp

/-- C17: for every camera with `0 < near < far`, `aspect > 0` and `tan(vfov/2) > 0`, a sphere
of any radius whose camera-space centre, after the negation of `z`, lies strictly inside the
frustum (`near < z < far`, `|x| < aspect * tan(vfov/2) * z`, `|y| < tan(vfov/2) * z`) is
classified visible by `sphereInFrustum`; in particular the centre `(0, 0, (near + far) / 2)` with
radius 0 is visible. -/
theorem sphereInFrustum_inside (V : VecMath F Mat) (camera : DrawCamera F Mat) (sx sy : F)
    (hlaw : NormalizeLaw V) (hcam : ValidCamera V camera) (hs : SideLengths V camera sx sy) :
    (∀ (boundingSphere : float_3 F × F) (toCameraSpace toWorldSpace : Mat) (r : float_3 F),
      V.toCamera toCameraSpace toWorldSpace boundingSphere.1 = some r →
      camera.perspectiveInfo.nearP < r.z * -1 → r.z * -1 < camera.perspectiveInfo.farP →
      |r.x| < camera.perspectiveInfo.aspect * V.tan (camera.perspectiveInfo.vfov / 2)
        * (r.z * -1) →
      |r.y| < V.tan (camera.perspectiveInfo.vfov / 2) * (r.z * -1) →
      sphereInFrustum V boundingSphere (findFrustumInfo V camera) toCameraSpace toWorldSpace
        = true) ∧
    (∀ (centre : float_3 F) (toCameraSpace toWorldSpace : Mat),
      V.toCamera toCameraSpace toWorldSpace centre =
        some ⟨0, 0, -((camera.perspectiveInfo.nearP + camera.perspectiveInfo.farP) / 2)⟩ →
      sphereInFrustum V (centre, 0) (findFrustumInfo V camera) toCameraSpace toWorldSpace
        = true) := by
  have main : ∀ (boundingSphere : float_3 F × F) (toCameraSpace toWorldSpace : Mat)
      (r : float_3 F),
      V.toCamera toCameraSpace toWorldSpace boundingSphere.1 = some r →
      camera.perspectiveInfo.nearP < r.z * -1 → r.z * -1 < camera.perspectiveInfo.farP →
      |r.x| < camera.perspectiveInfo.aspect * V.tan (camera.perspectiveInfo.vfov / 2)
        * (r.z * -1) →
      |r.y| < V.tan (camera.perspectiveInfo.vfov / 2) * (r.z * -1) →
      sphereInFrustum V boundingSphere (findFrustumInfo V camera) toCameraSpace toWorldSpace
        = true := by
    intro sphere cs ws r hr hnz hzf hx hy
    obtain ⟨hkx0, hkx, hky0, hky⟩ := sideLengths_k V camera sx sy hs
    obtain ⟨hn, hnf, hA, hT⟩ := hcam
    obtain ⟨c1, c2, c3, c4, -⟩ :=
      closestPoints_sides V camera sx sy ⟨r.x, r.y, r.z * -1⟩ hlaw hnf hs
    have hAT : 0 < camera.perspectiveInfo.aspect * V.tan (camera.perspectiveInfo.vfov / 2) :=
      mul_pos hA hT
    have hx1 := (abs_lt.mp hx).1
    have hx2 := (abs_lt.mp hx).2
    have hy1 := (abs_lt.mp hy).1
    have hy2 := (abs_lt.mp hy).2
    have i1 := lt_sideCoord _ _ camera.perspectiveInfo.nearP _ r.x (r.z * -1) hAT hkx hzf hx2
    have i2 := lt_sideCoord _ _ camera.perspectiveInfo.nearP _ (-r.x) (r.z * -1) hAT hkx hzf
      (by linarith)
    have i3 := lt_sideCoord _ _ camera.perspectiveInfo.nearP _ r.y (r.z * -1) hT hky hzf hy2
    have i4 := lt_sideCoord _ _ camera.perspectiveInfo.nearP _ (-r.y) (r.z * -1) hT hky hzf
      (by linarith)
    have hin : r.x < (closestPoints (findFrustumInfo V camera) ⟨r.x, r.y, r.z * -1⟩).rightPoint.x ∧
        r.x > (closestPoints (findFrustumInfo V camera) ⟨r.x, r.y, r.z * -1⟩).leftPoint.x ∧
        r.y < (closestPoints (findFrustumInfo V camera) ⟨r.x, r.y, r.z * -1⟩).topPoint.y ∧
        r.y > (closestPoints (findFrustumInfo V camera) ⟨r.x, r.y, r.z * -1⟩).bottomPoint.y ∧
        r.z * -1 > (findFrustumInfo V camera).nearZ ∧
        r.z * -1 < (findFrustumInfo V camera).farZ := by
      rw [c1, c2, c3, c4]
      exact ⟨i1, by linarith, i3, by linarith, hnz, hzf⟩
    simp only [sphereInFrustum, hr]
    rw [if_pos hin]
    simp
  refine ⟨main, ?_⟩
  intro centre cs ws hr
  obtain ⟨hn, hnf, hA, hT⟩ := hcam
  have hmid1 : camera.perspectiveInfo.nearP <
      -((camera.perspectiveInfo.nearP + camera.perspectiveInfo.farP) / 2) * -1 := by linarith
  have hmid2 : -((camera.perspectiveInfo.nearP + camera.perspectiveInfo.farP) / 2) * -1 <
      camera.perspectiveInfo.farP := by linarith
  have hpos : 0 < -((camera.perspectiveInfo.nearP + camera.perspectiveInfo.farP) / 2) * -1 := by
    linarith
  refine main (centre, 0) cs ws _ hr hmid1 hmid2 ?_ ?_
  · rw [abs_zero]
    exact mul_pos (mul_pos hA hT) hpos
  · rw [abs_zero]
    exact mul_pos hT hpos

/-- An instance of C17: for the camera with `tan(vfov/2) = 3/4`, aspect 1, near 1 and far 3 the
sphere whose centre becomes `(0, 0, 2)` in camera space, with radius 0, is visible. -/
theorem sphereInFrustum_inside_witness :
    sphereInFrustum evalVec (⟨0, 0, -2⟩, 0) (findFrustumInfo evalVec demoCamera)
      ⟨0, 0, 0⟩ ⟨0, 0, 0⟩ = true :=
  (sphereInFrustum_inside evalVec demoCamera (5 / 4) (5 / 4) evalVec_normalizeLaw
    demoCamera_valid demoCamera_sideLengths).2 ⟨0, 0, -2⟩ ⟨0, 0, 0⟩ ⟨0, 0, 0⟩
    (by norm_num [evalVec, demoCamera, float_3.add])

theorem not_within_of_lt (V : VecMath F Mat) (hnorm : NormSound V) (v : float_3 F) (r : F)
    (hr : 0 ≤ r) (h : r * r < v.dot v) : ¬ V.norm v ≤ r :=
  fun hle => absurd (hnorm v r hr hle) (not_le.mpr h)

theorem not_within_of_depth (V : VecMath F Mat) (hnorm : NormSound V) (p q : float_3 F)
    (h : 1 ≤ p.z - q.z) : ¬ V.norm (p.sub q) ≤ 1 / 100 := by
  apply not_within_of_lt V hnorm _ _ (by norm_num)
  simp only [float_3.dot, float_3.sub]
  nlinarith [mul_self_nonneg (p.x - q.x), mul_self_nonneg (p.y - q.y)]

/-- The depth of the near and of the far candidate is the near and the far plane distance. -/
theorem closestPoints_near_far (V : VecMath F Mat) (camera : DrawCamera F Mat)
    (p : float_3 F) :
    (closestPoints (findFrustumInfo V camera) p).nearPoint.z = camera.perspectiveInfo.nearP ∧
      (closestPoints (findFrustumInfo V camera) p).farPoint.z = camera.perspectiveInfo.farP := by
  simp only [closestPoints, projectOnPlane, findFrustumInfo, float_3.sub, float_3.dot,
    float_3.scale]
  constructor <;> ring

/-- C18: for every camera with `0 < near < far`, `far ≥ 1`, `aspect > 0` and
`tan(vfov/2) > 0`, a sphere whose camera-space centre, after the negation of `z`, is
`(0, 0, 10 far)` with radius 0.01 is classified not visible by `sphereInFrustum`: none of the six
closest-point candidates is within 0.01 of the centre and the inside test fails. -/
theorem sphereInFrustum_far_outside (V : VecMath F Mat) (camera : DrawCamera F Mat) (sx sy : F)
    (centre : float_3 F) (toCameraSpace toWorldSpace : Mat)
    (hlaw : NormalizeLaw V) (hnorm : NormSound V) (hcam : ValidCamera V camera)
    (hs : SideLengths V camera sx sy) (hfar : 1 ≤ camera.perspectiveInfo.farP)
    (hr : V.toCamera toCameraSpace toWorldSpace centre =
      some ⟨0, 0, -(10 * camera.perspectiveInfo.farP)⟩) :
    (¬ V.norm ((⟨0, 0, 10 * camera.perspectiveInfo.farP⟩ : float_3 F).sub
        (closestPoints (findFrustumInfo V camera)
          ⟨0, 0, 10 * camera.perspectiveInfo.farP⟩).nearPoint) ≤ 1 / 100) ∧
      (¬ V.norm ((⟨0, 0, 10 * camera.perspectiveInfo.farP⟩ : float_3 F).sub
        (closestPoints (findFrustumInfo V camera)
          ⟨0, 0, 10 * camera.perspectiveInfo.farP⟩).farPoint) ≤ 1 / 100) ∧
      (¬ V.norm ((⟨0, 0, 10 * camera.perspectiveInfo.farP⟩ : float_3 F).sub
        (closestPoints (findFrustumInfo V camera)
          ⟨0, 0, 10 * camera.perspectiveInfo.farP⟩).topPoint) ≤ 1 / 100) ∧
      (¬ V.norm ((⟨0, 0, 10 * camera.perspectiveInfo.farP⟩ : float_3 F).sub
        (closestPoints (findFrustumInfo V camera)
          ⟨0, 0, 10 * camera.perspectiveInfo.farP⟩).bottomPoint) ≤ 1 / 100) ∧
      (¬ V.norm ((⟨0, 0, 10 * camera.perspectiveInfo.farP⟩ : float_3 F).sub
        (closestPoints (findFrustumInfo V camera)
          ⟨0, 0, 10 * camera.perspectiveInfo.farP⟩).leftPoint) ≤ 1 / 100) ∧
      (¬ V.norm ((⟨0, 0, 10 * camera.perspectiveInfo.farP⟩ : float_3 F).sub
        (closestPoints (findFrustumInfo V camera)
          ⟨0, 0, 10 * camera.perspectiveInfo.farP⟩).rightPoint) ≤ 1 / 100) ∧
      ¬ (10 * camera.perspectiveInfo.farP < (findFrustumInfo V camera).farZ) ∧
      sphereInFrustum V (centre, 1 / 100) (findFrustumInfo V camera) toCameraSpace toWorldSpace
        = false := by
  obtain ⟨hkx0, hkx, hky0, hky⟩ := sideLengths_k V camera sx sy hs
  obtain ⟨hn, hnf, hA, hT⟩ := hcam
  obtain ⟨-, -, -, -, c5, c6, c7, c8⟩ :=
    closestPoints_sides V camera sx sy ⟨0, 0, 10 * camera.perspectiveInfo.farP⟩ hlaw hnf hs
  obtain ⟨c1, c2⟩ := closestPoints_near_far V camera ⟨0, 0, 10 * camera.perspectiveInfo.farP⟩
  have hf0 : 0 ≤ camera.perspectiveInfo.farP := by linarith
  have hz0 : 0 ≤ 10 * camera.perspectiveInfo.farP := by linarith
  have dx := sideDepth_axis_le
    (camera.perspectiveInfo.aspect * V.tan (camera.perspectiveInfo.vfov / 2)) _
    camera.perspectiveInfo.nearP camera.perspectiveInfo.farP _ hkx0 hkx (le_of_lt hnf) hf0 hz0
  have dy := sideDepth_axis_le (V.tan (camera.perspectiveInfo.vfov / 2)) _
    camera.perspectiveInfo.nearP camera.perspectiveInfo.farP _ hky0 hky (le_of_lt hnf) hf0 hz0
  simp only [neg_zero] at c6 c8
  dsimp only at c5 c7
  have n1 := not_within_of_depth V hnorm ⟨0, 0, 10 * camera.perspectiveInfo.farP⟩
    (closestPoints (findFrustumInfo V camera) ⟨0, 0, 10 * camera.perspectiveInfo.farP⟩).nearPoint
    (by rw [c1]; dsimp only; linarith)
  have n2 := not_within_of_depth V hnorm ⟨0, 0, 10 * camera.perspectiveInfo.farP⟩
    (closestPoints (findFrustumInfo V camera) ⟨0, 0, 10 * camera.perspectiveInfo.farP⟩).farPoint
    (by rw [c2]; dsimp only; linarith)
  have n3 := not_within_of_depth V hnorm ⟨0, 0, 10 * camera.perspectiveInfo.farP⟩
    (closestPoints (findFrustumInfo V camera) ⟨0, 0, 10 * camera.perspectiveInfo.farP⟩).topPoint
    (by rw [c7]; dsimp only; linarith)
  have n4 := not_within_of_depth V hnorm ⟨0, 0, 10 * camera.perspectiveInfo.farP⟩
    (closestPoints (findFrustumInfo V camera)
      ⟨0, 0, 10 * camera.perspectiveInfo.farP⟩).bottomPoint
    (by rw [c8]; dsimp only; linarith)
  have n5 := not_within_of_depth V hnorm ⟨0, 0, 10 * camera.perspectiveInfo.farP⟩
    (closestPoints (findFrustumInfo V camera) ⟨0, 0, 10 * camera.perspectiveInfo.farP⟩).leftPoint
    (by rw [c6]; dsimp only; linarith)
  have n6 := not_within_of_depth V hnorm ⟨0, 0, 10 * camera.perspectiveInfo.farP⟩
    (closestPoints (findFrustumInfo V camera)
      ⟨0, 0, 10 * camera.perspectiveInfo.farP⟩).rightPoint
    (by rw [c5]; dsimp only; linarith)
  have hz : ¬ (10 * camera.perspectiveInfo.farP < (findFrustumInfo V camera).farZ) := by
    show ¬ (10 * camera.perspectiveInfo.farP < camera.perspectiveInfo.farP)
    linarith
  refine ⟨n1, n2, n3, n4, n5, n6, hz, ?_⟩
  have hneg : -(10 * camera.perspectiveInfo.farP) * -1 = 10 * camera.perspectiveInfo.farP := by
    ring
  simp only [sphereInFrustum, hr, hneg]
  rw [if_neg n1, if_neg n2, if_neg n3, if_neg n4, if_neg n5, if_neg n6, if_neg]
  intro h
  exact hz h.2.2.2.2.2

/-- An instance of C18: for the camera with `tan(vfov/2) = 3/4`, aspect 1, near 1 and far 3 the
sphere whose centre becomes `(0, 0, 30)` in camera space, with radius 0.01, is not visible. -/
theorem sphereInFrustum_far_outside_witness :
    sphereInFrustum evalVec (⟨0, 0, -30⟩, 1 / 100) (findFrustumInfo evalVec demoCamera)
      ⟨0, 0, 0⟩ ⟨0, 0, 0⟩ = false :=
  (sphereInFrustum_far_outside evalVec demoCamera (5 / 4) (5 / 4) ⟨0, 0, -30⟩ ⟨0, 0, 0⟩
    ⟨0, 0, 0⟩ evalVec_normalizeLaw evalVec_normSound demoCamera_valid demoCamera_sideLengths
    (by norm_num [demoCamera])
    (by norm_num [evalVec, demoCamera, float_3.add])).2.2.2.2.2.2.2

/-- The frustum of the camera with `tan(vfov/2) = 3/4`, aspect 1, near plane 1 and far plane 3,
as `findFrustumInfo` returns it when `normalize()` divides by the length. -/
theorem findFrustumInfo_demo (V : VecMath F Mat) (vfov : F) (tr : Mat)
    (hlaw : NormalizeLaw V) (hT : V.tan (vfov / 2) = 3 / 4) :
    findFrustumInfo V ⟨⟨vfov, 1, 1, 3⟩, tr⟩ =
      { topNormal := ⟨0, -4 / 5, 3 / 5⟩, bottomNormal := ⟨0, 4 / 5, 3 / 5⟩,
        nearNormal := ⟨0, 0, 1⟩, farNormal := ⟨0, 0, -1⟩,
        leftNormal := ⟨-4 / 5, 0, -3 / 5⟩, rightNormal := ⟨4 / 5, 0, -3 / 5⟩,
        topOrigin := ⟨0, 3 / 2, 2⟩, bottomOrigin := ⟨0, -3 / 2, 2⟩,
        nearOrigin := ⟨0, 0, 1⟩, farOrigin := ⟨0, 0, 3⟩,
        leftOrigin := ⟨-3 / 2, 0, 2⟩, rightOrigin := ⟨3 / 2, 0, 2⟩,
        nearBottom := -3 / 4, nearTop := 3 / 4, nearLeft := -3 / 4, nearRight := 3 / 4,
        farTop := 9 / 4, farLeft := -9 / 4, farRight := 9 / 4, farBottom := -9 / 4,
        farZ := 3, nearZ := 1 } := by
  have hs : SideLengths V (⟨⟨vfov, 1, 1, 3⟩, tr⟩ : DrawCamera F Mat) (5 / 4) (5 / 4) := by
    unfold SideLengths
    simp only [hT]
    norm_num
  obtain ⟨hr, hl, ht, hb⟩ := findFrustumInfo_normals V ⟨⟨vfov, 1, 1, 3⟩, tr⟩ (5 / 4) (5 / 4)
    hlaw (by norm_num) hs
  simp only [findFrustumInfo, hT] at hr hl ht hb
  simp only [findFrustumInfo, hT, hr, hl, ht, hb]
  norm_num

/-- The code at the failing input of C19: for the camera with `tan(vfov/2) = 3/4`, aspect 1,
near 1 and far 3, and the sphere whose centre becomes `(5/2, 5/2, 1/2)` in camera space (after
the negation of `z`) with radius `21/10`, the point `(3/2, 3/2, 2)` lies on the frustum volume
and in the closed ball, at squared distance `17/4 ≤ 441/100`, and `sphereInFrustum` returns
false: the six candidates (listed as near, far, right, left, top, bottom) are at squared
distance `11849/2500` or more and the centre is not inside. -/
theorem sphereInFrustum_culls_intersecting (V : VecMath F Mat) (vfov : F)
    (tr toCameraSpace toWorldSpace : Mat) (centre : float_3 F)
    (hlaw : NormalizeLaw V) (hnorm : NormSound V) (hT : V.tan (vfov / 2) = 3 / 4)
    (hr : V.toCamera toCameraSpace toWorldSpace centre = some ⟨5 / 2, 5 / 2, -(1 / 2)⟩) :
    ValidCamera V ⟨⟨vfov, 1, 1, 3⟩, tr⟩ ∧
      InFrustumVolume V ⟨⟨vfov, 1, 1, 3⟩, tr⟩ ⟨3 / 2, 3 / 2, 2⟩ ∧
      InBall (⟨5 / 2, 5 / 2, 1 / 2⟩ : float_3 F) (21 / 10) ⟨3 / 2, 3 / 2, 2⟩ ∧
      closestPoints (findFrustumInfo V ⟨⟨vfov, 1, 1, 3⟩, tr⟩) ⟨5 / 2, 5 / 2, 1 / 2⟩ =
        Candidates.mk ⟨3 / 4, 3 / 4, 1⟩ ⟨9 / 4, 9 / 4, 3⟩ ⟨57 / 50, 57 / 50, 38 / 25⟩
          ⟨-303 / 1250, 3 / 4, 202 / 625⟩ ⟨57 / 50, 57 / 50, 38 / 25⟩
          ⟨3 / 4, -303 / 1250, 202 / 625⟩ ∧
      sphereInFrustum V (centre, 21 / 10) (findFrustumInfo V ⟨⟨vfov, 1, 1, 3⟩, tr⟩)
        toCameraSpace toWorldSpace = false := by
  have hc : closestPoints (findFrustumInfo V ⟨⟨vfov, 1, 1, 3⟩, tr⟩) ⟨5 / 2, 5 / 2, 1 / 2⟩ =
      Candidates.mk ⟨3 / 4, 3 / 4, 1⟩ ⟨9 / 4, 9 / 4, 3⟩ ⟨57 / 50, 57 / 50, 38 / 25⟩
        ⟨-303 / 1250, 3 / 4, 202 / 625⟩ ⟨57 / 50, 57 / 50, 38 / 25⟩
        ⟨3 / 4, -303 / 1250, 202 / 625⟩ := by
    rw [findFrustumInfo_demo V vfov tr hlaw hT]
    norm_num [closestPoints, projectOnPlane, clampLoHi, clampHiLo, float_3.sub, float_3.dot,
      float_3.scale]
  refine ⟨?_, ?_, ?_, hc, ?_⟩
  · unfold ValidCamera
    simp only [hT]
    norm_num
  · unfold InFrustumVolume
    simp only [hT]
    norm_num [abs_of_pos]
  · unfold InBall
    norm_num [float_3.sub, float_3.dot]
  · have hneg : (-(1 / 2) : F) * -1 = 1 / 2 := by norm_num
    have hfz : (findFrustumInfo V ⟨⟨vfov, 1, 1, 3⟩, tr⟩).nearZ = 1 := rfl
    have hw : ∀ q : float_3 F, (21 / 10 : F) * (21 / 10) <
        ((⟨5 / 2, 5 / 2, 1 / 2⟩ : float_3 F).sub q).dot ((⟨5 / 2, 5 / 2, 1 / 2⟩ : float_3 F).sub q) →
        ¬ V.norm ((⟨5 / 2, 5 / 2, 1 / 2⟩ : float_3 F).sub q) ≤ 21 / 10 :=
      fun q h => not_within_of_lt V hnorm _ _ (by norm_num) h
    simp only [sphereInFrustum, hr, hneg, hc, hfz]
    rw [if_neg (hw _ (by norm_num [float_3.sub, float_3.dot])),
      if_neg (hw _ (by norm_num [float_3.sub, float_3.dot])),
      if_neg (hw _ (by norm_num [float_3.sub, float_3.dot])),
      if_neg (hw _ (by norm_num [float_3.sub, float_3.dot])),
      if_neg (hw _ (by norm_num [float_3.sub, float_3.dot])),
      if_neg (hw _ (by norm_num [float_3.sub, float_3.dot])), if_neg]
    norm_num

/-- The failing input of C19 evaluated on the operations over `ℚ`: the sphere with centre
`(5/2, 5/2, -1/2)` and radius `21/10` is culled although the point `(3/2, 3/2, 2)` of the
frustum lies in its ball. -/
theorem sphereInFrustum_culls_intersecting_witness :
    InFrustumVolume evalVec demoCamera ⟨3 / 2, 3 / 2, 2⟩ ∧
      InBall (⟨5 / 2, 5 / 2, 1 / 2⟩ : float_3 ℚ) (21 / 10) ⟨3 / 2, 3 / 2, 2⟩ ∧
      sphereInFrustum evalVec (⟨5 / 2, 5 / 2, -(1 / 2)⟩, 21 / 10)
        (findFrustumInfo evalVec demoCamera) ⟨0, 0, 0⟩ ⟨0, 0, 0⟩ = false := by
  have h := sphereInFrustum_culls_intersecting evalVec (3 / 2) (⟨0, 0, 0⟩ : float_3 ℚ)
    ⟨0, 0, 0⟩ ⟨0, 0, 0⟩ ⟨5 / 2, 5 / 2, -(1 / 2)⟩ evalVec_normalizeLaw evalVec_normSound
    (by norm_num [evalVec]) (by norm_num [evalVec, float_3.add])
  exact ⟨h.2.1, h.2.2.1, h.2.2.2.2⟩

end SphereTest

/-! ## Culling of the instance pools -/

section CullingFacts

variable {F Mat : Type} {α : Type}

theorem foldlM_range_inv {σ ε : Type} (f : σ → Nat → Except ε σ) (P : Nat → σ → Prop) (n : Nat)
    (s0 : σ) (h0 : P 0 s0)
    (hstep : ∀ k s, k < n → P k s → ∃ s1, f s k = .ok s1 ∧ P (k + 1) s1) :
    ∃ s1, (List.range n).foldlM f s0 = .ok s1 ∧ P n s1 := by
  induction n with
  | zero => exact ⟨s0, rfl, h0⟩
  | succ n ih =>
    obtain ⟨s1, h1, p1⟩ := ih (fun k s hk hp => hstep k s (Nat.lt_succ_of_lt hk) hp)
    obtain ⟨s2, h2, p2⟩ := hstep n s1 (Nat.lt_succ_self n) p1
    refine ⟨s2, ?_, p2⟩
    rw [List.range_succ, List.foldlM_append, h1]
    simp [ok_bind, h2, pure_eq_ok]

theorem getAt_of_some (e : CullFault) (xs : List α) (i : Nat) (v : α) (h : xs[i]? = some v) :
    getAt e xs i = .ok v := by
  simp [getAt, h]

theorem getAtInt_of_some (e : CullFault) (xs : List α) (i : Int) (v : α) (h0 : 0 ≤ i)
    (h : xs[i.toNat]? = some v) : getAtInt e xs i = .ok v := by
  simp [getAtInt, h0, getAt, h]

theorem clearAt_of_lt (pools : List (List α)) (pool : Nat) (h : pool < pools.length) :
    clearAt pools pool = .ok (pools.set pool []) := by
  simp [clearAt, h]

theorem pushBack_set (pools : List (List α)) (pool : Nat) (xs : List α) (x : α)
    (h : pool < pools.length) :
    pushBack (pools.set pool xs) pool x = .ok (pools.set pool (xs ++ [x])) := by
  simp [pushBack, List.getElem?_set, h]

theorem keptPositions_zero (keep : Nat → Bool) : keptPositions keep 0 = [] := rfl

theorem keptPositions_succ (keep : Nat → Bool) (n : Nat) :
    keptPositions keep (n + 1) = keptPositions keep n ++ (if keep n then [n] else []) := by
  unfold keptPositions
  rw [List.range_succ, List.filter_append]
  cases h : keep n <;> simp [h]

theorem takeAt_append (xs : List α) (ks js : List Nat) :
    takeAt xs (ks ++ js) = takeAt xs ks ++ takeAt xs js := by
  simp [takeAt, List.filterMap_append]

theorem takeAt_single (xs : List α) (k : Nat) (x : α) (h : xs[k]? = some x) :
    takeAt xs [k] = [x] := by
  simp [takeAt, h]

theorem takeAt_range (xs : List α) (n : Nat) : takeAt xs (List.range n) = xs.take n := by
  induction n with
  | zero => simp [takeAt]
  | succ n ih =>
    rw [List.range_succ, takeAt_append, ih, List.take_succ]
    cases h : xs[n]? <;> simp [takeAt, h]

theorem takeAt_all (xs : List α) : takeAt xs (List.range xs.length) = xs := by
  rw [takeAt_range, List.take_length]

theorem keptPositions_all (keep : Nat → Bool) (n : Nat) (h : ∀ k, k < n → keep k = true) :
    keptPositions keep n = List.range n := by
  unfold keptPositions
  rw [List.filter_eq_self]
  intro k hk
  exact h k (List.mem_range.mp hk)

variable [LinearOrderedField F]

/-- One step of the inner loop of `cullInstances`, on a state whose three visible vectors hold
`xa`, `xb` and `xc` at `pool`: the three lists grow by the elements at position `k` of the three
stores when the condition holds, and stay as they are when it does not. -/
theorem cullInstance_eq (V : VecMath F Mat) (info : frustumInfo F) (cameraSpace : Mat)
    (s : State F Mat) (pool k : Nat) (a b c : List (List Mat)) (store env nrm xa xb xc : List Mat)
    (hs : s.transformInstPoolsStore[pool]? = some store)
    (he : s.transformEnvironmentInstPoolsStore[pool]? = some env)
    (hn : s.transformNormalInstPoolsStore[pool]? = some nrm)
    (hk : k < store.length) (hke : k < env.length) (hkn : k < nrm.length)
    (ha : pool < a.length) (hb : pool < b.length) (hc : pool < c.length)
    (hcull : s.useCulling = true → ∃ index, s.transformInstIndexPools[pool]? = some index ∧
      0 ≤ index ∧ index.toNat < s.boundingSpheresInst.length) :
    cullInstance V info cameraSpace pool
        { s with transformInstPools := a.set pool xa,
                 transformEnvironmentInstPools := b.set pool xb,
                 transformNormalInstPools := c.set pool xc } k =
      .ok { s with
        transformInstPools := a.set pool
          (xa ++ takeAt store (if instanceKept V s info cameraSpace pool k then [k] else []))
        transformEnvironmentInstPools := b.set pool
          (xb ++ takeAt env (if instanceKept V s info cameraSpace pool k then [k] else []))
        transformNormalInstPools := c.set pool
          (xc ++ takeAt nrm (if instanceKept V s info cameraSpace pool k then [k] else [])) } := by
  have h1 : store[k]? = some store[k] := List.getElem?_eq_getElem hk
  have h2 : env[k]? = some env[k] := List.getElem?_eq_getElem hke
  have h3 : nrm[k]? = some nrm[k] := List.getElem?_eq_getElem hkn
  cases hu : s.useCulling
  · have hkept : instanceKept V s info cameraSpace pool k = true := by
      simp [instanceKept, hu]
    rw [hkept]
    simp only [cullInstance, hu, Bool.not_false, if_true, getAt_of_some _ _ _ _ hs,
      getAt_of_some _ _ _ _ he,
      getAt_of_some _ _ _ _ hn, getAt_of_some _ _ _ _ h1, getAt_of_some _ _ _ _ h2,
      getAt_of_some _ _ _ _ h3, ok_bind, pushBack_set _ _ _ _ ha, pushBack_set _ _ _ _ hb,
      pushBack_set _ _ _ _ hc, pure_eq_ok, takeAt_single _ _ _ h1, takeAt_single _ _ _ h2,
      takeAt_single _ _ _ h3]
  · obtain ⟨index, hi, hi0, hlt⟩ := hcull hu
    have hsph : s.boundingSpheresInst[index.toNat]? = some s.boundingSpheresInst[index.toNat] :=
      List.getElem?_eq_getElem hlt
    have hkept : instanceKept V s info cameraSpace pool k =
        sphereInFrustum V s.boundingSpheresInst[index.toNat] info cameraSpace store[k] := by
      simp [instanceKept, hu, hi, hs, hsph, h1]
    rw [hkept]
    simp only [cullInstance, hu, Bool.not_true, Bool.false_eq_true, if_false,
      getAt_of_some _ _ _ _ hi, getAtInt_of_some _ _ _ _ hi0 hsph, getAt_of_some _ _ _ _ hs,
      getAt_of_some _ _ _ _ h1, ok_bind, pure_eq_ok]
    generalize sphereInFrustum V s.boundingSpheresInst[index.toNat] info cameraSpace store[k] = w
    cases w
    · simp [takeAt, pure_eq_ok]
    · simp only [if_true, getAt_of_some _ _ _ _ hs, getAt_of_some _ _ _ _ he,
        getAt_of_some _ _ _ _ hn, getAt_of_some _ _ _ _ h1, getAt_of_some _ _ _ _ h2,
        getAt_of_some _ _ _ _ h3, ok_bind, pushBack_set _ _ _ _ ha, pushBack_set _ _ _ _ hb,
        pushBack_set _ _ _ _ hc, pure_eq_ok, takeAt_single _ _ _ h1, takeAt_single _ _ _ h2,
        takeAt_single _ _ _ h3]

end CullingFacts

section CullingInstances

variable {F Mat : Type} [LinearOrderedField F]

theorem shape_lookup {α β : Type} (xss : List (List α)) (yss : List (List β)) (p : Nat)
    (ys : List β) (h : xss.map List.length = yss.map List.length) (hy : yss[p]? = some ys) :
    ∃ xs, xss[p]? = some xs ∧ xs.length = ys.length := by
  have h1 := congrArg (fun l => l[p]?) h
  simp only [List.getElem?_map, hy, Option.map_some'] at h1
  cases hx : xss[p]? with
  | none => simp [hx] at h1
  | some xs =>
    refine ⟨xs, rfl, ?_⟩
    simpa [hx] using h1

/-- The outer-loop body of `cullInstances` on a state whose three visible vectors are `a`, `b`
and `c`: at `pool` they become the sublists of the three stores at the kept positions. -/
theorem cullInstancePool_eq (V : VecMath F Mat) (info : frustumInfo F) (cameraSpace : Mat)
    (s : State F Mat) (pool : Nat) (a b c : List (List Mat)) (store env nrm : List Mat)
    (hs : s.transformInstPoolsStore[pool]? = some store)
    (he : s.transformEnvironmentInstPoolsStore[pool]? = some env)
    (hn : s.transformNormalInstPoolsStore[pool]? = some nrm)
    (hle : env.length = store.length) (hln : nrm.length = store.length)
    (ha : pool < a.length) (hb : pool < b.length) (hc : pool < c.length)
    (hcull : s.useCulling = true → ∃ index, s.transformInstIndexPools[pool]? = some index ∧
      0 ≤ index ∧ index.toNat < s.boundingSpheresInst.length) :
    cullInstancePool V info cameraSpace
        { s with transformInstPools := a, transformEnvironmentInstPools := b,
                 transformNormalInstPools := c } pool =
      .ok { s with
        transformInstPools := a.set pool
          (takeAt store (keptPositions (instanceKept V s info cameraSpace pool) store.length))
        transformEnvironmentInstPools := b.set pool
          (takeAt env (keptPositions (instanceKept V s info cameraSpace pool) store.length))
        transformNormalInstPools := c.set pool
          (takeAt nrm (keptPositions (instanceKept V s info cameraSpace pool) store.length)) } := by
  simp only [cullInstancePool, clearAt_of_lt _ _ ha, clearAt_of_lt _ _ hb, clearAt_of_lt _ _ hc,
    getAt_of_some _ _ _ _ hs, ok_bind]
  obtain ⟨s1, h1, p1⟩ := foldlM_range_inv (cullInstance V info cameraSpace pool)
    (fun k t => t = { s with
        transformInstPools := a.set pool
          (takeAt store (keptPositions (instanceKept V s info cameraSpace pool) k))
        transformEnvironmentInstPools := b.set pool
          (takeAt env (keptPositions (instanceKept V s info cameraSpace pool) k))
        transformNormalInstPools := c.set pool
          (takeAt nrm (keptPositions (instanceKept V s info cameraSpace pool) k)) })
    store.length
    { s with transformInstPools := a.set pool [], transformEnvironmentInstPools := b.set pool [],
             transformNormalInstPools := c.set pool [] }
    (by simp [keptPositions_zero, takeAt])
    (by
      intro k t hk ht
      refine ⟨_, ?_, rfl⟩
      rw [ht, cullInstance_eq V info cameraSpace s pool k a b c store env nrm _ _ _ hs he hn hk
        (by omega) (by omega) ha hb hc hcull, keptPositions_succ, takeAt_append, takeAt_append,
        takeAt_append])
  rw [h1, p1]

end CullingInstances

section CullingInstancesMain

variable {F Mat : Type} [LinearOrderedField F]

/-- The result of `cullInstances` on a well-formed state: it returns, only the three visible
vectors change, each gets the size of the store, and at every pool the three visible lists are
the sublists of the three stores at the kept positions. -/
theorem cullInstances_ok (V : VecMath F Mat) (W : MatMath F Mat) (s : State F Mat)
    (camera : DrawCamera F Mat) (hwf : InstancesWellFormed s)
    (hcam : s.cameras[s.currentCamera.toNat]? = some camera) :
    ∃ va vb vc : List (List Mat),
      cullInstances V W s =
        .ok { s with transformInstPools := va, transformEnvironmentInstPools := vb,
                     transformNormalInstPools := vc } ∧
      va.length = s.transformInstPoolsStore.length ∧
      vb.length = s.transformInstPoolsStore.length ∧
      vc.length = s.transformInstPoolsStore.length ∧
      ∀ pool store env nrm, s.transformInstPoolsStore[pool]? = some store →
        s.transformEnvironmentInstPoolsStore[pool]? = some env →
        s.transformNormalInstPoolsStore[pool]? = some nrm →
        va[pool]? = some (takeAt store (keptPositions (instanceKept V s (findFrustumInfo V camera)
          (getCameraSpace V W camera s.moveVec s.dirVec) pool) store.length)) ∧
        vb[pool]? = some (takeAt env (keptPositions (instanceKept V s (findFrustumInfo V camera)
          (getCameraSpace V W camera s.moveVec s.dirVec) pool) store.length)) ∧
        vc[pool]? = some (takeAt nrm (keptPositions (instanceKept V s (findFrustumInfo V camera)
          (getCameraSpace V W camera s.moveVec s.dirVec) pool) store.length)) := by
  obtain ⟨hc0, -, hle, heq, hse, hsn, hcull⟩ := hwf
  have hLe : s.transformEnvironmentInstPoolsStore.length = s.transformInstPoolsStore.length := by
    simpa using congrArg List.length hse
  have hLn : s.transformNormalInstPoolsStore.length = s.transformInstPoolsStore.length := by
    simpa using congrArg List.length hsn
  -- the state at the entry of the loop
  obtain ⟨va0, vb0, vc0, hentry, ha0, hb0, hc0⟩ : ∃ va0 vb0 vc0 : List (List Mat),
      cullInstances V W s = (List.range va0.length).foldlM
        (cullInstancePool V (findFrustumInfo V camera)
          (getCameraSpace V W camera s.moveVec s.dirVec))
        { s with transformInstPools := va0, transformEnvironmentInstPools := vb0,
                 transformNormalInstPools := vc0 } ∧
      va0.length = s.transformInstPoolsStore.length ∧
      vb0.length = s.transformInstPoolsStore.length ∧
      vc0.length = s.transformInstPoolsStore.length := by
    by_cases hlt : s.transformInstPools.length < s.transformInstPoolsStore.length
    · refine ⟨List.replicate s.transformInstPoolsStore.length [],
        List.replicate s.transformEnvironmentInstPoolsStore.length [],
        List.replicate s.transformNormalInstPoolsStore.length [], ?_, by simp, by simp [hLe],
        by simp [hLn]⟩
      simp only [cullInstances, hlt, if_true, getAtInt_of_some _ _ _ _ hc0 hcam, ok_bind]
    · have hl : s.transformInstPools.length = s.transformInstPoolsStore.length := by omega
      refine ⟨s.transformInstPools, s.transformEnvironmentInstPools, s.transformNormalInstPools,
        ?_, hl, (heq hl).1, (heq hl).2⟩
      simp only [cullInstances, hlt, if_false, getAtInt_of_some _ _ _ _ hc0 hcam, ok_bind]
  rw [hentry]
  obtain ⟨s1, h1, va, vb, vc, hs1, hla, hlb, hlc, hp⟩ := foldlM_range_inv
    (cullInstancePool V (findFrustumInfo V camera) (getCameraSpace V W camera s.moveVec s.dirVec))
    (fun m t => ∃ va vb vc : List (List Mat),
      t = { s with transformInstPools := va, transformEnvironmentInstPools := vb,
                   transformNormalInstPools := vc } ∧
      va.length = s.transformInstPoolsStore.length ∧
      vb.length = s.transformInstPoolsStore.length ∧
      vc.length = s.transformInstPoolsStore.length ∧
      ∀ pool, pool < m → ∀ store env nrm, s.transformInstPoolsStore[pool]? = some store →
        s.transformEnvironmentInstPoolsStore[pool]? = some env →
        s.transformNormalInstPoolsStore[pool]? = some nrm →
        va[pool]? = some (takeAt store (keptPositions (instanceKept V s (findFrustumInfo V camera)
          (getCameraSpace V W camera s.moveVec s.dirVec) pool) store.length)) ∧
        vb[pool]? = some (takeAt env (keptPositions (instanceKept V s (findFrustumInfo V camera)
          (getCameraSpace V W camera s.moveVec s.dirVec) pool) store.length)) ∧
        vc[pool]? = some (takeAt nrm (keptPositions (instanceKept V s (findFrustumInfo V camera)
          (getCameraSpace V W camera s.moveVec s.dirVec) pool) store.length)))
    va0.length
    { s with transformInstPools := va0, transformEnvironmentInstPools := vb0,
             transformNormalInstPools := vc0 }
    ⟨va0, vb0, vc0, rfl, ha0, hb0, hc0, fun pool hp => absurd hp (Nat.not_lt_zero pool)⟩
    (by
      rintro m t hm ⟨va, vb, vc, ht, hla, hlb, hlc, hp⟩
      have hmL : m < s.transformInstPoolsStore.length := by omega
      have hst : s.transformInstPoolsStore[m]? = some s.transformInstPoolsStore[m] :=
        List.getElem?_eq_getElem hmL
      obtain ⟨env, he, hel⟩ := shape_lookup _ _ m _ hse hst
      obtain ⟨nrm, hn, hnl⟩ := shape_lookup _ _ m _ hsn hst
      have hstep := cullInstancePool_eq V (findFrustumInfo V camera)
        (getCameraSpace V W camera s.moveVec s.dirVec) s m va vb vc _ env nrm hst he hn hel hnl
        (by omega) (by omega) (by omega) (fun hu => hcull hu m hmL)
      rw [← ht] at hstep
      refine ⟨_, hstep, _, _, _, rfl, by simpa using hla, by simpa using hlb,
        by simpa using hlc, ?_⟩
      intro pool hpl store1 env1 nrm1 hs1 he1 hn1
      rcases Nat.lt_succ_iff_lt_or_eq.mp hpl with hlt | heq
      · have hne : m ≠ pool := by omega
        rw [List.getElem?_set_ne hne, List.getElem?_set_ne hne, List.getElem?_set_ne hne]
        exact hp pool hlt store1 env1 nrm1 hs1 he1 hn1
      · subst heq
        rw [hst] at hs1
        rw [he] at he1
        rw [hn] at hn1
        cases hs1
        cases he1
        cases hn1
        simp [List.getElem?_set, hla, hlb, hlc, hmL])
  refine ⟨va, vb, vc, ?_, hla, hlb, hlc, ?_⟩
  · rw [h1, hs1]
  · intro pool store env nrm hs he hn
    have hpl : pool < va0.length := by
      rw [ha0]
      exact (List.getElem?_eq_some_iff.mp hs).1
    exact hp pool hpl store env nrm hs he hn

end CullingInstancesMain

section CullingDemo

theorem demo_cameraSpace :
    getCameraSpace evalVec evalMat demoCamera ⟨0, 0, 0⟩ ⟨0, 0, 1⟩ = ⟨0, 0, 0⟩ := by
  simp [getCameraSpace, evalMat, demoCamera, float_3.add]

theorem demo_sphere_visible :
    sphereInFrustum evalVec (⟨0, 0, 0⟩, 1 / 100) (findFrustumInfo evalVec demoCamera)
      ⟨0, 0, 0⟩ ⟨0, 0, -2⟩ = true := by
  have hf := findFrustumInfo_demo evalVec (3 / 2) (⟨0, 0, 0⟩ : float_3 ℚ) evalVec_normalizeLaw
    (by norm_num [evalVec])
  have hd : demoCamera = ⟨⟨3 / 2, 1, 1, 3⟩, ⟨0, 0, 0⟩⟩ := rfl
  rw [hd, hf]
  norm_num [sphereInFrustum, evalVec, closestPoints, projectOnPlane, clampLoHi, clampHiLo,
    float_3.sub, float_3.dot, float_3.scale, float_3.add]

theorem demo_sphere_culled :
    sphereInFrustum evalVec (⟨0, 0, 0⟩, 1 / 100) (findFrustumInfo evalVec demoCamera)
      ⟨0, 0, 0⟩ ⟨0, 0, -30⟩ = false := by
  have hf := findFrustumInfo_demo evalVec (3 / 2) (⟨0, 0, 0⟩ : float_3 ℚ) evalVec_normalizeLaw
    (by norm_num [evalVec])
  have hd : demoCamera = ⟨⟨3 / 2, 1, 1, 3⟩, ⟨0, 0, 0⟩⟩ := rfl
  rw [hd, hf]
  norm_num [sphereInFrustum, evalVec, closestPoints, projectOnPlane, clampLoHi, clampHiLo,
    float_3.sub, float_3.dot, float_3.scale, float_3.add]

theorem eq_singleton_of_lookup {α : Type} (l : List α) (x : α) (hl : l.length = 1)
    (h0 : l[0]? = some x) : l = [x] := by
  match l, hl with
  | [y], _ => simpa using h0

end CullingDemo

section CullingInstancesClaims

variable {F Mat : Type} [LinearOrderedField F]

/-- C21: on a well-formed state `cullInstances` returns; afterwards, for every instanced pool the
visible transform, environment-transform and normal-transform lists are the sublists of the
three store lists taken at exactly the positions `k` for which culling is disabled or
`sphereInFrustum(boundingSpheresInst[transformInstIndexPools[pool]], info, cameraSpace,
transformInstPoolsStore[pool][k])` is true, in the original order and at the same positions in
all three lists; when `useCulling` is false the three visible vectors equal the three stores. -/
theorem cullInstances_sublists (V : VecMath F Mat) (W : MatMath F Mat) (s : State F Mat)
    (camera : DrawCamera F Mat) (hwf : InstancesWellFormed s)
    (hcam : s.cameras[s.currentCamera.toNat]? = some camera) :
    ∃ s1, cullInstances V W s = .ok s1 ∧
      s1.transformInstPools.length = s.transformInstPoolsStore.length ∧
      s1.transformEnvironmentInstPools.length = s.transformEnvironmentInstPoolsStore.length ∧
      s1.transformNormalInstPools.length = s.transformNormalInstPoolsStore.length ∧
      (∀ pool store env nrm, s.transformInstPoolsStore[pool]? = some store →
        s.transformEnvironmentInstPoolsStore[pool]? = some env →
        s.transformNormalInstPoolsStore[pool]? = some nrm →
        s1.transformInstPools[pool]? = some (takeAt store (keptPositions
          (instanceKept V s (findFrustumInfo V camera)
            (getCameraSpace V W camera s.moveVec s.dirVec) pool) store.length)) ∧
        s1.transformEnvironmentInstPools[pool]? = some (takeAt env (keptPositions
          (instanceKept V s (findFrustumInfo V camera)
            (getCameraSpace V W camera s.moveVec s.dirVec) pool) store.length)) ∧
        s1.transformNormalInstPools[pool]? = some (takeAt nrm (keptPositions
          (instanceKept V s (findFrustumInfo V camera)
            (getCameraSpace V W camera s.moveVec s.dirVec) pool) store.length))) ∧
      (s.useCulling = false →
        s1.transformInstPools = s.transformInstPoolsStore ∧
        s1.transformEnvironmentInstPools = s.transformEnvironmentInstPoolsStore ∧
        s1.transformNormalInstPools = s.transformNormalInstPoolsStore) ∧
      s1.transformInstPoolsStore = s.transformInstPoolsStore ∧
      s1.transformEnvironmentInstPoolsStore = s.transformEnvironmentInstPoolsStore ∧
      s1.transformNormalInstPoolsStore = s.transformNormalInstPoolsStore := by
  obtain ⟨va, vb, vc, hrun, hla, hlb, hlc, hp⟩ := cullInstances_ok V W s camera hwf hcam
  obtain ⟨-, -, -, -, hse, hsn, -⟩ := hwf
  have hLe : s.transformEnvironmentInstPoolsStore.length = s.transformInstPoolsStore.length := by
    simpa using congrArg List.length hse
  have hLn : s.transformNormalInstPoolsStore.length = s.transformInstPoolsStore.length := by
    simpa using congrArg List.length hsn
  refine ⟨_, hrun, hla, by rw [hLe]; exact hlb, by rw [hLn]; exact hlc, hp, ?_, rfl, rfl, rfl⟩
  intro hu
  have hall : ∀ (pool n : Nat), keptPositions (instanceKept V s (findFrustumInfo V camera)
      (getCameraSpace V W camera s.moveVec s.dirVec) pool) n = List.range n := by
    intro pool n
    apply keptPositions_all
    intro k _
    simp [instanceKept, hu]
  have key : ∀ pool : Nat, va[pool]? = s.transformInstPoolsStore[pool]? ∧
      vb[pool]? = s.transformEnvironmentInstPoolsStore[pool]? ∧
      vc[pool]? = s.transformNormalInstPoolsStore[pool]? := by
    intro pool
    by_cases hpl : pool < s.transformInstPoolsStore.length
    · have hst : s.transformInstPoolsStore[pool]? = some s.transformInstPoolsStore[pool] :=
        List.getElem?_eq_getElem hpl
      obtain ⟨env, he, hel⟩ := shape_lookup _ _ pool _ hse hst
      obtain ⟨nrm, hn, hnl⟩ := shape_lookup _ _ pool _ hsn hst
      obtain ⟨h1, h2, h3⟩ := hp pool _ env nrm hst he hn
      rw [hall] at h1 h2 h3
      rw [takeAt_all] at h1
      rw [← hel, takeAt_all] at h2
      rw [← hnl, takeAt_all] at h3
      rw [h1, h2, h3, hst, he, hn]
      exact ⟨rfl, rfl, rfl⟩
    · rw [List.getElem?_eq_none (by omega), List.getElem?_eq_none (by omega),
        List.getElem?_eq_none (by omega), List.getElem?_eq_none (by omega),
        List.getElem?_eq_none (by omega), List.getElem?_eq_none (by omega)]
      exact ⟨rfl, rfl, rfl⟩
  refine ⟨?_, ?_, ?_⟩
  · apply List.ext_getElem?
    intro p
    exact (key p).1
  · apply List.ext_getElem?
    intro p
    exact (key p).2.1
  · apply List.ext_getElem?
    intro p
    exact (key p).2.2

/-- An instance of C21 with culling: of the two instances of the pool of `demoCull` the first is
in the frustum and the second is not, and the three visible lists keep position 0 only. -/
theorem cullInstances_sublists_witness :
    ∃ s1, cullInstances evalVec evalMat (demoCull true) = .ok s1 ∧
      s1.transformInstPools = [[⟨0, 0, -2⟩]] ∧
      s1.transformEnvironmentInstPools = [[⟨1, 0, 0⟩]] ∧
      s1.transformNormalInstPools = [[⟨0, 1, 0⟩]] := by
  obtain ⟨s1, hrun, hla, hlb, hlc, hp, -⟩ := cullInstances_sublists evalVec evalMat
    (demoCull true) demoCamera (by simp [InstancesWellFormed, demoCull]) rfl
  have hk : keptPositions (instanceKept evalVec (demoCull true)
      (findFrustumInfo evalVec demoCamera)
      (getCameraSpace evalVec evalMat demoCamera (demoCull true).moveVec (demoCull true).dirVec)
      0) 2 = [0] := by
    have hm : (demoCull true).moveVec = ⟨0, 0, 0⟩ := rfl
    have hd : (demoCull true).dirVec = ⟨0, 0, 1⟩ := rfl
    rw [hm, hd, demo_cameraSpace]
    have k0 : instanceKept evalVec (demoCull true) (findFrustumInfo evalVec demoCamera)
        ⟨0, 0, 0⟩ 0 0 = true := by
      simp only [instanceKept, demoCull]
      simpa using demo_sphere_visible
    have k1 : instanceKept evalVec (demoCull true) (findFrustumInfo evalVec demoCamera)
        ⟨0, 0, 0⟩ 0 1 = false := by
      simp only [instanceKept, demoCull]
      simpa using demo_sphere_culled
    simp [keptPositions, List.range_succ, List.filter_cons, k0, k1]
  obtain ⟨h1, h2, h3⟩ := hp 0 [⟨0, 0, -2⟩, ⟨0, 0, -30⟩] [⟨1, 0, 0⟩, ⟨2, 0, 0⟩]
    [⟨0, 1, 0⟩, ⟨0, 2, 0⟩] rfl rfl rfl
  rw [show ([(⟨0, 0, -2⟩ : float_3 ℚ), ⟨0, 0, -30⟩]).length = 2 from rfl, hk] at h1 h2 h3
  exact ⟨s1, hrun, eq_singleton_of_lookup _ _ hla h1, eq_singleton_of_lookup _ _ hlb h2,
    eq_singleton_of_lookup _ _ hlc h3⟩

end CullingInstancesClaims

/-! ## Culling of the index pools -/

section IndexCulling

variable {F Mat : Type} [LinearOrderedField F]

theorem insertRange_set {α : Type} (pools : List (List α)) (pool : Nat) (xs store : List α)
    (indexStart indexCount : Int) (h : pool < pools.length) (h0 : 0 ≤ indexStart)
    (h1 : 0 ≤ indexCount) (h2 : indexStart + indexCount ≤ (store.length : Int)) :
    insertRange (pools.set pool xs) pool store indexStart (indexCount + indexStart) =
      .ok (pools.set pool (xs ++ slice store indexStart indexCount)) := by
  have hc : 0 ≤ indexStart ∧ indexStart ≤ indexCount + indexStart ∧
      indexCount + indexStart ≤ (store.length : Int) := ⟨h0, by omega, by omega⟩
  have ht : (indexCount + indexStart).toNat - indexStart.toNat =
      (indexStart + indexCount).toNat - indexStart.toNat := by rw [add_comm]
  simp only [insertRange, List.getElem?_set, h, if_true, hc, and_self, List.set_set, slice,
    List.drop_take, ht]

/-- One step of the inner loop of `cullIndexPools`, on a state whose visible index vector holds
`xs` at `pool`: the list grows by the slice of node `k` when the condition holds. -/
theorem cullNode_eq (V : VecMath F Mat) (info : frustumInfo F) (cameraSpace : Mat)
    (s : State F Mat) (pool k : Nat) (va : List (List Nat)) (vv : List Bool)
    (store xs : List Nat) (nodes : List (DrawNode F))
    (hd : s.drawPools[pool]? = some nodes) (hs : s.indexPoolsStore[pool]? = some store)
    (hk : k < nodes.length) (ha : pool < va.length)
    (hr : ∀ n ∈ nodes, 0 ≤ n.indexStart ∧ 0 ≤ n.indexCount ∧
      n.indexStart + n.indexCount ≤ (store.length : Int))
    (hcull : s.useCulling = true → ∃ transforms, s.transformPools[pool]? = some transforms ∧
      nodes.length ≤ transforms.length) :
    cullNode V info cameraSpace pool
        { s with indexPools := va.set pool xs, indexBuffersValid := vv } k =
      .ok { s with
        indexPools := va.set pool (xs ++
          (takeAt nodes (if nodeKept V s info cameraSpace pool k then [k] else [])).flatMap
            (fun n => slice store n.indexStart n.indexCount))
        indexBuffersValid := vv } := by
  have h1 : nodes[k]? = some nodes[k] := List.getElem?_eq_getElem hk
  obtain ⟨r0, r1, r2⟩ := hr nodes[k] (List.getElem_mem hk)
  cases hu : s.useCulling
  · have hkept : nodeKept V s info cameraSpace pool k = true := by
      simp [nodeKept, hu]
    rw [hkept]
    simp only [cullNode, hu, Bool.not_false, if_true, getAt_of_some _ _ _ _ hd,
      getAt_of_some _ _ _ _ hs, getAt_of_some _ _ _ _ h1, ok_bind, pure_eq_ok,
      insertRange_set _ _ _ _ _ _ ha r0 r1 r2, takeAt_single _ _ _ h1, List.flatMap_cons,
      List.flatMap_nil, List.append_nil]
  · obtain ⟨transforms, ht, hlt⟩ := hcull hu
    have h2 : transforms[k]? = some transforms[k] := List.getElem?_eq_getElem (by omega)
    have hkept : nodeKept V s info cameraSpace pool k =
        sphereInFrustum V nodes[k].boundingSphere info cameraSpace transforms[k] := by
      simp [nodeKept, hu, hd, ht, h1, h2]
    rw [hkept]
    simp only [cullNode, hu, Bool.not_true, Bool.false_eq_true, if_false,
      getAt_of_some _ _ _ _ hd, getAt_of_some _ _ _ _ h1, getAt_of_some _ _ _ _ ht,
      getAt_of_some _ _ _ _ h2, ok_bind, pure_eq_ok]
    generalize sphereInFrustum V nodes[k].boundingSphere info cameraSpace transforms[k] = w
    cases w
    · simp [takeAt, pure_eq_ok]
    · simp only [if_true, getAt_of_some _ _ _ _ hd,
        getAt_of_some _ _ _ _ hs, getAt_of_some _ _ _ _ h1, ok_bind, pure_eq_ok,
        insertRange_set _ _ _ _ _ _ ha r0 r1 r2, takeAt_single _ _ _ h1, List.flatMap_cons,
        List.flatMap_nil, List.append_nil]

/-- The outer-loop body of `cullIndexPools` on a state whose visible index vector is `va`:
at `pool` it becomes the concatenation of the slices of the kept nodes. -/
theorem cullIndexPool_eq (V : VecMath F Mat) (info : frustumInfo F) (cameraSpace : Mat)
    (s : State F Mat) (pool : Nat) (va : List (List Nat)) (vv : List Bool)
    (store : List Nat) (nodes : List (DrawNode F))
    (hd : s.drawPools[pool]? = some nodes) (hs : s.indexPoolsStore[pool]? = some store)
    (ha : pool < va.length)
    (hr : ∀ n ∈ nodes, 0 ≤ n.indexStart ∧ 0 ≤ n.indexCount ∧
      n.indexStart + n.indexCount ≤ (store.length : Int))
    (hcull : s.useCulling = true → ∃ transforms, s.transformPools[pool]? = some transforms ∧
      nodes.length ≤ transforms.length) :
    cullIndexPool V info cameraSpace { s with indexPools := va, indexBuffersValid := vv } pool =
      .ok { s with
        indexPools := va.set pool
          (visibleIndices store nodes (nodeKept V s info cameraSpace pool))
        indexBuffersValid := vv } := by
  simp only [cullIndexPool, clearAt_of_lt _ _ ha, getAt_of_some _ _ _ _ hs,
    getAt_of_some _ _ _ _ hd, ok_bind]
  obtain ⟨s1, h1, p1⟩ := foldlM_range_inv (cullNode V info cameraSpace pool)
    (fun k t => t = { s with
        indexPools := va.set pool
          ((takeAt nodes (keptPositions (nodeKept V s info cameraSpace pool) k)).flatMap
            (fun n => slice store n.indexStart n.indexCount))
        indexBuffersValid := vv })
    nodes.length
    { s with indexPools := va.set pool [], indexBuffersValid := vv }
    (by simp [keptPositions_zero, takeAt])
    (by
      intro k t hk ht
      refine ⟨_, ?_, rfl⟩
      rw [ht, cullNode_eq V info cameraSpace s pool k va vv store _ nodes hd hs hk ha hr hcull,
        keptPositions_succ, takeAt_append, List.flatMap_append])
  rw [h1, p1]
  rfl

end IndexCulling

theorem resizedPools_length {F Mat : Type} (s : State F Mat) :
    s.indexPoolsStore.length ≤ (resizedPools s).length := by
  unfold resizedPools
  split
  · simp
  · omega

section IndexCullingMain

variable {F Mat : Type} [LinearOrderedField F]

/-- The result of `cullIndexPools` on a well-formed state: it returns, only the visible index
vector and (by the resize) the valid flags change, the pools of the draw pools become the
concatenations of the slices of their kept nodes, and the other pools stay as the resize left
them. -/
theorem cullIndexPools_ok (V : VecMath F Mat) (W : MatMath F Mat) (s : State F Mat)
    (camera : DrawCamera F Mat) (hwf : IndexPoolsWellFormed s)
    (hcam : s.cameras[s.currentCamera.toNat]? = some camera) :
    ∃ va : List (List Nat),
      cullIndexPools V W s =
        .ok { s with indexPools := va, indexBuffersValid := resizedValid s } ∧
      va.length = (resizedPools s).length ∧
      (∀ (pool : Nat) (nodes : List (DrawNode F)) (store : List Nat),
        s.drawPools[pool]? = some nodes → s.indexPoolsStore[pool]? = some store →
        va[pool]? = some (visibleIndices store nodes (nodeKept V s (findFrustumInfo V camera)
          (getCameraSpace V W camera s.moveVec s.dirVec) pool))) ∧
      ∀ pool : Nat, s.drawPools.length ≤ pool → va[pool]? = (resizedPools s)[pool]? := by
  obtain ⟨hc0, -, hds, hr, hcull⟩ := hwf
  have hlen := resizedPools_length s
  have hentry : cullIndexPools V W s = (List.range s.drawPools.length).foldlM
      (cullIndexPool V (findFrustumInfo V camera) (getCameraSpace V W camera s.moveVec s.dirVec))
      { s with indexPools := resizedPools s, indexBuffersValid := resizedValid s } := by
    by_cases hlt : s.indexPools.length < s.indexPoolsStore.length
    · simp only [cullIndexPools, resizedPools, resizedValid, hlt, if_true,
        getAtInt_of_some _ _ _ _ hc0 hcam, ok_bind]
    · simp only [cullIndexPools, resizedPools, resizedValid, hlt, if_false,
        getAtInt_of_some _ _ _ _ hc0 hcam, ok_bind]
  rw [hentry]
  obtain ⟨s1, h1, va, hs1, hla, hp, hframe⟩ := foldlM_range_inv
    (cullIndexPool V (findFrustumInfo V camera) (getCameraSpace V W camera s.moveVec s.dirVec))
    (fun m t => ∃ va : List (List Nat),
      t = { s with indexPools := va, indexBuffersValid := resizedValid s } ∧
      va.length = (resizedPools s).length ∧
      (∀ pool : Nat, pool < m → ∀ (nodes : List (DrawNode F)) (store : List Nat),
        s.drawPools[pool]? = some nodes → s.indexPoolsStore[pool]? = some store →
        va[pool]? = some (visibleIndices store nodes (nodeKept V s (findFrustumInfo V camera)
          (getCameraSpace V W camera s.moveVec s.dirVec) pool))) ∧
      ∀ pool : Nat, m ≤ pool → va[pool]? = (resizedPools s)[pool]?)
    s.drawPools.length
    { s with indexPools := resizedPools s, indexBuffersValid := resizedValid s }
    ⟨resizedPools s, rfl, rfl, fun pool hp => absurd hp (Nat.not_lt_zero pool),
      fun _ _ => rfl⟩
    (by
      rintro m t hm ⟨va, ht, hla, hp, hframe⟩
      have hdm : s.drawPools[m]? = some s.drawPools[m] := List.getElem?_eq_getElem hm
      have hsm : s.indexPoolsStore[m]? = some s.indexPoolsStore[m] :=
        List.getElem?_eq_getElem (by omega)
      have hstep := cullIndexPool_eq V (findFrustumInfo V camera)
        (getCameraSpace V W camera s.moveVec s.dirVec) s m va (resizedValid s) _ _ hdm hsm
        (by omega) (hr m _ _ hdm hsm) (fun hu => hcull hu m _ hdm)
      rw [← ht] at hstep
      refine ⟨_, hstep, _, rfl, by simpa using hla, ?_, ?_⟩
      · intro pool hpl nodes store hd hs
        rcases Nat.lt_succ_iff_lt_or_eq.mp hpl with hlt | heq
        · have hne : m ≠ pool := by omega
          rw [List.getElem?_set_ne hne]
          exact hp pool hlt nodes store hd hs
        · subst heq
          rw [hdm] at hd
          rw [hsm] at hs
          cases hd
          cases hs
          simp [List.getElem?_set, hla]
          omega
      · intro pool hpl
        have hne : m ≠ pool := by omega
        rw [List.getElem?_set_ne hne]
        exact hframe pool (by omega))
  refine ⟨va, ?_, hla, ?_, hframe⟩
  · rw [h1, hs1]
  · intro pool nodes store hd hs
    exact hp pool (List.getElem?_eq_some_iff.mp hd).1 nodes store hd hs

end IndexCullingMain

section IndexCullingDemo

theorem demoCull_wellFormed (useCulling : Bool) : IndexPoolsWellFormed (demoCull useCulling) := by
  refine ⟨by simp [demoCull], by simp [demoCull], by simp [demoCull], ?_, ?_⟩
  · intro pool nodes store hd hs n hn
    match pool with
    | 0 =>
      simp only [demoCull, List.getElem?_cons_zero, Option.some.injEq] at hd hs
      subst hd
      subst hs
      simp only [List.mem_cons, List.mem_singleton, List.not_mem_nil, or_false] at hn
      rcases hn with rfl | rfl <;> simp
    | k + 1 => simp [demoCull] at hd
  · intro _ pool nodes hd
    match pool with
    | 0 =>
      simp only [demoCull, List.getElem?_cons_zero, Option.some.injEq] at hd
      subst hd
      exact ⟨_, rfl, by simp [demoCull]⟩
    | k + 1 => simp [demoCull] at hd

theorem demo_cullIndexPools :
    cullIndexPools evalVec evalMat (demoCull true) = .ok demoCulled := by
  obtain ⟨va, hrun, hla, hp, -⟩ := cullIndexPools_ok evalVec evalMat (demoCull true) demoCamera
    (demoCull_wellFormed true) rfl
  have h0 := hp 0 [⟨(⟨0, 0, 0⟩, 1 / 100), 0, 3⟩, ⟨(⟨0, 0, 0⟩, 1 / 100), 3, 3⟩]
    [10, 11, 12, 13, 14, 15] rfl rfl
  have hm : (demoCull true).moveVec = ⟨0, 0, 0⟩ := rfl
  have hd : (demoCull true).dirVec = ⟨0, 0, 1⟩ := rfl
  rw [hm, hd, demo_cameraSpace] at h0
  have k0 : nodeKept evalVec (demoCull true) (findFrustumInfo evalVec demoCamera)
      ⟨0, 0, 0⟩ 0 0 = true := by
    simp only [nodeKept, demoCull]
    simpa using demo_sphere_visible
  have k1 : nodeKept evalVec (demoCull true) (findFrustumInfo evalVec demoCamera)
      ⟨0, 0, 0⟩ 0 1 = false := by
    simp only [nodeKept, demoCull]
    simpa using demo_sphere_culled
  have hv : visibleIndices [10, 11, 12, 13, 14, 15]
      [(⟨(⟨0, 0, 0⟩, 1 / 100), 0, 3⟩ : DrawNode ℚ), ⟨(⟨0, 0, 0⟩, 1 / 100), 3, 3⟩]
      (nodeKept evalVec (demoCull true) (findFrustumInfo evalVec demoCamera) ⟨0, 0, 0⟩ 0) =
      [10, 11, 12] := by
    simp [visibleIndices, keptPositions, List.range_succ, List.filter_cons, k0, k1, takeAt,
      slice]
  rw [hv] at h0
  have hl : va.length = 1 := by
    rw [hla]
    simp [resizedPools, demoCull]
  have hva := eq_singleton_of_lookup va _ hl h0
  have hrv : resizedValid (demoCull true) = [false] := by
    simp [resizedValid, demoCull]
  rw [hrun, hva, hrv]
  rfl

end IndexCullingDemo

section IndexCullingClaims

variable {F Mat : Type} [LinearOrderedField F]

/-- C22: on a well-formed state `cullIndexPools` returns; afterwards, for every draw pool the
visible index list `indexPools[pool]` is the concatenation, in node order, of the slices
`indexPoolsStore[pool][indexStart .. indexStart + indexCount)` of exactly the nodes for which
culling is disabled or `sphereInFrustum(node.boundingSphere, info, cameraSpace,
transformPools[pool][node])` is true; `indexPoolsStore` is not modified. -/
theorem cullIndexPools_slices (V : VecMath F Mat) (W : MatMath F Mat) (s : State F Mat)
    (camera : DrawCamera F Mat) (hwf : IndexPoolsWellFormed s)
    (hcam : s.cameras[s.currentCamera.toNat]? = some camera) :
    ∃ s1, cullIndexPools V W s = .ok s1 ∧
      s.drawPools.length ≤ s1.indexPools.length ∧
      (∀ (pool : Nat) (nodes : List (DrawNode F)) (store : List Nat),
        s.drawPools[pool]? = some nodes → s.indexPoolsStore[pool]? = some store →
        s1.indexPools[pool]? = some (visibleIndices store nodes
          (nodeKept V s (findFrustumInfo V camera)
            (getCameraSpace V W camera s.moveVec s.dirVec) pool))) ∧
      s1.indexPoolsStore = s.indexPoolsStore := by
  obtain ⟨va, hrun, hla, hp, -⟩ := cullIndexPools_ok V W s camera hwf hcam
  have hlen := resizedPools_length s
  have hds := hwf.2.2.1
  refine ⟨_, hrun, ?_, hp, rfl⟩
  show s.drawPools.length ≤ va.length
  omega

/-- An instance of C22 with culling: of the two nodes of the draw pool of `demoCull` the first
is in the frustum and the second is not, and the visible index list is the slice `[0, 3)` of the
store. -/
theorem cullIndexPools_slices_witness :
    ∃ s1, cullIndexPools evalVec evalMat (demoCull true) = .ok s1 ∧
      s1.indexPools = [[10, 11, 12]] ∧
      s1.indexPoolsStore = [[10, 11, 12, 13, 14, 15]] := by
  obtain ⟨s1, hrun, -, -, hst⟩ := cullIndexPools_slices evalVec evalMat (demoCull true)
    demoCamera (demoCull_wellFormed true) rfl
  refine ⟨s1, hrun, ?_, hst⟩
  rw [demo_cullIndexPools] at hrun
  cases hrun
  rfl

end IndexCullingClaims

/-! ## The valid flags of the index pools -/

/-- One step of the flag loop of `createIndexBuffers`: the flag of `pool` becomes whether its
visible index list is non-empty. -/
theorem setValid_eq {F Mat : Type} (s : State F Mat) (va : List (List Nat)) (vv : List Bool) (pool : Nat)
    (indices : List Nat) (ha : va[pool]? = some indices) (hv : pool < vv.length) :
    setValid { s with indexPools := va, indexBuffersValid := vv } pool =
      .ok { s with indexPools := va,
                   indexBuffersValid := vv.set pool (decide (indices ≠ [])) } := by
  cases indices with
  | nil => simp [setValid, getAt_of_some _ _ _ _ ha, ok_bind, hv, pure_eq_ok]
  | cons i is => simp [setValid, getAt_of_some _ _ _ _ ha, ok_bind, hv, pure_eq_ok]

section ValidFlags

variable {F Mat : Type} [LinearOrderedField F]

/-- The result of `createIndexBuffers` under `useVertexBuffer` on a well-formed state: it returns,
the visible index pools are those that `cullIndexPools` leaves, and the flag of every pool says
whether its visible index list is non-empty. -/
theorem createIndexBuffers_ok (V : VecMath F Mat) (W : MatMath F Mat) (s : State F Mat)
    (camera : DrawCamera F Mat) (hwf : IndexPoolsWellFormed s) (hflags : ValidFlagsWellFormed s)
    (hcam : s.cameras[s.currentCamera.toNat]? = some camera)
    (huse : s.useVertexBuffer = true) :
    ∃ s0 s1, cullIndexPools V W s = .ok s0 ∧ createIndexBuffers V W s = .ok s1 ∧
      s1.indexPools = s0.indexPools ∧ s1.indexPools.length ≤ s1.indexBuffersValid.length ∧
      ∀ (pool : Nat) (indices : List Nat), s1.indexPools[pool]? = some indices →
        s1.indexBuffersValid[pool]? = some (decide (indices ≠ [])) := by
  obtain ⟨va, hrun, hla, -, -⟩ := cullIndexPools_ok V W s camera hwf hcam
  have hlv : va.length ≤ (resizedValid s).length := by
    rw [hla]
    unfold resizedPools resizedValid
    split
    · simp
    · exact hflags (by omega)
  obtain ⟨s1, h1, vv, hs1, hlen, hp⟩ := foldlM_range_inv setValid
    (fun k t => ∃ vv : List Bool,
      t = { s with indexPools := va, indexBuffersValid := vv } ∧
      vv.length = (resizedValid s).length ∧
      ∀ (pool : Nat) (indices : List Nat), pool < k → va[pool]? = some indices →
        vv[pool]? = some (decide (indices ≠ [])))
    va.length
    { s with indexPools := va, indexBuffersValid := resizedValid s }
    ⟨resizedValid s, rfl, rfl, fun pool _ hp => absurd hp (Nat.not_lt_zero pool)⟩
    (by
      rintro k t hk ⟨vv, ht, hlen, hp⟩
      have hak : va[k]? = some va[k] := List.getElem?_eq_getElem hk
      have hstep := setValid_eq s va vv k _ hak (by omega)
      rw [← ht] at hstep
      refine ⟨_, hstep, _, rfl, by simpa using hlen, ?_⟩
      intro pool indices hpl hi
      rcases Nat.lt_succ_iff_lt_or_eq.mp hpl with hlt | heq
      · have hne : k ≠ pool := by omega
        rw [List.getElem?_set_ne hne]
        exact hp pool indices hlt hi
      · subst heq
        rw [hak] at hi
        cases hi
        simp only [List.getElem?_set, if_true]
        rw [if_pos (by omega)])
  refine ⟨_, s1, hrun, ?_, ?_, ?_, ?_⟩
  · unfold createIndexBuffers
    rw [if_pos huse, hrun]
    exact h1
  · rw [hs1]
  · rw [hs1]
    show va.length ≤ vv.length
    omega
  · intro pool indices hi
    rw [hs1] at hi
    rw [hs1]
    exact hp pool indices (List.getElem?_eq_some_iff.mp hi).1 hi

end ValidFlags

section ValidFlagsClaims

variable {F Mat : Type} [LinearOrderedField F]

/-- C23: after the index pools have been culled by `createIndexBuffers` (under
`useVertexBuffer`, on a well-formed state; the visible index pools are those that
`cullIndexPools` leaves), every pool of the visible index vector, and so every draw pool, has a
valid flag, and the flag `indexBuffersValid[pool]` is true if and only if the visible index list
`indexPools[pool]` is non-empty. -/
theorem createIndexBuffers_valid (V : VecMath F Mat) (W : MatMath F Mat) (s : State F Mat)
    (camera : DrawCamera F Mat) (hwf : IndexPoolsWellFormed s) (hflags : ValidFlagsWellFormed s)
    (hcam : s.cameras[s.currentCamera.toNat]? = some camera)
    (huse : s.useVertexBuffer = true) :
    ∃ s0 s1, cullIndexPools V W s = .ok s0 ∧ createIndexBuffers V W s = .ok s1 ∧
      s1.indexPools = s0.indexPools ∧
      s.drawPools.length ≤ s1.indexPools.length ∧
      ∀ (pool : Nat) (indices : List Nat), s1.indexPools[pool]? = some indices →
        ∃ flag, s1.indexBuffersValid[pool]? = some flag ∧ (flag = true ↔ indices ≠ []) := by
  obtain ⟨s0, s1, hcull, hrun, hpools, -, hp⟩ :=
    createIndexBuffers_ok V W s camera hwf hflags hcam huse
  obtain ⟨va, hrun0, hla, -, -⟩ := cullIndexPools_ok V W s camera hwf hcam
  have hlen := resizedPools_length s
  have hds := hwf.2.2.1
  refine ⟨s0, s1, hcull, hrun, hpools, ?_, ?_⟩
  · rw [hpools]
    rw [hrun0] at hcull
    cases hcull
    show s.drawPools.length ≤ va.length
    omega
  · intro pool indices hi
    exact ⟨_, hp pool indices hi, by simp⟩

/-- An instance of C23: from `demoCull true` the one pool keeps three indices and its flag is
true. -/
theorem createIndexBuffers_valid_witness :
    ∃ s1, createIndexBuffers evalVec evalMat (demoCull true) = .ok s1 ∧
      s1.indexPools = [[10, 11, 12]] ∧ s1.indexBuffersValid[0]? = some true := by
  obtain ⟨s0, s1, hcull, hrun, hpools, -, hp⟩ := createIndexBuffers_valid evalVec evalMat
    (demoCull true) demoCamera (demoCull_wellFormed true)
    (by simp [ValidFlagsWellFormed, demoCull]) rfl rfl
  rw [demo_cullIndexPools] at hcull
  cases hcull
  have hpools1 : s1.indexPools = [[10, 11, 12]] := hpools
  obtain ⟨flag, hf, hiff⟩ := hp 0 [10, 11, 12] (by rw [hpools1]; rfl)
  have : flag = true := hiff.mpr (by simp)
  subst this
  exact ⟨s1, hrun, hpools1, hf⟩

end ValidFlagsClaims

/-! ## Idempotence of the index culling -/

theorem wellFormed_of_same {F Mat : Type} (s t : State F Mat) (h : SameCullInputs s t)
    (hwf : IndexPoolsWellFormed s) : IndexPoolsWellFormed t := by
  obtain ⟨h1, h2, h3, h4, h5, -, -, h8⟩ := h
  unfold IndexPoolsWellFormed
  rw [h1, h2, h3, h4, h5, h8]
  exact hwf

section Idempotence

variable {F Mat : Type} [LinearOrderedField F]

theorem nodeKept_congr (V : VecMath F Mat) (s t : State F Mat) (info : frustumInfo F)
    (cameraSpace : Mat) (pool : Nat) (h : SameCullInputs s t) :
    nodeKept V t info cameraSpace pool = nodeKept V s info cameraSpace pool := by
  obtain ⟨h1, -, h3, -, -, -, -, h8⟩ := h
  funext k
  simp only [nodeKept, h1, h3, h8]

end Idempotence

section IdempotenceClaims

variable {F Mat : Type} [LinearOrderedField F]

/-- C24: `cullIndexPools` is idempotent.  When a first call on a well-formed state has returned,
a second call on any state in which the draw pools, the index store, the transform pools, the
cameras and the current one, the camera vectors and the culling flag are as the first call left
them, and the visible index pools are what the first call produced, returns and leaves
`indexPools` identical to what the first call produced. -/
theorem cullIndexPools_idempotent (V : VecMath F Mat) (W : MatMath F Mat)
    (s s1 s2 : State F Mat) (camera : DrawCamera F Mat) (hwf : IndexPoolsWellFormed s)
    (hcam : s.cameras[s.currentCamera.toNat]? = some camera)
    (hfirst : cullIndexPools V W s = .ok s1) (hsame : SameCullInputs s1 s2)
    (hpools : s2.indexPools = s1.indexPools) :
    ∃ s3, cullIndexPools V W s2 = .ok s3 ∧ s3.indexPools = s1.indexPools := by
  obtain ⟨va, hrun, hla, hp, hframe⟩ := cullIndexPools_ok V W s camera hwf hcam
  rw [hrun] at hfirst
  cases hfirst
  have hs2 : SameCullInputs s s2 := hsame
  obtain ⟨e1, e2, e3, e4, e5, e6, e7, e8⟩ := hs2
  have hpools2 : s2.indexPools = va := hpools
  have hwf2 := wellFormed_of_same s s2 hsame hwf
  have hcam2 : s2.cameras[s2.currentCamera.toNat]? = some camera := by
    rw [e4, e5]
    exact hcam
  obtain ⟨vb, hrun2, hlb, hp2, hframe2⟩ := cullIndexPools_ok V W s2 camera hwf2 hcam2
  have hlen := resizedPools_length s
  have hres : resizedPools s2 = va := by
    unfold resizedPools
    rw [hpools2, e2, if_neg (by omega)]
  refine ⟨_, hrun2, ?_⟩
  show vb = va
  apply List.ext_getElem?
  intro pool
  by_cases hpl : pool < s.drawPools.length
  · have hd : s.drawPools[pool]? = some s.drawPools[pool] := List.getElem?_eq_getElem hpl
    have hpl2 : pool < s.indexPoolsStore.length := by
      have := hwf.2.2.1
      omega
    have hst : s.indexPoolsStore[pool]? = some s.indexPoolsStore[pool] :=
      List.getElem?_eq_getElem hpl2
    rw [hp pool _ _ hd hst, hp2 pool _ _ (by rw [e1]; exact hd) (by rw [e2]; exact hst),
      nodeKept_congr V s s2 _ _ pool hsame, e6, e7]
  · rw [hframe2 pool (by rw [e1]; omega), hres]

/-- An instance of C24: the second call on the state that the first call leaves from
`demoCull true` leaves the visible index pools `[[10, 11, 12]]`. -/
theorem cullIndexPools_idempotent_witness :
    cullIndexPools evalVec evalMat (demoCull true) = .ok demoCulled ∧
      ∃ s3, cullIndexPools evalVec evalMat demoCulled = .ok s3 ∧
        s3.indexPools = [[10, 11, 12]] :=
  ⟨demo_cullIndexPools, cullIndexPools_idempotent evalVec evalMat (demoCull true) demoCulled
    demoCulled demoCamera (demoCull_wellFormed true) rfl demo_cullIndexPools
    ⟨rfl, rfl, rfl, rfl, rfl, rfl, rfl, rfl⟩ rfl⟩

end IdempotenceClaims

/-! ## The NaN guard of the sphere test -/

section NaNGuard

variable {F Mat : Type} [LinearOrderedField F]

/-- C25: `sphereInFrustum` returns false (it is a total function, nothing is thrown) whenever a
coordinate of the transformed centre `toCameraSpace * toWorldSpace * centre` is NaN, which the
embedding renders as the result `none` of the matrix product, for every sphere radius and every
frustum. -/
theorem sphereInFrustum_nan (V : VecMath F Mat) (centre : float_3 F) (radius : F)
    (info : frustumInfo F) (toCameraSpace toWorldSpace : Mat)
    (hnan : V.toCamera toCameraSpace toWorldSpace centre = none) :
    sphereInFrustum V (centre, radius) info toCameraSpace toWorldSpace = false := by
  unfold sphereInFrustum
  simp only [hnan]

/-- An instance of C25: a sphere two units in front of `demoCamera`, which is visible through a
camera matrix without NaN entries, is not visible through one with NaN entries. -/
theorem sphereInFrustum_nan_witness :
    sphereInFrustum nanVec (⟨0, 0, -2⟩, 1 / 100)
        (findFrustumInfo nanVec ⟨⟨3 / 2, 1, 1, 3⟩, some ⟨0, 0, 0⟩⟩) none (some ⟨0, 0, 0⟩) = false ∧
      sphereInFrustum nanVec (⟨0, 0, -2⟩, 1 / 100)
        (findFrustumInfo nanVec ⟨⟨3 / 2, 1, 1, 3⟩, some ⟨0, 0, 0⟩⟩) (some ⟨0, 0, 0⟩)
        (some ⟨0, 0, 0⟩) = true := by
  refine ⟨sphereInFrustum_nan nanVec ⟨0, 0, -2⟩ (1 / 100) _ none (some ⟨0, 0, 0⟩) rfl, ?_⟩
  have hlaw : NormalizeLaw nanVec := by
    intro v s hs hv
    show v.scale (1 / Rat.sqrt (v.dot v)) = v.scale (1 / s)
    rw [hv, Rat.sqrt_eq, abs_of_pos hs]
  rw [findFrustumInfo_demo nanVec (3 / 2) (some (⟨0, 0, 0⟩ : float_3 ℚ)) hlaw
    (by norm_num [nanVec])]
  norm_num [sphereInFrustum, nanVec, closestPoints, projectOnPlane, clampLoHi, clampHiLo,
    float_3.sub, float_3.dot, float_3.scale, float_3.add]

end NaNGuard

/-! ## The candidates and their faces -/

section CandidateFaces

variable {F Mat : Type} [LinearOrderedField F]

/-- The code at the failing input of C26: for the camera with `tan(vfov/2) = 3/4`, aspect 1,
near 1 and far 3 and a sphere whose centre is at the camera position `(0, 0, 0)` in camera
space, the six candidates of `sphereInFrustum` are `(0, 0, 1)`, `(0, 0, 3)` and, on the four
sides, `(±12/25, 0, 16/25)` and `(0, ±12/25, 16/25)`.  The right candidate lies on the right
plane, but its depth `16/25` is below the near plane, so it is not on the right face; the same
holds for the other three sides. -/
theorem closestPoints_off_face (V : VecMath F Mat) (vfov : F) (tr : Mat)
    (hlaw : NormalizeLaw V) (hT : V.tan (vfov / 2) = 3 / 4) :
    closestPoints (findFrustumInfo V ⟨⟨vfov, 1, 1, 3⟩, tr⟩) ⟨0, 0, 0⟩ =
        Candidates.mk ⟨0, 0, 1⟩ ⟨0, 0, 3⟩ ⟨12 / 25, 0, 16 / 25⟩ ⟨-12 / 25, 0, 16 / 25⟩
          ⟨0, 12 / 25, 16 / 25⟩ ⟨0, -12 / 25, 16 / 25⟩ ∧
      OnPlane (findFrustumInfo V ⟨⟨vfov, 1, 1, 3⟩, tr⟩).rightNormal
        (findFrustumInfo V ⟨⟨vfov, 1, 1, 3⟩, tr⟩).rightOrigin
        (closestPoints (findFrustumInfo V ⟨⟨vfov, 1, 1, 3⟩, tr⟩) ⟨0, 0, 0⟩).rightPoint ∧
      ¬ ((findFrustumInfo V ⟨⟨vfov, 1, 1, 3⟩, tr⟩).nearZ ≤
        (closestPoints (findFrustumInfo V ⟨⟨vfov, 1, 1, 3⟩, tr⟩) ⟨0, 0, 0⟩).rightPoint.z) ∧
      ¬ ((findFrustumInfo V ⟨⟨vfov, 1, 1, 3⟩, tr⟩).nearZ ≤
        (closestPoints (findFrustumInfo V ⟨⟨vfov, 1, 1, 3⟩, tr⟩) ⟨0, 0, 0⟩).leftPoint.z) ∧
      ¬ ((findFrustumInfo V ⟨⟨vfov, 1, 1, 3⟩, tr⟩).nearZ ≤
        (closestPoints (findFrustumInfo V ⟨⟨vfov, 1, 1, 3⟩, tr⟩) ⟨0, 0, 0⟩).topPoint.z) ∧
      ¬ ((findFrustumInfo V ⟨⟨vfov, 1, 1, 3⟩, tr⟩).nearZ ≤
        (closestPoints (findFrustumInfo V ⟨⟨vfov, 1, 1, 3⟩, tr⟩) ⟨0, 0, 0⟩).bottomPoint.z) := by
  have hc : closestPoints (findFrustumInfo V ⟨⟨vfov, 1, 1, 3⟩, tr⟩) ⟨0, 0, 0⟩ =
      Candidates.mk ⟨0, 0, 1⟩ ⟨0, 0, 3⟩ ⟨12 / 25, 0, 16 / 25⟩ ⟨-12 / 25, 0, 16 / 25⟩
        ⟨0, 12 / 25, 16 / 25⟩ ⟨0, -12 / 25, 16 / 25⟩ := by
    rw [findFrustumInfo_demo V vfov tr hlaw hT]
    norm_num [closestPoints, projectOnPlane, clampLoHi, clampHiLo, float_3.sub, float_3.dot,
      float_3.scale]
  rw [hc, findFrustumInfo_demo V vfov tr hlaw hT]
  refine ⟨rfl, ?_, ?_, ?_, ?_, ?_⟩ <;> norm_num [OnPlane, float_3.sub, float_3.dot]

/-- The failing input of C26 evaluated on the operations over `ℚ`. -/
theorem closestPoints_off_face_witness :
    (closestPoints (findFrustumInfo evalVec demoCamera) ⟨0, 0, 0⟩).rightPoint
        = ⟨12 / 25, 0, 16 / 25⟩ ∧
      ¬ ((findFrustumInfo evalVec demoCamera).nearZ ≤
        (closestPoints (findFrustumInfo evalVec demoCamera) ⟨0, 0, 0⟩).rightPoint.z) := by
  have h := closestPoints_off_face evalVec (3 / 2) (⟨0, 0, 0⟩ : float_3 ℚ) evalVec_normalizeLaw
    (by norm_num [evalVec])
  exact ⟨by rw [show demoCamera = ⟨⟨3 / 2, 1, 1, 3⟩, ⟨0, 0, 0⟩⟩ from rfl, h.1], h.2.2.1⟩

end CandidateFaces

/-! ## The located index and the interpolation fraction -/

section FractionRange

variable {F : Type} {Q : Type} [LinearOrderedField F]

/-- The keyframe search for a runtime between the first and the last keyframe time stops before
the last index, at an index whose time is not above the runtime and whose successor time is not
below it. -/
theorem locateLoop_between (times : List F) (r : F) (h2 : 2 ≤ times.length)
    (hlo : timeAt times 0 ≤ r) (hhi : r ≤ timeAt times (times.length - 1)) :
    ∃ i, locateLoop times r 0 = .ok i ∧ i + 1 < times.length ∧ nextIndex times i = i + 1 ∧
      timeAt times i ≤ r ∧ r ≤ timeAt times (i + 1) := by
  obtain ⟨i, hi, -, hlt, hbelow, hstop⟩ := locateLoop_spec times r 0 (by omega)
  have hnot : i ≠ times.length - 1 := by
    intro he
    have h := hbelow (i - 1) (Nat.zero_le _) (by omega)
    rw [show i - 1 + 1 = times.length - 1 by omega] at h
    exact absurd hhi (not_le.mpr h)
  have hnext : i + 1 < times.length := by omega
  refine ⟨i, hi, hnext, ?_, ?_, ?_⟩
  · unfold nextIndex
    rw [if_neg (by omega)]
  · rcases Nat.eq_zero_or_pos i with h0 | hpos
    · rw [h0]
      exact hlo
    · have h := hbelow (i - 1) (Nat.zero_le _) (by omega)
      rw [show i - 1 + 1 = i by omega] at h
      exact le_of_lt h
  · rcases hstop with h | h
    · exact absurd h hnot
    · exact h

end FractionRange

section FractionRangeClaims

variable {F : Type} {Q : Type} [LinearOrderedField F]

/-- C27: for every driver with at least two strictly increasing keyframe times whose wrapped
runtime `r` satisfies `times[0] ≤ r ≤ times[last]`, `updateTransform` locates an index `i` with
`i + 1 < count` and `times[i] ≤ r ≤ times[i + 1]`, it passes `i` to the channel update, whose
successor index is `i + 1`, and the interpolation fraction `t` that `updateChannelLinear` and
`updateChannelSlerp` compute lies in `[0, 1]`. -/
theorem updateTransform_fraction_range (M : MathHelpers F Q) (d : Driver F) (dt : F)
    (sg : SceneGraph F Q) (loop : Bool) (h2 : 2 ≤ d.times.length)
    (hinc : StrictlyIncreasing d.times)
    (hlo : firstTime d ≤ (advanced d dt loop).currentRuntime)
    (hhi : (advanced d dt loop).currentRuntime ≤ lastTime d) :
    ∃ i, locateLoop d.times (advanced d dt loop).currentRuntime 0 = .ok i ∧
      updateTransform M d dt sg loop =
        (match d.interpolation with
          | .LINEAR => updateChannelLinear M (advanced d dt loop) i sg
          | .STEP => updateChannelStep M (advanced d dt loop) i sg
          | .SLERP => updateChannelSlerp M (advanced d dt loop) i sg) ∧
      i + 1 < d.times.length ∧ nextIndex d.times i = i + 1 ∧
      timeAt d.times i ≤ (advanced d dt loop).currentRuntime ∧
      (advanced d dt loop).currentRuntime ≤ timeAt d.times (i + 1) ∧
      0 ≤ fraction (advanced d dt loop) i (nextIndex d.times i) ∧
      fraction (advanced d dt loop) i (nextIndex d.times i) ≤ 1 := by
  obtain ⟨i, hi, hnext, hni, h1, h3⟩ :=
    locateLoop_between d.times (advanced d dt loop).currentRuntime h2 hlo hhi
  obtain ⟨j, -, hj, hut⟩ := updateTransform_eq M d dt sg loop (by omega)
  have hij : j = i := by
    have h : (Except.ok j : Except Fault Nat) = .ok i := hj.symm.trans hi
    cases h
    rfl
  subst hij
  have hden : 0 < timeAt d.times (j + 1) - timeAt d.times j :=
    sub_pos.mpr (hinc j (j + 1) (Nat.lt_succ_self j) hnext)
  have ht : (advanced d dt loop).times = d.times := rfl
  refine ⟨j, hi, hut, hnext, hni, h1, h3, ?_, ?_⟩
  · rw [hni]
    unfold fraction
    rw [ht]
    exact div_nonneg (sub_nonneg.mpr h1) (le_of_lt hden)
  · rw [hni]
    unfold fraction
    rw [ht]
    exact (div_le_one hden).mpr (by linarith)

/-- An instance of C27: with `times = [0, 1, 2]`, runtime 0 and delta `1/2` the located index has
a successor and the fraction lies in `[0, 1]`. -/
theorem updateTransform_fraction_range_witness :
    ∃ i, locateLoop [(0 : ℚ), 1, 2] (1 / 2) 0 = .ok i ∧ i + 1 < 3 ∧
      0 ≤ fraction (demoDriver Channel.CH_TRANSLATE Interpolation.LINEAR (1 / 2) (-1)) i
        (nextIndex [(0 : ℚ), 1, 2] i) ∧
      fraction (demoDriver Channel.CH_TRANSLATE Interpolation.LINEAR (1 / 2) (-1)) i
        (nextIndex [(0 : ℚ), 1, 2] i) ≤ 1 := by
  have hadv : advanced (demoDriver Channel.CH_TRANSLATE Interpolation.LINEAR 0 (-1)) (1 / 2)
      false = demoDriver Channel.CH_TRANSLATE Interpolation.LINEAR (1 / 2) (-1) := by
    norm_num [advanced, wrappedRuntime, advancedRuntime, demoDriver, firstTime, lastTime, timeAt]
  obtain ⟨i, hi, -, hn, -, -, -, h0, h1⟩ := updateTransform_fraction_range evalMath
    (demoDriver Channel.CH_TRANSLATE Interpolation.LINEAR 0 (-1)) (1 / 2) demoScene false
    (by simp [demoDriver]) demo_increasing
    (by rw [hadv]; norm_num [demoDriver, firstTime, timeAt])
    (by rw [hadv]; norm_num [demoDriver, lastTime, timeAt])
  rw [hadv] at hi h0 h1
  exact ⟨i, hi, hn, h0, h1⟩

end FractionRangeClaims

/-! ## Looping keeps the runtime in range -/

section LoopRange

variable {F : Type} {Q : Type} [LinearOrderedField F]

/-- The wrapped runtime of a looping driver with first keyframe time 0 stays in `[0, L]` when the
old runtime is in `[0, L]` and the delta is at most `L` in absolute value. -/
theorem wrappedRuntime_loop_range (r dt L : F) (hr0 : 0 ≤ r) (hr1 : r ≤ L) (hdt : |dt| ≤ L) :
    0 ≤ wrappedRuntime r dt true 0 L ∧ wrappedRuntime r dt true 0 L ≤ L := by
  obtain ⟨hd1, hd2⟩ := abs_le.mp hdt
  unfold wrappedRuntime advancedRuntime
  simp only [true_or, if_true, true_and]
  by_cases h1 : r + dt > L
  · rw [if_pos h1]
    have h2 : ¬ (r + dt - L < 0) := by linarith
    rw [if_neg h2]
    constructor <;> linarith
  · rw [if_neg h1]
    by_cases h2 : r + dt < 0
    · rw [if_pos h2]
      constructor <;> linarith
    · rw [if_neg h2]
      constructor <;> linarith

end LoopRange

section LoopRangeClaims

variable {F : Type} {Q : Type} [LinearOrderedField F]

/-- C28: looping keeps the runtime in range.  For every driver with `times[0] = 0` and last
keyframe time `L`, if `0 ≤ currentRuntime ≤ L` (so `L ≥ 0`) and `|delta| ≤ L`, then the runtime
statements of `updateTransform` with `loop = true` leave a runtime in `[0, L]`, and on a
well-formed driver `updateTransform` returns with that runtime. -/
theorem updateTransform_loop_range (M : MathHelpers F Q) (d : Driver F) (dt : F)
    (sg : SceneGraph F Q) (hne : 0 < d.times.length) (h0 : firstTime d = 0)
    (hr0 : 0 ≤ d.currentRuntime) (hr1 : d.currentRuntime ≤ lastTime d)
    (hdt : |dt| ≤ lastTime d) :
    (∃ d0, advanceRuntime d dt true = .ok d0 ∧
      0 ≤ d0.currentRuntime ∧ d0.currentRuntime ≤ lastTime d) ∧
    (WellFormed d sg → ∃ d1 sg1 b, updateTransform M d dt sg true = .ok (d1, sg1, b) ∧
      0 ≤ d1.currentRuntime ∧ d1.currentRuntime ≤ lastTime d) := by
  have hrange := wrappedRuntime_loop_range d.currentRuntime dt (lastTime d) hr0 hr1 hdt
  constructor
  · refine ⟨_, advanceRuntime_eq d dt true hne, ?_, ?_⟩
    · rw [h0]
      exact hrange.1
    · rw [h0]
      exact hrange.2
  · intro hwf
    obtain ⟨ind, li, sg2, b, -, -, hut, -, -, -⟩ := updateTransform_ok M d dt sg true hwf
    refine ⟨_, sg2, b, hut, ?_, ?_⟩
    · show 0 ≤ wrappedRuntime d.currentRuntime dt true (firstTime d) (lastTime d)
      rw [h0]
      exact hrange.1
    · show wrappedRuntime d.currentRuntime dt true (firstTime d) (lastTime d) ≤ lastTime d
      rw [h0]
      exact hrange.2

/-- An instance of C28: with `times = [0, 1, 2]`, runtime `3/2` and delta 1 the looping call
returns with a runtime in `[0, 2]`. -/
theorem updateTransform_loop_range_witness :
    ∃ d1 sg1 b, updateTransform evalMath
        (demoDriver Channel.CH_TRANSLATE Interpolation.LINEAR (3 / 2) (-1)) 1 demoScene true
          = .ok (d1, sg1, b) ∧
      0 ≤ d1.currentRuntime ∧ d1.currentRuntime ≤ 2 := by
  have hl : lastTime (demoDriver Channel.CH_TRANSLATE Interpolation.LINEAR (3 / 2) (-1)) = 2 := by
    norm_num [lastTime, timeAt, demoDriver]
  have h := (updateTransform_loop_range evalMath
    (demoDriver Channel.CH_TRANSLATE Interpolation.LINEAR (3 / 2) (-1)) 1 demoScene
    (by simp [demoDriver]) (by norm_num [firstTime, timeAt, demoDriver])
    (by norm_num [demoDriver]) (by rw [hl]; norm_num [demoDriver])
    (by rw [hl]; norm_num)).2
    (demo_wellFormed _ _ _ _ (by decide))
  rw [hl] at h
  exact h

end LoopRangeClaims

/-! ## The reads of the driver evaluation are within bounds -/

section ReadBounds

variable {F : Type} {Q : Type} [LinearOrderedField F]

omit [LinearOrderedField F] in
theorem writeNode_of_none (sg : SceneGraph F Q) (id : Nat) (f : GraphNode F Q → GraphNode F Q)
    (h : sg.graphNodes[id]? = none) : writeNode sg id f = .error Fault.node := by
  simp [writeNode, h]

omit [LinearOrderedField F] in
theorem readsInBounds_ok {α : Type} (a : α) : ReadsInBounds (.ok a : Except Fault α) :=
  ⟨fun h => (by cases h), fun h => (by cases h)⟩

omit [LinearOrderedField F] in
theorem readsInBounds_node {α : Type} : ReadsInBounds (.error Fault.node : Except Fault α) :=
  ⟨fun h => (by cases h), fun h => (by cases h)⟩

/-- Without a target node `updateChannelLinear` stops at the node subscript, after reads that are
all within bounds. -/
theorem linear_no_node (M : MathHelpers F Q) (d : Driver F) (ind : Nat) (sg : SceneGraph F Q)
    (hind : ind < d.times.length)
    (hv : (match d.channel with
      | .CH_ROTATE => d.times.length * 4
      | _ => d.times.length * 3) ≤ d.values.length)
    (hnode : sg.graphNodes[d.id]? = none) :
    updateChannelLinear M d ind sg = .error Fault.node := by
  have hnext := nextIndex_lt d.times ind hind
  have r1 := readAt_of_lt Fault.times d.times ind hind
  have r2 := readAt_of_lt Fault.times d.times _ hnext
  rcases channel_cases d.channel with hch | hch | hch <;> rw [hch] at hv <;> simp only at hv
  · have v1 := readVec_of_lt d.values (ind * 3) (by omega)
    have v2 := readVec_of_lt d.values (nextIndex d.times ind * 3) (by omega)
    simp only [updateChannelLinear, r1, r2, v1, v2, hch, ok_bind,
      writeNode_of_none sg d.id _ hnode, error_bind]
  · have a1 := readAt_of_lt Fault.values d.values (ind * 4 + 3) (by omega)
    have a2 := readAt_of_lt Fault.values d.values (nextIndex d.times ind * 4 + 3) (by omega)
    have v1 := readVec_of_lt d.values (ind * 4) (by omega)
    have v2 := readVec_of_lt d.values (nextIndex d.times ind * 4) (by omega)
    simp only [updateChannelLinear, r1, r2, a1, a2, v1, v2, hch, ok_bind,
      writeNode_of_none sg d.id _ hnode, error_bind]
  · have v1 := readVec_of_lt d.values (ind * 3) (by omega)
    have v2 := readVec_of_lt d.values (nextIndex d.times ind * 3) (by omega)
    simp only [updateChannelLinear, r1, r2, v1, v2, hch, ok_bind,
      writeNode_of_none sg d.id _ hnode, error_bind]

/-- Without a target node `updateChannelSlerp` stops at the node subscript, after reads that are
all within bounds. -/
theorem slerp_no_node (M : MathHelpers F Q) (d : Driver F) (ind : Nat) (sg : SceneGraph F Q)
    (hind : ind < d.times.length)
    (hv : (match d.channel with
      | .CH_ROTATE => d.times.length * 4
      | _ => d.times.length * 3) ≤ d.values.length)
    (hnode : sg.graphNodes[d.id]? = none) :
    updateChannelSlerp M d ind sg = .error Fault.node := by
  rcases channel_cases d.channel with hch | hch | hch
  · rw [slerp_eq_linear_of_channel M d ind sg (Or.inl hch)]
    exact linear_no_node M d ind sg hind hv hnode
  · have hnext := nextIndex_lt d.times ind hind
    have r1 := readAt_of_lt Fault.times d.times ind hind
    have r2 := readAt_of_lt Fault.times d.times _ hnext
    rw [hch] at hv
    simp only at hv
    have a1 := readAt_of_lt Fault.values d.values (ind * 4 + 3) (by omega)
    have a2 := readAt_of_lt Fault.values d.values (nextIndex d.times ind * 4 + 3) (by omega)
    have v1 := readVec_of_lt d.values (ind * 4) (by omega)
    have v2 := readVec_of_lt d.values (nextIndex d.times ind * 4) (by omega)
    simp only [updateChannelSlerp, r1, r2, a1, a2, v1, v2, hch, ok_bind,
      writeNode_of_none sg d.id _ hnode, error_bind]
  · rw [slerp_eq_linear_of_channel M d ind sg (Or.inr hch)]
    exact linear_no_node M d ind sg hind hv hnode

/-- Without a target node `updateChannelStep` returns without a write or stops at the node
subscript, after reads that are all within bounds. -/
theorem step_no_node (M : MathHelpers F Q) (d : Driver F) (ind : Nat) (sg : SceneGraph F Q)
    (hind : ind < d.times.length)
    (hv : (match d.channel with
      | .CH_ROTATE => d.times.length * 4
      | _ => d.times.length * 3) ≤ d.values.length)
    (hnode : sg.graphNodes[d.id]? = none) :
    ReadsInBounds (updateChannelStep M d ind sg) := by
  by_cases h : d.lastIndex = (ind : Int)
  · rw [step_same M d ind sg h]
    exact readsInBounds_ok _
  · have he : updateChannelStep M d ind sg = .error Fault.node := by
      rcases channel_cases d.channel with hch | hch | hch <;> rw [hch] at hv <;>
        simp only at hv
      · simp only [updateChannelStep, h, if_false, hch,
          readVec_of_lt d.values (ind * 3) (by omega), ok_bind,
          writeNode_of_none sg d.id _ hnode, error_bind]
      · simp only [updateChannelStep, h, if_false, hch,
          readVec_of_lt d.values (ind * 4) (by omega),
          readAt_of_lt Fault.values d.values (ind * 4 + 3) (by omega), ok_bind,
          writeNode_of_none sg d.id _ hnode, error_bind]
      · simp only [updateChannelStep, h, if_false, hch,
          readVec_of_lt d.values (ind * 3) (by omega), ok_bind,
          writeNode_of_none sg d.id _ hnode, error_bind]
    rw [he]
    exact readsInBounds_node

/-- The denominator `times[next] - times[i]` of the interpolation fraction is non-zero at every
index of at least two strictly increasing keyframe times. -/
theorem denominator_ne_zero (times : List F) (i : Nat) (h2 : 2 ≤ times.length)
    (hinc : StrictlyIncreasing times) (hi : i < times.length) :
    timeAt times (nextIndex times i) - timeAt times i ≠ 0 := by
  unfold nextIndex
  split
  · have h := hinc 0 i (by omega) hi
    exact ne_of_lt (sub_neg.mpr h)
  · have h := hinc i (i + 1) (Nat.lt_succ_self i) (by omega)
    exact ne_of_gt (sub_pos.mpr h)

end ReadBounds

section ReadBoundsClaims

variable {F : Type} {Q : Type} [LinearOrderedField F]

/-- C29: for every driver with `n ≥ 2` strictly increasing keyframe times and a values array of
length `3n` (TRANSLATE, SCALE) or `4n` (ROTATE), for every runtime, delta, loop flag and scene
graph, every read of `times[]` and `values[]` that `updateTransform` and the channel update it
dispatches to perform is within bounds (the call returns when the target node exists, and
otherwise stops at the node subscript or returns), the located index and its successor are
indices of `times[]`, and the interpolation denominator `times[next] - times[i]` is non-zero. -/
theorem updateTransform_reads_in_bounds (M : MathHelpers F Q) (d : Driver F) (dt : F)
    (sg : SceneGraph F Q) (loop : Bool) (h2 : 2 ≤ d.times.length)
    (hinc : StrictlyIncreasing d.times)
    (hlen : d.values.length = (match d.channel with
      | .CH_ROTATE => d.times.length * 4
      | _ => d.times.length * 3)) :
    ReadsInBounds (updateTransform M d dt sg loop) ∧
      (d.id < sg.graphNodes.length → ∃ out, updateTransform M d dt sg loop = .ok out) ∧
      ∃ i, locateLoop d.times (advanced d dt loop).currentRuntime 0 = .ok i ∧
        i < d.times.length ∧ nextIndex d.times i < d.times.length ∧
        timeAt d.times (nextIndex d.times i) - timeAt d.times i ≠ 0 := by
  have hne : 0 < d.times.length := by omega
  have hv : (match d.channel with
      | .CH_ROTATE => d.times.length * 4
      | _ => d.times.length * 3) ≤ d.values.length := le_of_eq hlen.symm
  obtain ⟨i, hi, hloc, hut⟩ := updateTransform_eq M d dt sg loop hne
  have hok : d.id < sg.graphNodes.length → ∃ out, updateTransform M d dt sg loop = .ok out := by
    intro hid
    obtain ⟨ind, li, sg2, b, -, -, h, -, -, -⟩ :=
      updateTransform_ok M d dt sg loop ⟨hne, hid, hv⟩
    exact ⟨_, h⟩
  refine ⟨?_, hok, i, hloc, hi, nextIndex_lt d.times i hi,
    denominator_ne_zero d.times i h2 hinc hi⟩
  by_cases hid : d.id < sg.graphNodes.length
  · obtain ⟨out, h⟩ := hok hid
    rw [h]
    exact readsInBounds_ok _
  · have hnode : sg.graphNodes[(advanced d dt loop).id]? = none :=
      List.getElem?_eq_none (by show sg.graphNodes.length ≤ d.id; omega)
    rw [hut]
    rcases interpolation_cases d.interpolation with hint | hint | hint <;> rw [hint]
    · show ReadsInBounds (updateChannelLinear M (advanced d dt loop) i sg)
      rw [linear_no_node M (advanced d dt loop) i sg hi hv hnode]
      exact readsInBounds_node
    · exact step_no_node M (advanced d dt loop) i sg hi hv hnode
    · show ReadsInBounds (updateChannelSlerp M (advanced d dt loop) i sg)
      rw [slerp_no_node M (advanced d dt loop) i sg hi hv hnode]
      exact readsInBounds_node

/-- An instance of C29: the driver with `times = [0, 1, 2]` and nine values, advanced beyond its
last keyframe without looping, is evaluated without a read out of bounds. -/
theorem updateTransform_reads_in_bounds_witness :
    ReadsInBounds (updateTransform evalMath
      (demoDriver Channel.CH_TRANSLATE Interpolation.LINEAR 2 (-1)) 5 demoScene false) :=
  (updateTransform_reads_in_bounds evalMath
    (demoDriver Channel.CH_TRANSLATE Interpolation.LINEAR 2 (-1)) 5 demoScene false
    (by simp [demoDriver]) demo_increasing (by simp [demoDriver])).1

end ReadBoundsClaims

/-! ## The side planes and the corners of their faces -/

section SidePlanes

variable {F Mat : Type} [LinearOrderedField F]

end SidePlanes

section SidePlanesUnit

variable {F Mat : Type} [LinearOrderedField F]

end SidePlanesUnit

section SidePlanesClaims

variable {F Mat : Type} [LinearOrderedField F]

end SidePlanesClaims

end VulkanSystem

